import Mathlib

/-!
# Bubble shooter: a shallow embedding of `src/game.js`

The simulation engine of the game (grid construction, snapping, flood fill,
floater detachment, shot update, trajectory preview, round, level and pause
control) is embedded as pure functions over an explicit game state.

Modelling conventions.

* JavaScript numbers are exact rationals (`ℚ`); counters are naturals.
* A bubble object carries an allocation tag `id`; two records are the same
  object exactly when they are equal, so the reference equality `===` and the
  membership test of a JavaScript `Set` are equality of records.  A `Set` is
  the list of its members in insertion order.
* Browser facilities (`Math.random`, `Math.cos`, `Math.sin`, `Math.atan2`,
  `Math.PI`, the canvas size) are fields of an environment `Env`.
* Sound, HUD and overlay calls have no effect on the game state and are left
  out; a `setTimeout` of the level-advance callback is counted in
  `pendingLevelAdvance`.
* A `while` loop is a structurally recursive function with a fuel argument;
  the callers pass a fuel that is proved sufficient.  A counted `for` loop
  recurses on the number of iterations left.
-/

namespace BubbleShooter

/-! ## Data model -/

/-- A point `{ x, y }`. -/
structure Point where
  x : ℚ
  y : ℚ
deriving DecidableEq

/-- A settled bubble `{ x, y, radius, color }`; `id` is the identity of the object. -/
structure Bubble where
  id : Nat
  x : ℚ
  y : ℚ
  radius : ℚ
  color : String
deriving DecidableEq

/-- The bubble loaded in the cannon / in flight (`currentBubble`). -/
structure Shot where
  x : ℚ
  y : ℚ
  radius : ℚ
  color : String
  dx : ℚ
  dy : ℚ
  moving : Bool
deriving DecidableEq

/-- The finite state machine of the game (`GameState`). -/
inductive GameState where
  | MENU
  | PLAYING
  | PAUSED
  | GAMEOVER
deriving DecidableEq

/-- What the program takes from the browser. `random k` is the value returned by
the `k`-th call of `Math.random()`. -/
structure Env where
  WIDTH : Nat
  HEIGHT : Nat
  random : Nat → ℚ
  PI : ℚ
  cos : ℚ → ℚ
  sin : ℚ → ℚ
  atan2 : ℚ → ℚ → ℚ
  sqrt : ℚ → ℚ

/-- The module-level variables of `game.js`. -/
structure Game where
  gameState : GameState
  bubbles : List Bubble
  currentBubble : Option Shot
  nextBubbleColor : Option String
  aimPoint : Point
  aimDir : Point
  isAiming : Bool
  shotCount : Nat
  score : Nat
  level : Nat
  highScore : Nat
  previewPath : List Point
  /-- Tag given to the next allocated bubble object. -/
  nextId : Nat
  /-- Number of calls of `Math.random()` made so far. -/
  randomCalls : Nat
  /-- Number of level-advance callbacks scheduled with `setTimeout`. -/
  pendingLevelAdvance : Nat
deriving DecidableEq

/-! ## Constants -/

def BUBBLE_RADIUS : ℚ := 16

def BUBBLE_SPEED : ℚ := 8

def BASE_COLORS : List String := ["#ff595e", "#ffca3a", "#8ac926", "#1982c4", "#6a4c93"]

def SHOOTER_Y (env : Env) : ℚ := (env.HEIGHT : ℚ) - 60

def NEIGHBOR_DISTANCE : ℚ := BUBBLE_RADIUS * (23 / 10)

def NEIGHBOR_DIST_SQ : ℚ := NEIGHBOR_DISTANCE * NEIGHBOR_DISTANCE

/-! ## Matching -/

def distanceSq (a b : Point) : ℚ :=
  let dx := a.x - b.x
  let dy := a.y - b.y
  dx * dx + dy * dy

/-- The `{ x, y }` part of a bubble. -/
def Bubble.pos (b : Bubble) : Point := ⟨b.x, b.y⟩

/-- The `{ x, y }` part of the shot. -/
def Shot.pos (c : Shot) : Point := ⟨c.x, c.y⟩

/-- The call `set.add(b)` on an insertion-ordered set. -/
def setAdd (set : List Bubble) (b : Bubble) : List Bubble :=
  if b ∈ set then set else set ++ [b]

/-- The `for (const other of bubbles)` loop of `floodFillColor` for the dequeued
bubble `b`; it returns the new `visited` and `queue`. -/
def floodScan (start b : Bubble) :
    List Bubble → List Bubble → List Bubble → List Bubble × List Bubble
  | [], visited, queue => (visited, queue)
  | other :: rest, visited, queue =>
    if other ∈ visited then floodScan start b rest visited queue
    else if other.color ≠ start.color then floodScan start b rest visited queue
    else if distanceSq b.pos other.pos ≤ NEIGHBOR_DIST_SQ then
      floodScan start b rest (setAdd visited other) (queue ++ [other])
    else floodScan start b rest visited queue

/-- The `while (queue.length > 0)` loop of `floodFillColor`; it returns
`(visited, queue, result)`. -/
def floodLoop (bubbles : List Bubble) (start : Bubble) :
    Nat → List Bubble → List Bubble → List Bubble →
      List Bubble × List Bubble × List Bubble
  | 0, visited, queue, result => (visited, queue, result)
  | _ + 1, visited, [], result => (visited, [], result)
  | fuel + 1, visited, b :: queue, result =>
    let vq := floodScan start b bubbles visited queue
    floodLoop bubbles start fuel vq.1 vq.2 (result ++ [b])

/-- The function `floodFillColor(start)` on the board `bubbles`. -/
def floodFillColor (bubbles : List Bubble) (start : Bubble) : List Bubble :=
  (floodLoop bubbles start (bubbles.length + 1) [start] [start] []).2.2

/-- The seeding loop of `removeFloatingBubbles`; it returns `(topConnected, queue)`. -/
def seedLoop : List Bubble → List Bubble → List Bubble → List Bubble × List Bubble
  | [], topConnected, queue => (topConnected, queue)
  | b :: rest, topConnected, queue =>
    if b.y ≤ BUBBLE_RADIUS * (3 / 2) then
      seedLoop rest (setAdd topConnected b) (queue ++ [b])
    else seedLoop rest topConnected queue

/-- The `for (const other of bubbles)` loop of `removeFloatingBubbles`. -/
def topScan (b : Bubble) :
    List Bubble → List Bubble → List Bubble → List Bubble × List Bubble
  | [], topConnected, queue => (topConnected, queue)
  | other :: rest, topConnected, queue =>
    if other ∈ topConnected then topScan b rest topConnected queue
    else if distanceSq b.pos other.pos ≤ NEIGHBOR_DIST_SQ then
      topScan b rest (setAdd topConnected other) (queue ++ [other])
    else topScan b rest topConnected queue

/-- The `while (queue.length > 0)` loop of `removeFloatingBubbles`; it returns
`(topConnected, queue)`. -/
def topLoop (bubbles : List Bubble) :
    Nat → List Bubble → List Bubble → List Bubble × List Bubble
  | 0, topConnected, queue => (topConnected, queue)
  | _ + 1, topConnected, [] => (topConnected, [])
  | fuel + 1, topConnected, b :: queue =>
    let tq := topScan b bubbles topConnected queue
    topLoop bubbles fuel tq.1 tq.2

/-- The set `topConnected` computed by `removeFloatingBubbles` on the board `bubbles`. -/
def topConnectedSet (bubbles : List Bubble) : List Bubble :=
  let seeded := seedLoop bubbles [] []
  (topLoop bubbles (bubbles.length + 1) seeded.1 seeded.2).1

/-- The function `maybeUpdateHighScore()`. -/
def maybeUpdateHighScore (s : Game) : Game :=
  if s.score > s.highScore then { s with highScore := s.score } else s

/-- The function `removeFloatingBubbles()`. -/
def removeFloatingBubbles (s : Game) : Game :=
  let topConnected := topConnectedSet s.bubbles
  let before := s.bubbles.length
  let survivors := s.bubbles.filter (fun b => decide (b ∈ topConnected))
  let fallenCount := before - survivors.length
  let s1 :=
    if fallenCount > 0 then
      maybeUpdateHighScore { s with score := s.score + fallenCount * 5 }
    else s
  { s1 with bubbles := survivors }

/-- The function `handleMatches(sourceBubble)`. -/
def handleMatches (s : Game) (sourceBubble : Bubble) : Game :=
  let matchGroup := floodFillColor s.bubbles sourceBubble
  if matchGroup.length ≥ 3 then
    let toRemove := matchGroup
    let removedCount := matchGroup.length
    let s1 := { s with bubbles := s.bubbles.filter (fun b => !decide (b ∈ toRemove)) }
    let s2 := maybeUpdateHighScore { s1 with score := s1.score + removedCount * 10 }
    removeFloatingBubbles s2
  else s

/-! ## Snapping -/

/-- The six candidate points pushed by the first loop of `findSnapPosition`. -/
def hexCandidates (env : Env) (collided : Bubble) : List Point :=
  (List.range 6).map fun (i : Nat) =>
    let r2 := BUBBLE_RADIUS * 2
    let angle := env.PI / 3 * (i : ℚ)
    ⟨collided.x + env.cos angle * r2, collided.y + env.sin angle * r2⟩

/-- The record `{ pos, dist }` kept in `best`. -/
structure Best where
  pos : Point
  dist : ℚ
deriving DecidableEq

/-- The flag `overlap` after the inner loop of `findSnapPosition` at `pos`. -/
def snapOverlap (bubbles : List Bubble) (collided : Bubble) (pos : Point) : Bool :=
  bubbles.any fun b =>
    if b = collided then false
    else
      let minDist := BUBBLE_RADIUS * 2 - 2
      decide (distanceSq pos b.pos < minDist * minDist)

/-- One iteration of `for (const pos of candidates)` in `findSnapPosition`. -/
def snapStep (env : Env) (bubbles : List Bubble) (collided : Bubble) (movingBubble : Shot)
    (best : Option Best) (pos : Point) : Option Best :=
  let minDistFromTop := BUBBLE_RADIUS
  if pos.x < BUBBLE_RADIUS ∨ pos.x > (env.WIDTH : ℚ) - BUBBLE_RADIUS then best
  else if pos.y < minDistFromTop then best
  else if snapOverlap bubbles collided pos then best
  else
    let distToMoving := (pos.x - movingBubble.x) ^ 2 + (pos.y - movingBubble.y) ^ 2
    match best with
    | none => some ⟨pos, distToMoving⟩
    | some b => if distToMoving < b.dist then some ⟨pos, distToMoving⟩ else some b

/-- The function `findSnapPosition(collided, movingBubble)`; `none` is `null`. -/
def findSnapPosition (env : Env) (bubbles : List Bubble) (collided : Bubble)
    (movingBubble : Shot) : Option Point :=
  let best := (hexCandidates env collided).foldl (snapStep env bubbles collided movingBubble) none
  best.map fun b => b.pos

/-! ## Grid construction and spawning -/

/-- The function `randColorForLevel()`: the colour drawn and the state after the draw.
An index outside `BASE_COLORS` reads `undefined`. -/
def randColorForLevel (env : Env) (s : Game) : String × Game :=
  let maxIdx : Nat := min BASE_COLORS.length (3 + s.level)
  let idx : Int := ⌊env.random s.randomCalls * (maxIdx : ℚ)⌋
  let color := if idx < 0 then "undefined" else BASE_COLORS.getD idx.toNat "undefined"
  (color, { s with randomCalls := s.randomCalls + 1 })

/-- The loop `for (let x = ...; x <= WIDTH - r; x += 2 * r)` of `createInitialGrid`
on the row `row`, from the current `x`. -/
def gridRowLoop (env : Env) (row : Nat) : Nat → ℚ → Game → Game
  | 0, _, s => s
  | fuel + 1, x, s =>
    let r := BUBBLE_RADIUS
    if x ≤ (env.WIDTH : ℚ) - r then
      let y := r + (row : ℚ) * (r * (7 / 4))
      let cs := randColorForLevel env s
      let s1 := cs.2
      gridRowLoop env row fuel (x + 2 * r)
        { s1 with
          bubbles := s1.bubbles ++ [⟨s1.nextId, x, y, r, cs.1⟩]
          nextId := s1.nextId + 1 }
    else s

/-- The body of `for (let row = 0; row < rows; row++)` in `createInitialGrid`. -/
def gridRow (env : Env) (s : Game) (row : Nat) : Game :=
  let r := BUBBLE_RADIUS
  let isOffset := row % 2 = 1
  let offset : ℚ := if isOffset then r else 0
  gridRowLoop env row env.WIDTH (r + offset) s

/-- The function `createInitialGrid()`. -/
def createInitialGrid (env : Env) (s : Game) : Game :=
  let rows := 4 + s.level
  (List.range rows).foldl (gridRow env) { s with bubbles := [] }

/-- The function `spawnCurrentBubble()`. -/
def spawnCurrentBubble (env : Env) (s : Game) : Game :=
  let cs : String × Game :=
    match s.nextBubbleColor with
    | some c => if c = "" then randColorForLevel env s else (c, s)
    | none => randColorForLevel env s
  let s1 := cs.2
  let s2 :=
    { s1 with
      currentBubble := some
        { x := (env.WIDTH : ℚ) / 2
          y := SHOOTER_Y env
          radius := BUBBLE_RADIUS
          color := cs.1
          dx := 0
          dy := 0
          moving := false } }
  let cs2 := randColorForLevel env s2
  { cs2.2 with nextBubbleColor := some cs2.1 }

/-! ## Round control -/

/-- The function `checkLose()`. -/
def checkLose (env : Env) (bubbles : List Bubble) : Bool :=
  bubbles.any fun b => decide (b.y + b.radius ≥ SHOOTER_Y env - 5)

/-- The point `(placedX, placedY)` computed by `attachCurrentBubble`. -/
def placedPoint (env : Env) (bubbles : List Bubble) (cb : Shot) (collidedWith : Option Bubble) :
    Point :=
  match collidedWith with
  | some c =>
    match findSnapPosition env bubbles c cb with
    | some snapPos => ⟨snapPos.x, snapPos.y⟩
    | none =>
      let angle := env.atan2 cb.dy cb.dx
      let dist := cb.radius * 2
      ⟨c.x - env.cos angle * dist, c.y - env.sin angle * dist⟩
  | none => ⟨cb.x, if cb.y < BUBBLE_RADIUS then BUBBLE_RADIUS else cb.y⟩

/-- The object `placedBubble` built by `attachCurrentBubble`. -/
def placedBubble (env : Env) (s : Game) (cb : Shot) (collidedWith : Option Bubble) : Bubble :=
  let p := placedPoint env s.bubbles cb collidedWith
  { id := s.nextId, x := p.x, y := p.y, radius := cb.radius, color := cb.color }

/-- The state of `attachCurrentBubble` after `bubbles.push(placedBubble)`. -/
def attachPre (env : Env) (s : Game) (cb : Shot) (collidedWith : Option Bubble) : Game :=
  { s with
    currentBubble := some { cb with moving := false }
    bubbles := s.bubbles ++ [placedBubble env s cb collidedWith]
    nextId := s.nextId + 1 }

/-- The function `attachCurrentBubble(collidedWith)`. -/
def attachCurrentBubble (env : Env) (s : Game) (collidedWith : Option Bubble) : Game :=
  match s.currentBubble with
  | none => s
  | some cb =>
    let s2 := handleMatches (attachPre env s cb collidedWith) (placedBubble env s cb collidedWith)
    if s2.bubbles.length = 0 then
      let s3 := maybeUpdateHighScore s2
      { s3 with pendingLevelAdvance := s3.pendingLevelAdvance + 1 }
    else if checkLose env s2.bubbles then { s2 with gameState := GameState.GAMEOVER }
    else spawnCurrentBubble env s2

/-- The function `shoot(evt)`. -/
def shoot (s : Game) : Game :=
  if !s.isAiming then s
  else if s.gameState ≠ GameState.PLAYING then s
  else
    match s.currentBubble with
    | none => s
    | some cb =>
      if cb.moving then s
      else
        { s with
          isAiming := false
          currentBubble := some
            { cb with
              dx := s.aimDir.x * BUBBLE_SPEED
              dy := s.aimDir.y * BUBBLE_SPEED
              moving := true }
          shotCount := s.shotCount + 1 }

/-- The first statements of the moving branch of `update`: the shot advanced by its velocity. -/
def advanceShot (cb : Shot) : Shot :=
  { cb with x := cb.x + cb.dx, y := cb.y + cb.dy }

/-- The wall step of `update` ("Bounce off walls"). -/
def bounceWalls (env : Env) (cb : Shot) : Shot :=
  if cb.x - cb.radius ≤ 0 then { cb with x := cb.radius, dx := cb.dx * -1 }
  else if cb.x + cb.radius ≥ (env.WIDTH : ℚ) then
    { cb with x := (env.WIDTH : ℚ) - cb.radius, dx := cb.dx * -1 }
  else cb

/-- The function `update()`. -/
def update (env : Env) (s : Game) : Game :=
  if s.gameState ≠ GameState.PLAYING then s
  else
    match s.currentBubble with
    | none => s
    | some cb0 =>
      if cb0.moving then
        let cb := bounceWalls env (advanceShot cb0)
        if cb.y - cb.radius ≤ 0 then
          attachCurrentBubble env { s with currentBubble := some { cb with y := cb.radius } } none
        else
          let collideDistSq := (cb.radius * 2) ^ 2
          match s.bubbles.find? fun b => decide (distanceSq cb.pos b.pos ≤ collideDistSq * (9 / 10)) with
          | some b => attachCurrentBubble env { s with currentBubble := some cb } (some b)
          | none => { s with currentBubble := some cb }
      else s

/-! ## Levels, restart and pause -/

/-- The function `resetLevel(resetScoreAndLevel)`. -/
def resetLevel (env : Env) (s : Game) (resetScoreAndLevel : Bool) : Game :=
  let s1 := if resetScoreAndLevel then { s with score := 0, level := 1 } else s
  let s2 := createInitialGrid env { s1 with shotCount := 0 }
  let cs := randColorForLevel env s2
  spawnCurrentBubble env { cs.2 with nextBubbleColor := some cs.1 }

/-- The function `nextLevel()`. -/
def nextLevel (env : Env) (s : Game) : Game :=
  let s2 := createInitialGrid env { s with level := s.level + 1, shotCount := 0 }
  let cs := randColorForLevel env s2
  spawnCurrentBubble env { cs.2 with nextBubbleColor := some cs.1 }

/-- The callback passed to `setTimeout` by `attachCurrentBubble`. -/
def levelAdvanceCallback (env : Env) (s : Game) : Game :=
  if s.gameState = GameState.PLAYING then nextLevel env s else s

/-- The timer firing: one scheduled level-advance callback is taken off and run. -/
def fireLevelAdvance (env : Env) (s : Game) : Game :=
  if s.pendingLevelAdvance = 0 then s
  else levelAdvanceCallback env { s with pendingLevelAdvance := s.pendingLevelAdvance - 1 }

/-- The function `startNewGame()`. -/
def startNewGame (env : Env) (s : Game) : Game :=
  resetLevel env { s with gameState := GameState.PLAYING } true

/-- The function `continueGame()`. -/
def continueGame (s : Game) : Game :=
  { s with gameState := GameState.PLAYING }

/-- The function `pauseGame()`. -/
def pauseGame (s : Game) : Game :=
  if s.gameState ≠ GameState.PLAYING then s else { s with gameState := GameState.PAUSED }

/-- The function `resumeGame()`. -/
def resumeGame (s : Game) : Game :=
  if s.gameState ≠ GameState.PAUSED then s else { s with gameState := GameState.PLAYING }

/-- The function `goToMainMenu()`. -/
def goToMainMenu (s : Game) : Game :=
  { s with gameState := GameState.MENU }

/-- The click handler of `restartBtn`. -/
def restartClick (env : Env) (s : Game) : Game :=
  if s.gameState = GameState.MENU then startNewGame env s
  else resetLevel env { s with gameState := GameState.PLAYING } false

/-- The click handler of `pauseRestartBtn`. -/
def pauseRestartClick (env : Env) (s : Game) : Game :=
  resetLevel env { s with gameState := GameState.PLAYING } false

/-! ## Trajectory preview -/

def TRAJECTORY_STEP : ℚ := 8

def MAX_TRAJECTORY_STEPS : Nat := 1200

/-- The position and direction after the "Bounce off side walls" step of
`computeTrajectory`, from the advanced position `pos` and the direction `dir`. -/
def previewBounce (env : Env) (pos dir : Point) : Point × Point :=
  if pos.x ≤ BUBBLE_RADIUS then (⟨BUBBLE_RADIUS, pos.y⟩, ⟨dir.x * -1, dir.y⟩)
  else if pos.x ≥ (env.WIDTH : ℚ) - BUBBLE_RADIUS then
    (⟨(env.WIDTH : ℚ) - BUBBLE_RADIUS, pos.y⟩, ⟨dir.x * -1, dir.y⟩)
  else (pos, dir)

/-- The loop `for (let i = 0; i < MAX_TRAJECTORY_STEPS; i++)` of `computeTrajectory` with
`k` iterations left; it returns `previewPath`. -/
def trajectoryLoop (env : Env) (bubbles : List Bubble) :
    Nat → Point → Point → List Point → List Point
  | 0, _, _, path => path
  | k + 1, pos, dir, path =>
    let pd := previewBounce env
      ⟨pos.x + dir.x * TRAJECTORY_STEP, pos.y + dir.y * TRAJECTORY_STEP⟩ dir
    if pd.1.y ≤ BUBBLE_RADIUS then path ++ [⟨pd.1.x, BUBBLE_RADIUS⟩]
    else
      let collideDistSq := (BUBBLE_RADIUS * 2) ^ 2
      let hit := bubbles.any fun b =>
        decide ((pd.1.x - b.x) ^ 2 + (pd.1.y - b.y) ^ 2 ≤ collideDistSq * (9 / 10))
      if hit then path ++ [pd.1]
      else trajectoryLoop env bubbles k pd.1 pd.2 (path ++ [pd.1])

/-- The function `computeTrajectory()`. -/
def computeTrajectory (env : Env) (s : Game) : Game :=
  match s.currentBubble with
  | none => { s with previewPath := [] }
  | some cb =>
    if cb.moving then { s with previewPath := [] }
    else if s.gameState ≠ GameState.PLAYING then { s with previewPath := [] }
    else
      { s with
        previewPath :=
          trajectoryLoop env s.bubbles MAX_TRAJECTORY_STEPS ⟨cb.x, cb.y⟩ ⟨s.aimDir.x, s.aimDir.y⟩
            [⟨cb.x, cb.y⟩] }

/-! ## Breadth-first search: the shape shared by the two loops -/

/-- A scan of the board that enqueues the unvisited bubbles accepted by `p`. -/
def bfsScan (p : Bubble → Bool) :
    List Bubble → List Bubble → List Bubble → List Bubble × List Bubble
  | [], v, q => (v, q)
  | o :: rest, v, q =>
    if o ∈ v then bfsScan p rest v q
    else if p o then bfsScan p rest (v ++ [o]) (q ++ [o])
    else bfsScan p rest v q

/-- The worklist loop over `bfsScan`, with the list of dequeued bubbles. -/
def bfsLoop (edge : Bubble → Bubble → Bool) (B : List Bubble) :
    Nat → List Bubble → List Bubble → List Bubble →
      List Bubble × List Bubble × List Bubble
  | 0, v, q, r => (v, q, r)
  | _ + 1, v, [], r => (v, [], r)
  | fuel + 1, v, b :: q, r =>
    bfsLoop edge B fuel (bfsScan (edge b) B v q).1 (bfsScan (edge b) B v q).2 (r ++ [b])

/-- Number of board entries that are not yet visited. -/
def unvisited (B v : List Bubble) : Nat :=
  B.countP fun x => decide (x ∉ v)

/-- The edge test of `floodFillColor`. -/
def colorEdge (start : Bubble) (b other : Bubble) : Bool :=
  decide (other.color = start.color) && decide (distanceSq b.pos other.pos ≤ NEIGHBOR_DIST_SQ)

/-- The edge test of `removeFloatingBubbles`. -/
def nearEdge (b other : Bubble) : Bool :=
  decide (distanceSq b.pos other.pos ≤ NEIGHBOR_DIST_SQ)

/-! ## Connectivity, as the specification words it -/

/-- An edge of the search graph: `b` is on the board and passes the edge test from `a`. -/
def Link (edge : Bubble → Bubble → Bool) (B : List Bubble) (a b : Bubble) : Prop :=
  b ∈ B ∧ edge a b = true

/-- One link of a monochrome chain: the next bubble is on the board, has the colour of
`start`, and lies within the neighbour threshold. -/
def ColorLink (bubbles : List Bubble) (start a b : Bubble) : Prop :=
  b ∈ bubbles ∧ b.color = start.color ∧ distanceSq a.pos b.pos ≤ NEIGHBOR_DIST_SQ

/-- Two board bubbles within the neighbour threshold of each other. -/
def Touching (bubbles : List Bubble) (a b : Bubble) : Prop :=
  a ∈ bubbles ∧ b ∈ bubbles ∧ distanceSq a.pos b.pos ≤ NEIGHBOR_DIST_SQ

/-- There is a chain of board bubbles from `b` to a bubble with `y ≤ 1.5 * BUBBLE_RADIUS`,
consecutive bubbles being within the neighbour threshold. -/
def CeilingConnected (bubbles : List Bubble) (b : Bubble) : Prop :=
  ∃ c, c ∈ bubbles ∧ c.y ≤ BUBBLE_RADIUS * (3 / 2) ∧
    Relation.ReflTransGen (Touching bubbles) b c

/-! ## Snap candidates and the board invariant, as the specification words them -/

/-- Squared distance from a candidate to the position of the shot. -/
def shotDistSq (movingBubble : Shot) (pos : Point) : ℚ :=
  (pos.x - movingBubble.x) ^ 2 + (pos.y - movingBubble.y) ^ 2

/-- A candidate passes the checks: inside the horizontal bounds, not above the ceiling
line, and at squared distance at least `(2 * BUBBLE_RADIUS - 2)²` from every board bubble
other than the anchor. -/
def SnapValid (env : Env) (bubbles : List Bubble) (collided : Bubble) (pos : Point) : Prop :=
  BUBBLE_RADIUS ≤ pos.x ∧ pos.x ≤ (env.WIDTH : ℚ) - BUBBLE_RADIUS ∧ BUBBLE_RADIUS ≤ pos.y ∧
    ∀ b ∈ bubbles, b ≠ collided →
      (BUBBLE_RADIUS * 2 - 2) * (BUBBLE_RADIUS * 2 - 2) ≤ distanceSq pos b.pos

/-- No two entries of the board are closer than `2 * BUBBLE_RADIUS - 2`. -/
def NonOverlap (bubbles : List Bubble) : Prop :=
  bubbles.Pairwise fun a b =>
    (BUBBLE_RADIUS * 2 - 2) * (BUBBLE_RADIUS * 2 - 2) ≤ distanceSq a.pos b.pos

/-- Every bubble of `L` sits on the staggered lattice of `createInitialGrid`, in a row
before `row`, or in the row `row` at least one diameter to the left of `x`. -/
def GridAligned (row : Nat) (x : ℚ) (L : List Bubble) : Prop :=
  ∀ a ∈ L, ∃ ra ka : Nat,
    a.x = BUBBLE_RADIUS + BUBBLE_RADIUS * ((ra % 2 : Nat) : ℚ) + 2 * BUBBLE_RADIUS * (ka : ℚ) ∧
    a.y = BUBBLE_RADIUS + (ra : ℚ) * (BUBBLE_RADIUS * (7 / 4)) ∧
    (ra < row ∨ (ra = row ∧ a.x + 2 * BUBBLE_RADIUS ≤ x))

/-! ## Concrete scenarios -/

/-- A cosine table: the six hex angles for `PI = 22 / 7`, `-PI / 2`, and the angle
`-31 / 14` of the direction `(-3/5, -4/5)`. -/
def demoCos (a : ℚ) : ℚ :=
  if a = 0 then 1 else if a = 22 / 21 then 1 / 2 else if a = 44 / 21 then -1 / 2
  else if a = 22 / 7 then -1 else if a = 88 / 21 then -1 / 2 else if a = 110 / 21 then 1 / 2
  else if a = -11 / 7 then 0 else if a = -31 / 14 then -3 / 5 else 1

/-- A sine table for the same angles, with `13 / 15` for the sine of 60 degrees. -/
def demoSin (a : ℚ) : ℚ :=
  if a = 0 then 0 else if a = 22 / 21 then 13 / 15 else if a = 44 / 21 then 13 / 15
  else if a = 22 / 7 then 0 else if a = 88 / 21 then -13 / 15 else if a = 110 / 21 then -13 / 15
  else if a = -11 / 7 then -1 else if a = -31 / 14 then -4 / 5 else 0

/-- A stand-in for `Math.atan2(dy, dx)`, for a shot flying straight up and for the
velocity `(-24/5, -32/5)`. -/
def demoAtan2 (dy dx : ℚ) : ℚ :=
  if dx = 0 ∧ dy < 0 then -11 / 7
  else if dy = -32 / 5 ∧ dx = -24 / 5 then -31 / 14
  else 0

/-- A browser with a 480 x 640 canvas and tabulated trigonometry. -/
def demoEnv : Env :=
  { WIDTH := 480
    HEIGHT := 640
    random := fun _ => 0
    PI := 22 / 7
    cos := demoCos
    sin := demoSin
    atan2 := demoAtan2
    sqrt := fun _ => 0 }

/-- A playing state with an empty board and nothing loaded. -/
def demoGame : Game :=
  { gameState := GameState.PLAYING
    bubbles := []
    currentBubble := none
    nextBubbleColor := some "#ffca3a"
    aimPoint := ⟨240, 320⟩
    aimDir := ⟨0, -1⟩
    isAiming := false
    shotCount := 0
    score := 0
    level := 1
    highScore := 0
    previewPath := []
    nextId := 100
    randomCalls := 0
    pendingLevelAdvance := 0 }

def redA : Bubble := ⟨0, 16, 16, 16, "#ff595e"⟩

def redB : Bubble := ⟨1, 48, 16, 16, "#ff595e"⟩

/-- A blue bubble hanging below `redA` and `redB`. -/
def blueHang : Bubble := ⟨2, 32, 44, 16, "#1982c4"⟩

/-- A green ceiling bubble far from the others. -/
def greenFar : Bubble := ⟨3, 240, 16, 16, "#8ac926"⟩

/-- A red bubble placed next to `redB`. -/
def redPlaced : Bubble := ⟨4, 80, 16, 16, "#ff595e"⟩

/-- A blue bubble with no path to the ceiling. -/
def blueLoose : Bubble := ⟨5, 32, 200, 16, "#1982c4"⟩

/-- The board after `redPlaced` was pushed: a red triple holding up `blueHang`. -/
def matchGame : Game := { demoGame with bubbles := [redA, redB, blueHang, greenFar, redPlaced] }

/-- A board where the placed bubble `redPlaced` matches nothing and `blueLoose` floats. -/
def looseGame : Game := { demoGame with bubbles := [greenFar, blueLoose, redPlaced] }

/-- A shot in flight just below `greenFar`, to its right. -/
def snapShot : Shot :=
  { x := 250, y := 50, radius := 16, color := "#ff595e", dx := 0, dy := -8, moving := true }

/-- A playing state whose shot is in flight at the height of the shooter line. -/
def lowGame : Game :=
  { demoGame with
    bubbles := [greenFar]
    currentBubble := some
      { x := 240, y := 560, radius := 16, color := "#ff595e", dx := 0, dy := -8, moving := true } }

/-- A shot about to cross the right wall of the 480 wide canvas. -/
def wallShot : Shot :=
  { x := 460, y := 300, radius := 16, color := "#ff595e", dx := 24 / 5, dy := -32 / 5,
    moving := true }

/-- A browser with a 1200 x 640 canvas. -/
def wideEnv : Env := { demoEnv with WIDTH := 1200 }

/-- A green bubble at the ceiling of the wide canvas. -/
def greenTop : Bubble := ⟨0, 1054, 16, 16, "#8ac926"⟩

/-- On the wide canvas: one ceiling bubble, a red bubble loaded in the cannon, the player
aiming along `(3/5, -4/5)`. -/
def ceilingGame : Game :=
  { demoGame with
    bubbles := [greenTop]
    currentBubble := some
      { x := 600, y := 580, radius := 16, color := "#ff595e", dx := 0, dy := 0, moving := false }
    aimDir := ⟨3 / 5, -4 / 5⟩
    isAiming := true }

/-- A yellow bubble at the top left corner. -/
def cornerAnchor : Bubble := ⟨0, 16, 16, 16, "#ffca3a"⟩

/-- A green bubble that blocks the two in-bounds snap slots of `cornerAnchor`. -/
def cornerBlock : Bubble := ⟨1, 58, 36, 16, "#8ac926"⟩

/-- A red shot flying up and to the left towards `cornerAnchor`. -/
def cornerGame : Game :=
  { demoGame with
    bubbles := [cornerAnchor, cornerBlock]
    currentBubble := some
      { x := 134 / 5, y := 252 / 5, radius := 16, color := "#ff595e", dx := -24 / 5,
        dy := -32 / 5, moving := true } }

/-- A browser with a 480 x 160 canvas: the cannon is at `(240, 100)`. -/
def lowEnv : Env := { demoEnv with HEIGHT := 160 }

/-- On the low canvas: `greenFar` at the ceiling, a red bubble loaded in the cannon, the
player aiming straight up. -/
def aimGame : Game :=
  { demoGame with
    bubbles := [greenFar]
    currentBubble := some
      { x := 240, y := 100, radius := 16, color := "#ff595e", dx := 0, dy := 0, moving := false }
    aimDir := ⟨0, -1⟩
    isAiming := true }

/-- A finished game with points on the board: level 3, score 50. -/
def overGame : Game :=
  { demoGame with gameState := GameState.GAMEOVER, score := 50, level := 3, shotCount := 7 }

/-! ## The flight of a shot, as the specification words it -/

/-- The shot of `t` is in flight at `pos` with the velocity `dir * TRAJECTORY_STEP`. -/
def InFlight (t : Game) (pos dir : Point) : Prop :=
  t.gameState = GameState.PLAYING ∧
    ∃ c, t.currentBubble = some c ∧ c.moving = true ∧ c.radius = BUBBLE_RADIUS ∧
      c.x = pos.x ∧ c.y = pos.y ∧
      c.dx = dir.x * TRAJECTORY_STEP ∧ c.dy = dir.y * TRAJECTORY_STEP

/-- The next tick from `t` calls `attachCurrentBubble` with the shot at the point `p`. -/
def AttachesAt (env : Env) (t : Game) (p : Point) : Prop :=
  ∃ c cw, c.x = p.x ∧ c.y = p.y ∧
    update env t = attachCurrentBubble env { t with currentBubble := some c } cw

/-- The shot of `cornerGame` after its next advance, when it touches `cornerAnchor`. -/
def cornerShot : Shot :=
  { x := 22, y := 44, radius := 16, color := "#ff595e", dx := -24 / 5, dy := -32 / 5,
    moving := true }

/-! ## Aiming -/

/-- The pair `(dx, dy)` of `updateAimDirection` after the clamp of `dy` to `minUp = -40`. -/
def aimOffset (env : Env) (pos : Point) : Point :=
  let shooterX := (env.WIDTH : ℚ) / 2
  let shooterY := SHOOTER_Y env
  let dx := pos.x - shooterX
  let dy := pos.y - shooterY
  let minUp : ℚ := -40
  ⟨dx, if dy > minUp then minUp else dy⟩

/-- The function `updateAimDirection(pos)`; `Math.sqrt(...) || 1` takes 1 for a zero root. -/
def updateAimDirection (env : Env) (s : Game) (pos : Point) : Game :=
  let d := aimOffset env pos
  let root := env.sqrt (d.x * d.x + d.y * d.y)
  let len := if root = 0 then 1 else root
  { s with aimDir := ⟨d.x / len, d.y / len⟩, aimPoint := pos }

/-- A browser whose square root is exact at 2500. -/
def aimEnv : Env := { demoEnv with sqrt := fun v => if v = 2500 then 50 else 0 }

/-- A pointer 30 to the right of the cannon of the 480 x 640 canvas and 40 above it. -/
def aimPos : Point := ⟨270, 540⟩

/-! ## Landing of a shot -/

/-- The number of ticks `ceil((SHOOTER_Y - BUBBLE_RADIUS) / (-dy))` for a shot of vertical
velocity `dy`. -/
def landingTicks (env : Env) (dy : ℚ) : Nat :=
  ⌈(SHOOTER_Y env - BUBBLE_RADIUS) / (-dy)⌉₊

/-- A browser with a 480 x 76 canvas: the cannon line is at `y = BUBBLE_RADIUS`. -/
def shortEnv : Env := { demoEnv with HEIGHT := 76 }

/-- On the short canvas: an empty board, a red bubble loaded in the cannon at `(240, 16)`,
the player aiming straight up. -/
def shortGame : Game :=
  { demoGame with
    currentBubble := some
      { x := 240, y := 16, radius := 16, color := "#ff595e", dx := 0, dy := 0, moving := false }
    aimDir := ⟨0, -1⟩
    isAiming := true }

/-! ## The flight in double arithmetic

JavaScript numbers are doubles: the result of every arithmetic operation is rounded. In the
definitions below the rounding is the parameter `fl`; with `fl = id` they are the exact
definitions above. -/

/-- The function `distanceSq(a, b)`, every operation rounded by `fl`. -/
def Rounded.distanceSq (fl : ℚ → ℚ) (a b : Point) : ℚ :=
  let dx := fl (a.x - b.x)
  let dy := fl (a.y - b.y)
  fl (fl (dx * dx) + fl (dy * dy))

/-- The first statements of the moving branch of `update`: `x += dx; y += dy`, each sum
rounded by `fl`. -/
def Rounded.advanceShot (fl : ℚ → ℚ) (cb : Shot) : Shot :=
  { cb with x := fl (cb.x + cb.dx), y := fl (cb.y + cb.dy) }

/-- The wall step of `update` ("Bounce off walls"), every operation rounded by `fl`. -/
def Rounded.bounceWalls (fl : ℚ → ℚ) (env : Env) (cb : Shot) : Shot :=
  if fl (cb.x - cb.radius) ≤ 0 then { cb with x := cb.radius, dx := fl (cb.dx * -1) }
  else if fl (cb.x + cb.radius) ≥ (env.WIDTH : ℚ) then
    { cb with x := fl ((env.WIDTH : ℚ) - cb.radius), dx := fl (cb.dx * -1) }
  else cb

/-- The function `update()`, every operation of the flight rounded by `fl`; the literal
`0.9` is the double `fl (9 / 10)`. -/
def Rounded.update (fl : ℚ → ℚ) (env : Env) (s : Game) : Game :=
  if s.gameState ≠ GameState.PLAYING then s
  else
    match s.currentBubble with
    | none => s
    | some cb0 =>
      if cb0.moving then
        let cb := Rounded.bounceWalls fl env (Rounded.advanceShot fl cb0)
        if fl (cb.y - cb.radius) ≤ 0 then
          attachCurrentBubble env { s with currentBubble := some { cb with y := cb.radius } } none
        else
          let collideDistSq := fl (fl (cb.radius * 2) ^ 2)
          match s.bubbles.find? fun b =>
              decide (Rounded.distanceSq fl cb.pos b.pos ≤ fl (collideDistSq * fl (9 / 10))) with
          | some b => attachCurrentBubble env { s with currentBubble := some cb } (some b)
          | none => { s with currentBubble := some cb }
      else s

/-- The spacing `2 ^ (e - 52)` of the doubles in the binade `2 ^ e ≤ a < 2 ^ (e + 1)` of `a`,
searched from the spacing `q` in at most `fuel` halvings or doublings. -/
def spacingLoop : Nat → ℚ → ℚ → ℚ
  | 0, _, q => q
  | fuel + 1, a, q =>
    if a < q * 2 ^ 52 then spacingLoop fuel a (q / 2)
    else if q * 2 ^ 53 ≤ a then spacingLoop fuel a (q * 2)
    else q

/-- Rounding to the nearest integer, a tie to the even one. -/
def roundEven (x : ℚ) : ℤ :=
  if x - (⌊x⌋ : ℚ) < 1 / 2 then ⌊x⌋
  else if 1 / 2 < x - (⌊x⌋ : ℚ) then ⌊x⌋ + 1
  else if ⌊x⌋ % 2 = 0 then ⌊x⌋
  else ⌊x⌋ + 1

/-- Rounding of a number to the nearest double (53 significant bits, ties to even). The
exponent range is not bounded: a value whose binade is not found within the fuel is left
as it is; canvas coordinates are far from that. -/
def roundDouble (v : ℚ) : ℚ :=
  if v = 0 then 0
  else
    let q := spacingLoop 1100 |v| 1
    if q * 2 ^ 52 ≤ |v| ∧ |v| < q * 2 ^ 53 then (roundEven (v / q) : ℚ) * q else v

/-- The number of ticks `ceil((SHOOTER_Y - BUBBLE_RADIUS) / (-dy - u * SHOOTER_Y))` for a shot
of vertical velocity `dy`, when every sum `y += dy` has a relative rounding error of at
most `u`. -/
def landingBound (env : Env) (u dy : ℚ) : Nat :=
  ⌈(SHOOTER_Y env - BUBBLE_RADIUS) / (-dy - u * SHOOTER_Y env)⌉₊

/-- A browser with a 480 x 108 canvas: the cannon is at `(240, 48)`. -/
def stepEnv : Env := { demoEnv with HEIGHT := 108 }

/-- On the 480 x 108 canvas: an empty board, a red bubble loaded in the cannon, the aim
`(30, -40) / 50` in doubles. -/
def stepGame : Game :=
  { demoGame with
    currentBubble := some
      { x := 240, y := 48, radius := 16, color := "#ff595e", dx := 0, dy := 0, moving := false }
    aimDir := ⟨roundDouble (30 / 50), roundDouble (-40 / 50)⟩
    isAiming := true }

/-! # Proofs -/

/-! ## The two loops are instances of the shared search -/

theorem setAdd_of_not_mem {v : List Bubble} {b : Bubble} (h : b ∉ v) : setAdd v b = v ++ [b] := by
  simp [setAdd, h]

theorem floodScan_eq_bfsScan (start b : Bubble) :
    ∀ os v q, floodScan start b os v q = bfsScan (colorEdge start b) os v q
  | [], v, q => rfl
  | o :: rest, v, q => by
    by_cases h1 : o ∈ v
    · simp only [floodScan, bfsScan, if_pos h1]
      exact floodScan_eq_bfsScan start b rest v q
    · by_cases h2 : o.color = start.color
      · by_cases h3 : distanceSq b.pos o.pos ≤ NEIGHBOR_DIST_SQ
        · simp only [floodScan, bfsScan, if_neg h1, colorEdge, h2, h3, setAdd_of_not_mem h1,
            ne_eq, not_true_eq_false, if_false, if_true, decide_True, Bool.and_self]
          exact floodScan_eq_bfsScan start b rest _ _
        · simp only [floodScan, bfsScan, if_neg h1, colorEdge, h2, h3,
            ne_eq, not_true_eq_false, if_false, decide_True, decide_False, Bool.and_false,
            Bool.false_eq_true]
          exact floodScan_eq_bfsScan start b rest _ _
      · simp only [floodScan, bfsScan, if_neg h1, colorEdge, h2,
          ne_eq, not_false_eq_true, if_true, decide_False, Bool.false_and, Bool.false_eq_true,
          if_false]
        exact floodScan_eq_bfsScan start b rest _ _

theorem floodLoop_eq_bfsLoop (B : List Bubble) (start : Bubble) :
    ∀ fuel v q r, floodLoop B start fuel v q r = bfsLoop (colorEdge start) B fuel v q r
  | 0, v, q, r => rfl
  | _ + 1, v, [], r => rfl
  | fuel + 1, v, b :: q, r => by
    simp only [floodLoop, bfsLoop, floodScan_eq_bfsScan]
    exact floodLoop_eq_bfsLoop B start fuel _ _ _

theorem topScan_eq_bfsScan (b : Bubble) :
    ∀ os v q, topScan b os v q = bfsScan (nearEdge b) os v q
  | [], v, q => rfl
  | o :: rest, v, q => by
    by_cases h1 : o ∈ v
    · simp only [topScan, bfsScan, if_pos h1]
      exact topScan_eq_bfsScan b rest v q
    · by_cases h3 : distanceSq b.pos o.pos ≤ NEIGHBOR_DIST_SQ
      · simp only [topScan, bfsScan, if_neg h1, nearEdge, h3, setAdd_of_not_mem h1,
          if_true, decide_True]
        exact topScan_eq_bfsScan b rest _ _
      · simp only [topScan, bfsScan, if_neg h1, nearEdge, h3, if_false, decide_False,
          Bool.false_eq_true]
        exact topScan_eq_bfsScan b rest _ _

theorem topLoop_eq_bfsLoop (B : List Bubble) :
    ∀ fuel v q r, topLoop B fuel v q =
      ((bfsLoop nearEdge B fuel v q r).1, (bfsLoop nearEdge B fuel v q r).2.1)
  | 0, v, q, r => rfl
  | _ + 1, v, [], r => rfl
  | fuel + 1, v, b :: q, r => by
    simp only [topLoop, bfsLoop, topScan_eq_bfsScan]
    exact topLoop_eq_bfsLoop B fuel _ _ _

/-! ## Facts about the scan -/

theorem bfsScan_spec (p : Bubble → Bool) :
    ∀ os v q, ∃ new, bfsScan p os v q = (v ++ new, q ++ new) ∧
      (∀ x ∈ new, x ∈ os ∧ p x = true ∧ x ∉ v) ∧ new.Nodup
  | [], v, q => ⟨[], by simp [bfsScan]⟩
  | o :: rest, v, q => by
    by_cases h1 : o ∈ v
    · obtain ⟨new, he, hm, hn⟩ := bfsScan_spec p rest v q
      refine ⟨new, ?_, fun x hx => ⟨List.mem_cons_of_mem _ (hm x hx).1, (hm x hx).2⟩, hn⟩
      simp only [bfsScan, if_pos h1, he]
    · by_cases h2 : p o = true
      · obtain ⟨new, he, hm, hn⟩ := bfsScan_spec p rest (v ++ [o]) (q ++ [o])
        refine ⟨o :: new, ?_, ?_, ?_⟩
        · simp only [bfsScan, if_neg h1, if_pos h2, he, List.append_assoc, List.singleton_append]
        · intro x hx
          rcases List.mem_cons.1 hx with rfl | hx
          · exact ⟨List.mem_cons_self _ _, h2, h1⟩
          · obtain ⟨a, b, c⟩ := hm x hx
            exact ⟨List.mem_cons_of_mem _ a, b, fun hv => c (List.mem_append_left _ hv)⟩
        · exact List.nodup_cons.2 ⟨fun ho => (hm o ho).2.2 (by simp), hn⟩
      · obtain ⟨new, he, hm, hn⟩ := bfsScan_spec p rest v q
        refine ⟨new, ?_, fun x hx => ⟨List.mem_cons_of_mem _ (hm x hx).1, (hm x hx).2⟩, hn⟩
        simp only [bfsScan, if_neg h1, if_neg h2, he]

theorem bfsScan_subset (p : Bubble → Bool) (os v q : List Bubble) :
    ∀ x ∈ v, x ∈ (bfsScan p os v q).1 := by
  obtain ⟨new, he, -, -⟩ := bfsScan_spec p os v q
  intro x hx
  rw [he]
  exact List.mem_append_left _ hx

theorem bfsScan_closed (p : Bubble → Bool) :
    ∀ os v q, ∀ o ∈ os, p o = true → o ∈ (bfsScan p os v q).1
  | [], _, _ => fun o ho => absurd ho (List.not_mem_nil o)
  | o :: rest, v, q => by
    intro x hx hp
    by_cases h1 : o ∈ v
    · simp only [bfsScan, if_pos h1]
      rcases List.mem_cons.1 hx with rfl | hx
      · exact bfsScan_subset p rest v q _ h1
      · exact bfsScan_closed p rest v q x hx hp
    · by_cases h2 : p o = true
      · simp only [bfsScan, if_neg h1, if_pos h2]
        rcases List.mem_cons.1 hx with rfl | hx
        · exact bfsScan_subset p rest _ _ _ (by simp)
        · exact bfsScan_closed p rest _ _ x hx hp
      · simp only [bfsScan, if_neg h1, if_neg h2]
        rcases List.mem_cons.1 hx with rfl | hx
        · exact absurd hp h2
        · exact bfsScan_closed p rest _ _ x hx hp

theorem unvisited_append_singleton (B v : List Bubble) (x : Bubble) (hx : x ∈ B) (hv : x ∉ v) :
    unvisited B (v ++ [x]) + 1 ≤ unvisited B v := by
  induction B with
  | nil => exact absurd hx (List.not_mem_nil x)
  | cons b bs ih =>
    unfold unvisited at ih ⊢
    rw [List.countP_cons, List.countP_cons]
    by_cases hb : b = x
    · subst hb
      have hmono : List.countP (fun y => decide (y ∉ v ++ [b])) bs ≤
          List.countP (fun y => decide (y ∉ v)) bs := by
        apply List.countP_mono_left
        intro y _ hy
        simp only [List.mem_append, List.mem_singleton, not_or, decide_eq_true_eq] at hy ⊢
        exact hy.1
      simp only [List.mem_append, List.mem_singleton, or_true, not_true_eq_false, decide_False,
        hv, not_false_eq_true, decide_True, if_true] at hmono ⊢
      simp only [Bool.false_eq_true, if_false]
      simpa using hmono
    · have hxbs : x ∈ bs := by
        rcases List.mem_cons.1 hx with h | h
        · exact absurd h.symm hb
        · exact h
      have := ih hxbs
      have hiff : decide (b ∉ v ++ [x]) = decide (b ∉ v) := by
        simp [hb]
      rw [hiff]
      omega

theorem unvisited_append (B : List Bubble) :
    ∀ (new v : List Bubble), (∀ x ∈ new, x ∈ B ∧ x ∉ v) → new.Nodup →
      unvisited B (v ++ new) + new.length ≤ unvisited B v
  | [], v, _, _ => by simp
  | x :: xs, v, hm, hn => by
    have hx := hm x (List.mem_cons_self _ _)
    have h1 := unvisited_append_singleton B v x hx.1 hx.2
    have hn2 := List.nodup_cons.1 hn
    have h2 := unvisited_append B xs (v ++ [x])
      (fun y hy => ⟨(hm y (List.mem_cons_of_mem _ hy)).1, by
        intro hmem
        rcases List.mem_append.1 hmem with h | h
        · exact (hm y (List.mem_cons_of_mem _ hy)).2 h
        · rw [List.mem_singleton] at h
          subst h
          exact hn2.1 hy⟩) hn2.2
    have e : v ++ x :: xs = v ++ [x] ++ xs := by simp
    rw [e, List.length_cons]
    omega

theorem bfsScan_measure (p : Bubble → Bool) (B v q : List Bubble) :
    unvisited B (bfsScan p B v q).1 + (bfsScan p B v q).2.length ≤ unvisited B v + q.length := by
  obtain ⟨new, he, hm, hn⟩ := bfsScan_spec p B v q
  have := unvisited_append B new v (fun x hx => ⟨(hm x hx).1, (hm x hx).2.2⟩) hn
  rw [he]
  simp only [List.length_append]
  omega

/-! ## Facts about the worklist loop -/

theorem bfsLoop_queue_nil (edge : Bubble → Bubble → Bool) (B : List Bubble) :
    ∀ fuel v q r, unvisited B v + q.length ≤ fuel → (bfsLoop edge B fuel v q r).2.1 = []
  | 0, v, q, r, h => by
    have hq : q.length = 0 := by omega
    simpa [bfsLoop] using List.length_eq_zero.1 hq
  | _ + 1, v, [], r, _ => rfl
  | fuel + 1, v, b :: q, r, h => by
    simp only [bfsLoop]
    apply bfsLoop_queue_nil
    have := bfsScan_measure (edge b) B v q
    simp only [List.length_cons] at h
    omega

theorem bfsLoop_inv (edge : Bubble → Bubble → Bool) (B : List Bubble)
    (Inv : List Bubble → List Bubble → List Bubble → Prop)
    (hstep : ∀ v b q r, Inv v (b :: q) r →
      Inv (bfsScan (edge b) B v q).1 (bfsScan (edge b) B v q).2 (r ++ [b])) :
    ∀ fuel v q r, Inv v q r →
      Inv (bfsLoop edge B fuel v q r).1 (bfsLoop edge B fuel v q r).2.1
        (bfsLoop edge B fuel v q r).2.2
  | 0, _, _, _, h => h
  | _ + 1, _, [], _, h => h
  | fuel + 1, v, b :: q, r, h => by
    simp only [bfsLoop]
    exact bfsLoop_inv edge B Inv hstep fuel _ _ _ (hstep v b q r h)

/-- Once the fuel covers the unvisited entries and the queue, more fuel changes nothing. -/
theorem bfsLoop_fuel_stable (edge : Bubble → Bubble → Bool) (B : List Bubble) :
    ∀ fuel v q r, unvisited B v + q.length ≤ fuel →
      ∀ extra : Nat, bfsLoop edge B (fuel + extra) v q r = bfsLoop edge B fuel v q r
  | 0, v, q, r, h, extra => by
    have hq : q = [] := List.length_eq_zero.1 (by omega)
    subst hq
    cases extra with
    | zero => rfl
    | succ e => simp only [Nat.zero_add, bfsLoop]
  | fuel + 1, v, [], r, _, extra => by
    have e : fuel + 1 + extra = (fuel + extra) + 1 := by omega
    rw [e]
    simp only [bfsLoop]
  | fuel + 1, v, b :: q, r, h, extra => by
    have e : fuel + 1 + extra = (fuel + extra) + 1 := by omega
    rw [e]
    simp only [bfsLoop]
    apply bfsLoop_fuel_stable
    have := bfsScan_measure (edge b) B v q
    simp only [List.length_cons] at h
    omega

/-- Everything the loop marks is reachable from the bubbles marked at the start. -/
theorem bfsLoop_sound (edge : Bubble → Bubble → Bool) (B : List Bubble) (v0 : List Bubble)
    (fuel : Nat) (v q r : List Bubble)
    (hv : ∀ x ∈ v, ∃ a ∈ v0, Relation.ReflTransGen (Link edge B) a x)
    (hq : ∀ x ∈ q, x ∈ v) :
    ∀ x ∈ (bfsLoop edge B fuel v q r).1, ∃ a ∈ v0, Relation.ReflTransGen (Link edge B) a x := by
  have key := bfsLoop_inv edge B
    (fun v q _ => (∀ x ∈ v, ∃ a ∈ v0, Relation.ReflTransGen (Link edge B) a x) ∧
      (∀ x ∈ q, x ∈ v)) ?_ fuel v q r ⟨hv, hq⟩
  · exact key.1
  · intro v b q r ⟨h1, h2⟩
    obtain ⟨new, he, hm, -⟩ := bfsScan_spec (edge b) B v q
    rw [he]
    refine ⟨?_, ?_⟩
    · intro x hx
      rcases List.mem_append.1 hx with hx | hx
      · exact h1 x hx
      · obtain ⟨a, ha, hab⟩ := h1 b (h2 b (List.mem_cons_self _ _))
        exact ⟨a, ha, hab.tail ⟨(hm x hx).1, (hm x hx).2.1⟩⟩
    · intro x hx
      rcases List.mem_append.1 hx with hx | hx
      · exact List.mem_append_left _ (h2 x (List.mem_cons_of_mem _ hx))
      · exact List.mem_append_right _ hx

/-- Every marked bubble is still queued or has all its neighbours marked. -/
theorem bfsLoop_closed (edge : Bubble → Bubble → Bool) (B : List Bubble) (v0 : List Bubble)
    (fuel : Nat) (v q r : List Bubble)
    (h0 : ∀ x ∈ v0, x ∈ v)
    (hc : ∀ a ∈ v, a ∈ q ∨ ∀ o ∈ B, edge a o = true → o ∈ v) :
    (∀ x ∈ v0, x ∈ (bfsLoop edge B fuel v q r).1) ∧
    ∀ a ∈ (bfsLoop edge B fuel v q r).1, a ∈ (bfsLoop edge B fuel v q r).2.1 ∨
      ∀ o ∈ B, edge a o = true → o ∈ (bfsLoop edge B fuel v q r).1 := by
  refine bfsLoop_inv edge B
    (fun v q _ => (∀ x ∈ v0, x ∈ v) ∧ ∀ a ∈ v, a ∈ q ∨ ∀ o ∈ B, edge a o = true → o ∈ v)
    ?_ fuel v q r ⟨h0, hc⟩
  intro v b q r ⟨h1, h2⟩
  have hcl := bfsScan_closed (edge b) B v q
  have hsub := bfsScan_subset (edge b) B v q
  obtain ⟨new, he, -, -⟩ := bfsScan_spec (edge b) B v q
  refine ⟨fun x hx => hsub x (h1 x hx), ?_⟩
  intro a ha
  rw [he] at ha
  rcases List.mem_append.1 ha with ha | ha
  · rcases h2 a ha with hq | hcl2
    · rcases List.mem_cons.1 hq with rfl | hq
      · exact Or.inr hcl
      · left
        rw [he]
        exact List.mem_append_left _ hq
    · exact Or.inr fun o ho hedge => hsub o (hcl2 o ho hedge)
  · left
    rw [he]
    exact List.mem_append_right _ ha

/-- With enough fuel the loop marks exactly the bubbles reachable from the initial marks. -/
theorem bfsLoop_mem_iff (edge : Bubble → Bubble → Bool) (B : List Bubble)
    (fuel : Nat) (v q r : List Bubble)
    (hfuel : unvisited B v + q.length ≤ fuel)
    (hvq : ∀ x ∈ v, x ∈ q) (hqv : ∀ x ∈ q, x ∈ v) (x : Bubble) :
    x ∈ (bfsLoop edge B fuel v q r).1 ↔ ∃ a ∈ v, Relation.ReflTransGen (Link edge B) a x := by
  constructor
  · exact bfsLoop_sound edge B v fuel v q r (fun y hy => ⟨y, hy, Relation.ReflTransGen.refl⟩) hqv x
  · rintro ⟨a, ha, hax⟩
    obtain ⟨h1, h2⟩ := bfsLoop_closed edge B v fuel v q r (fun y hy => hy)
      (fun y hy => Or.inl (hvq y hy))
    have hnil := bfsLoop_queue_nil edge B fuel v q r hfuel
    rw [hnil] at h2
    induction hax with
    | refl => exact h1 a ha
    | tail _ hbc ih =>
      rcases h2 _ ih with h | h
      · exact absurd h (List.not_mem_nil _)
      · exact h _ hbc.1 hbc.2

/-- The marked set is the dequeued list followed by the queue, without repetition. -/
theorem bfsLoop_result (edge : Bubble → Bubble → Bool) (B : List Bubble)
    (fuel : Nat) (v q r : List Bubble) (hv : v = r ++ q) (hn : v.Nodup) :
    (bfsLoop edge B fuel v q r).1 =
      (bfsLoop edge B fuel v q r).2.2 ++ (bfsLoop edge B fuel v q r).2.1 ∧
    (bfsLoop edge B fuel v q r).1.Nodup := by
  refine bfsLoop_inv edge B (fun v q r => v = r ++ q ∧ v.Nodup) ?_ fuel v q r ⟨hv, hn⟩
  intro v b q r ⟨h1, h2⟩
  obtain ⟨new, he, hm, hnew⟩ := bfsScan_spec (edge b) B v q
  rw [he]
  refine ⟨?_, ?_⟩
  · simp [h1]
  · exact List.Nodup.append h2 hnew (fun x hx hx2 => (hm x hx2).2.2 hx)

/-- The first dequeued bubble stays at the head of the result. -/
theorem bfsLoop_head (edge : Bubble → Bubble → Bool) (B : List Bubble) (a : Bubble)
    (fuel : Nat) (v q r : List Bubble) (hr : r.head? = some a) :
    (bfsLoop edge B fuel v q r).2.2.head? = some a := by
  refine bfsLoop_inv edge B (fun _ _ r => r.head? = some a) ?_ fuel v q r hr
  intro v b q r h
  cases r with
  | nil => simp at h
  | cons c cs => simpa using h

/-! ## Flood fill -/

theorem unvisited_le_length (B v : List Bubble) : unvisited B v ≤ B.length :=
  List.countP_le_length _

theorem link_colorEdge_iff (bubbles : List Bubble) (start a b : Bubble) :
    Link (colorEdge start) bubbles a b ↔ ColorLink bubbles start a b := by
  simp [Link, colorEdge, ColorLink]

theorem floodFillColor_eq_visited (bubbles : List Bubble) (start : Bubble) :
    floodFillColor bubbles start =
      (bfsLoop (colorEdge start) bubbles (bubbles.length + 1) [start] [start] []).1 := by
  have hfuel : unvisited bubbles [start] + [start].length ≤ bubbles.length + 1 := by
    have := unvisited_le_length bubbles [start]
    simp only [List.length_singleton]
    omega
  have hnil := bfsLoop_queue_nil (colorEdge start) bubbles _ [start] [start] [] hfuel
  have hres := (bfsLoop_result (colorEdge start) bubbles (bubbles.length + 1)
    [start] [start] [] rfl (List.nodup_singleton start)).1
  rw [hnil, List.append_nil] at hres
  rw [hres, floodFillColor, floodLoop_eq_bfsLoop]

/-- The fuel `bubbles.length + 1` of `floodFillColor` lets the loop run until the queue
is empty: with any larger fuel the loop returns the same triple, and its queue is empty. -/
theorem floodLoop_fuel (bubbles : List Bubble) (start : Bubble) (extra : Nat) :
    floodLoop bubbles start (bubbles.length + 1 + extra) [start] [start] [] =
      floodLoop bubbles start (bubbles.length + 1) [start] [start] [] ∧
    (floodLoop bubbles start (bubbles.length + 1) [start] [start] []).2.1 = [] := by
  have hfuel : unvisited bubbles [start] + [start].length ≤ bubbles.length + 1 := by
    have := unvisited_le_length bubbles [start]
    simp only [List.length_singleton]
    omega
  rw [floodLoop_eq_bfsLoop, floodLoop_eq_bfsLoop]
  exact ⟨bfsLoop_fuel_stable (colorEdge start) bubbles _ _ _ _ hfuel extra,
    bfsLoop_queue_nil (colorEdge start) bubbles _ _ _ _ hfuel⟩

theorem floodFillColor_mem_iff (bubbles : List Bubble) (start b : Bubble) :
    b ∈ floodFillColor bubbles start ↔
      Relation.ReflTransGen (ColorLink bubbles start) start b := by
  have hfuel : unvisited bubbles [start] + [start].length ≤ bubbles.length + 1 := by
    have := unvisited_le_length bubbles [start]
    simp only [List.length_singleton]
    omega
  rw [floodFillColor_eq_visited,
    bfsLoop_mem_iff (colorEdge start) bubbles _ [start] [start] [] hfuel
      (fun _ h => h) (fun _ h => h) b]
  have hrel : Link (colorEdge start) bubbles = ColorLink bubbles start := by
    funext a c
    exact propext (link_colorEdge_iff bubbles start a c)
  rw [hrel]
  simp

theorem floodFillColor_nodup (bubbles : List Bubble) (start : Bubble) :
    (floodFillColor bubbles start).Nodup := by
  rw [floodFillColor_eq_visited]
  exact (bfsLoop_result (colorEdge start) bubbles (bubbles.length + 1)
    [start] [start] [] rfl (List.nodup_singleton start)).2

theorem floodFillColor_head (bubbles : List Bubble) (start : Bubble) :
    (floodFillColor bubbles start).head? = some start := by
  rw [floodFillColor, floodLoop_eq_bfsLoop]
  simp only [bfsLoop]
  exact bfsLoop_head (colorEdge start) bubbles start _ _ _ _ rfl

theorem colorChain_mem (bubbles : List Bubble) (start b : Bubble) (hstart : start ∈ bubbles)
    (h : Relation.ReflTransGen (ColorLink bubbles start) start b) : b ∈ bubbles := by
  cases h with
  | refl => exact hstart
  | tail _ hl => exact hl.1

theorem floodFillColor_subset (bubbles : List Bubble) (start : Bubble) (hstart : start ∈ bubbles) :
    ∀ b ∈ floodFillColor bubbles start, b ∈ bubbles := fun b hb =>
  colorChain_mem bubbles start b hstart ((floodFillColor_mem_iff bubbles start b).1 hb)

/-! ## Floater detachment -/

theorem distanceSq_comm (a b : Point) : distanceSq a b = distanceSq b a := by
  simp only [distanceSq]
  ring

theorem seedLoop_spec :
    ∀ os v q, (∀ x, x ∈ (seedLoop os v q).1 ↔
        x ∈ v ∨ (x ∈ os ∧ x.y ≤ BUBBLE_RADIUS * (3 / 2))) ∧
      (seedLoop os v q).2 = q ++ os.filter (fun b => decide (b.y ≤ BUBBLE_RADIUS * (3 / 2)))
  | [], v, q => by simp [seedLoop]
  | o :: rest, v, q => by
    by_cases h : o.y ≤ BUBBLE_RADIUS * (3 / 2)
    · obtain ⟨h1, h2⟩ := seedLoop_spec rest (setAdd v o) (q ++ [o])
      simp only [seedLoop, if_pos h]
      refine ⟨?_, ?_⟩
      · intro x
        rw [h1]
        have hadd : x ∈ setAdd v o ↔ x ∈ v ∨ x = o := by
          unfold setAdd
          split_ifs with hm
          · constructor
            · exact Or.inl
            · rintro (hx | rfl)
              · exact hx
              · exact hm
          · simp
        rw [hadd, List.mem_cons]
        constructor
        · rintro ((hx | rfl) | ⟨hx, hy⟩)
          · exact Or.inl hx
          · exact Or.inr ⟨Or.inl rfl, h⟩
          · exact Or.inr ⟨Or.inr hx, hy⟩
        · rintro (hx | ⟨rfl | hx, hy⟩)
          · exact Or.inl (Or.inl hx)
          · exact Or.inl (Or.inr rfl)
          · exact Or.inr ⟨hx, hy⟩
      · rw [h2, List.filter_cons_of_pos (by simpa using h)]
        simp
    · obtain ⟨h1, h2⟩ := seedLoop_spec rest v q
      simp only [seedLoop, if_neg h]
      refine ⟨?_, ?_⟩
      · intro x
        rw [h1, List.mem_cons]
        constructor
        · rintro (hx | ⟨hx, hy⟩)
          · exact Or.inl hx
          · exact Or.inr ⟨Or.inr hx, hy⟩
        · rintro (hx | ⟨rfl | hx, hy⟩)
          · exact Or.inl hx
          · exact absurd hy h
          · exact Or.inr ⟨hx, hy⟩
      · rw [h2, List.filter_cons_of_neg (by simpa using h)]

theorem seedLoop_fuel (B : List Bubble) :
    unvisited B (seedLoop B [] []).1 + (seedLoop B [] []).2.length ≤ B.length + 1 := by
  obtain ⟨h1, h2⟩ := seedLoop_spec B [] []
  rw [h2, List.nil_append]
  have hle : unvisited B (seedLoop B [] []).1 ≤
      B.countP (fun b => !decide (b.y ≤ BUBBLE_RADIUS * (3 / 2))) := by
    apply List.countP_mono_left
    intro x hx hnot
    simp only [decide_eq_true_eq] at hnot
    simp only [Bool.not_eq_true', decide_eq_false_iff_not]
    intro hy
    exact hnot ((h1 x).2 (Or.inr ⟨hx, hy⟩))
  have hsum := List.length_eq_countP_add_countP
    (fun b : Bubble => decide (b.y ≤ BUBBLE_RADIUS * (3 / 2))) B
  rw [← List.countP_eq_length_filter]
  have hneg : List.countP (fun a => decide ¬(decide (a.y ≤ BUBBLE_RADIUS * (3 / 2)) = true)) B =
      List.countP (fun b => !decide (b.y ≤ BUBBLE_RADIUS * (3 / 2))) B := by
    congr 1
    funext a
    by_cases h : a.y ≤ BUBBLE_RADIUS * (3 / 2) <;> simp [h]
  omega

/-- The fuel `bubbles.length + 1` of `removeFloatingBubbles` lets the loop run until the
queue is empty: with any larger fuel the loop returns the same pair, and its queue is empty. -/
theorem topLoop_fuel (B : List Bubble) (extra : Nat) :
    topLoop B (B.length + 1 + extra) (seedLoop B [] []).1 (seedLoop B [] []).2 =
      topLoop B (B.length + 1) (seedLoop B [] []).1 (seedLoop B [] []).2 ∧
    (topLoop B (B.length + 1) (seedLoop B [] []).1 (seedLoop B [] []).2).2 = [] := by
  rw [topLoop_eq_bfsLoop B _ _ _ [], topLoop_eq_bfsLoop B _ _ _ []]
  refine ⟨?_, bfsLoop_queue_nil nearEdge B _ _ _ _ (seedLoop_fuel B)⟩
  rw [bfsLoop_fuel_stable nearEdge B _ _ _ _ (seedLoop_fuel B) extra]

theorem topConnectedSet_mem_iff (B : List Bubble) (x : Bubble) :
    x ∈ topConnectedSet B ↔
      ∃ a, (a ∈ B ∧ a.y ≤ BUBBLE_RADIUS * (3 / 2)) ∧
        Relation.ReflTransGen (Link nearEdge B) a x := by
  obtain ⟨h1, h2⟩ := seedLoop_spec B [] []
  have hmemq : ∀ y, y ∈ (seedLoop B [] []).2 ↔ y ∈ (seedLoop B [] []).1 := by
    intro y
    rw [h1, h2]
    simp
  unfold topConnectedSet
  simp only
  rw [topLoop_eq_bfsLoop B _ _ _ []]
  simp only
  rw [bfsLoop_mem_iff nearEdge B _ _ _ [] (seedLoop_fuel B)
    (fun y hy => (hmemq y).2 hy) (fun y hy => (hmemq y).1 hy) x]
  constructor
  · rintro ⟨a, ha, hax⟩
    refine ⟨a, ?_, hax⟩
    simpa using (h1 a).1 ha
  · rintro ⟨a, ha, hax⟩
    exact ⟨a, (h1 a).2 (Or.inr ha), hax⟩

theorem touching_symm (B : List Bubble) : Symmetric (Touching B) := by
  intro a b ⟨ha, hb, hd⟩
  exact ⟨hb, ha, by rw [distanceSq_comm]; exact hd⟩

theorem link_chain_touching (B : List Bubble) (a x : Bubble) (ha : a ∈ B)
    (h : Relation.ReflTransGen (Link nearEdge B) a x) :
    x ∈ B ∧ Relation.ReflTransGen (Touching B) a x := by
  induction h with
  | refl => exact ⟨ha, Relation.ReflTransGen.refl⟩
  | tail _ hl ih =>
    refine ⟨hl.1, ih.2.tail ⟨ih.1, hl.1, ?_⟩⟩
    simpa [nearEdge] using hl.2

theorem touching_chain_link (B : List Bubble) (a x : Bubble)
    (h : Relation.ReflTransGen (Touching B) a x) :
    Relation.ReflTransGen (Link nearEdge B) a x := by
  refine Relation.ReflTransGen.mono ?_ h
  intro u w ⟨_, hw, hd⟩
  exact ⟨hw, by simpa [nearEdge] using hd⟩

theorem ceilingConnected_mem (B : List Bubble) (b : Bubble) (h : CeilingConnected B b) :
    b ∈ B := by
  obtain ⟨c, hc, -, hchain⟩ := h
  cases Relation.ReflTransGen.cases_head hchain with
  | inl h => exact h ▸ hc
  | inr h =>
    obtain ⟨d, hd, -⟩ := h
    exact hd.1

theorem topConnectedSet_iff_ceilingConnected (B : List Bubble) (x : Bubble) :
    x ∈ topConnectedSet B ↔ CeilingConnected B x := by
  rw [topConnectedSet_mem_iff]
  constructor
  · rintro ⟨a, ⟨haB, hay⟩, hax⟩
    exact ⟨a, haB, hay,
      Relation.ReflTransGen.symmetric (touching_symm B) (link_chain_touching B a x haB hax).2⟩
  · rintro ⟨c, hc, hy, hchain⟩
    exact ⟨c, ⟨hc, hy⟩,
      touching_chain_link B c x (Relation.ReflTransGen.symmetric (touching_symm B) hchain)⟩

theorem maybeUpdateHighScore_bubbles (s : Game) : (maybeUpdateHighScore s).bubbles = s.bubbles := by
  unfold maybeUpdateHighScore
  split_ifs <;> rfl

theorem maybeUpdateHighScore_score (s : Game) : (maybeUpdateHighScore s).score = s.score := by
  unfold maybeUpdateHighScore
  split_ifs <;> rfl

theorem removeFloatingBubbles_bubbles (s : Game) :
    (removeFloatingBubbles s).bubbles =
      s.bubbles.filter (fun b => decide (b ∈ topConnectedSet s.bubbles)) := by
  simp only [removeFloatingBubbles]

theorem removeFloatingBubbles_score (s : Game) :
    (removeFloatingBubbles s).score = s.score +
      (s.bubbles.length -
        (s.bubbles.filter (fun b => decide (b ∈ topConnectedSet s.bubbles))).length) * 5 := by
  simp only [removeFloatingBubbles]
  split_ifs with h
  · simp [maybeUpdateHighScore_score]
  · have : s.bubbles.length -
        (s.bubbles.filter (fun b => decide (b ∈ topConnectedSet s.bubbles))).length = 0 := by
      omega
    simp [this]

/-! ## Match handling -/

theorem handleMatches_of_match (s : Game) (placed : Bubble)
    (hk : 3 ≤ (floodFillColor s.bubbles placed).length) :
    handleMatches s placed =
      removeFloatingBubbles (maybeUpdateHighScore
        { s with
          bubbles := s.bubbles.filter (fun b => !decide (b ∈ floodFillColor s.bubbles placed))
          score := s.score + (floodFillColor s.bubbles placed).length * 10 }) := by
  simp only [handleMatches, ge_iff_le, if_pos hk]

theorem filter_mem_perm (l g : List Bubble) (hl : l.Nodup) (hg : g.Nodup)
    (hsub : ∀ b ∈ g, b ∈ l) : List.Perm (l.filter (fun b => decide (b ∈ g))) g := by
  rw [List.perm_ext_iff_of_nodup (hl.filter _) hg]
  intro a
  simp only [List.mem_filter, decide_eq_true_eq]
  exact ⟨fun h => h.2, fun h => ⟨hsub a h, h⟩⟩

/-- C4: on a board containing `start`, `floodFillColor(start)` lists exactly the
board bubbles joined to `start` by a chain of board bubbles of the colour of `start` with
consecutive squared distance at most `NEIGHBOR_DIST_SQ`, each once, `start` first. -/
theorem floodFillColor_component (bubbles : List Bubble) (start : Bubble)
    (hstart : start ∈ bubbles) :
    (∀ b, b ∈ floodFillColor bubbles start ↔
      b ∈ bubbles ∧ Relation.ReflTransGen (ColorLink bubbles start) start b) ∧
    (floodFillColor bubbles start).Nodup ∧
    (floodFillColor bubbles start).head? = some start := by
  refine ⟨fun b => ?_, floodFillColor_nodup bubbles start, floodFillColor_head bubbles start⟩
  rw [floodFillColor_mem_iff]
  exact ⟨fun h => ⟨colorChain_mem bubbles start b hstart h, h⟩, fun h => h.2⟩

theorem floodFillColor_component_witness :
    redPlaced ∈ matchGame.bubbles ∧
    (floodFillColor matchGame.bubbles redPlaced).head? = some redPlaced :=
  ⟨by decide!, (floodFillColor_component matchGame.bubbles redPlaced (by decide!)).2.2⟩

/-- C3: after `removeFloatingBubbles` the board is the old board, in order, restricted
to the bubbles that have a chain of board bubbles to a bubble with `y ≤ 1.5 * BUBBLE_RADIUS`
with consecutive squared distance at most `NEIGHBOR_DIST_SQ`; a removed bubble has no such
chain. -/
theorem removeFloatingBubbles_conservation (s : Game) :
    (removeFloatingBubbles s).bubbles.Sublist s.bubbles ∧
    ∀ b, b ∈ (removeFloatingBubbles s).bubbles ↔
      b ∈ s.bubbles ∧ CeilingConnected s.bubbles b := by
  rw [removeFloatingBubbles_bubbles]
  refine ⟨List.filter_sublist _, fun b => ?_⟩
  simp only [List.mem_filter, decide_eq_true_eq, topConnectedSet_iff_ceilingConnected]

/-- C2: when the same-colour component of the placed bubble has fewer than three
members, `handleMatches` returns the state unchanged (board, score and all other fields; no
floater sweep), so a board that ends with the placed bubble keeps its pre-placement size
plus one. -/
theorem handleMatches_no_match (s : Game) (placed : Bubble)
    (h : (floodFillColor s.bubbles placed).length < 3) :
    handleMatches s placed = s ∧
    ∀ pre, s.bubbles = pre ++ [placed] →
      (handleMatches s placed).bubbles.length = pre.length + 1 := by
  have hs : handleMatches s placed = s := by
    simp only [handleMatches, ge_iff_le, if_neg (Nat.not_le.2 h)]
  refine ⟨hs, fun pre hpre => ?_⟩
  rw [hs, hpre]
  simp

theorem handleMatches_no_match_witness :
    (floodFillColor looseGame.bubbles redPlaced).length < 3 ∧
    ¬ CeilingConnected looseGame.bubbles blueLoose ∧
    handleMatches looseGame redPlaced = looseGame :=
  ⟨by decide!,
    fun h => absurd ((topConnectedSet_iff_ceilingConnected _ _).2 h) (by decide!),
    (handleMatches_no_match looseGame redPlaced (by decide!)).1⟩

/-- C1, as the code has it: on a board of distinct bubbles that contains the placed
bubble, with component size `k ≥ 3`, `handleMatches` removes the component and then the `f`
bubbles of the post-match board that are not ceiling-connected; the board size is the size
before placement plus one, minus `k`, minus `f`, and the score grows by `10 * k + 5 * f`. -/
theorem handleMatches_count (s : Game) (placed : Bubble) (hnd : s.bubbles.Nodup)
    (hmem : placed ∈ s.bubbles) (hk : 3 ≤ (floodFillColor s.bubbles placed).length) :
    ∃ post fallen : List Bubble,
      List.Perm s.bubbles (floodFillColor s.bubbles placed ++ post) ∧
      List.Perm post ((handleMatches s placed).bubbles ++ fallen) ∧
      (∀ b ∈ (handleMatches s placed).bubbles, CeilingConnected post b) ∧
      (∀ b ∈ fallen, ¬ CeilingConnected post b) ∧
      (handleMatches s placed).bubbles.length + (floodFillColor s.bubbles placed).length
        + fallen.length = s.bubbles.length ∧
      (handleMatches s placed).score =
        s.score + 10 * (floodFillColor s.bubbles placed).length + 5 * fallen.length := by
  set mg := floodFillColor s.bubbles placed with hmg
  set post := s.bubbles.filter (fun b => !decide (b ∈ mg)) with hpost
  have hperm1 : List.Perm s.bubbles (mg ++ post) := by
    have h1 := (List.filter_append_perm (fun b => decide (b ∈ mg)) s.bubbles).symm
    exact h1.trans (List.Perm.append_right _
      (filter_mem_perm s.bubbles mg hnd (floodFillColor_nodup _ _)
        (floodFillColor_subset s.bubbles placed hmem)))
  have hbub : (handleMatches s placed).bubbles =
      post.filter (fun b => decide (b ∈ topConnectedSet post)) := by
    rw [handleMatches_of_match s placed hk, removeFloatingBubbles_bubbles,
      maybeUpdateHighScore_bubbles]
  have hscore : (handleMatches s placed).score = s.score + mg.length * 10 +
      (post.length - (post.filter (fun b => decide (b ∈ topConnectedSet post))).length) * 5 := by
    rw [handleMatches_of_match s placed hk, removeFloatingBubbles_score,
      maybeUpdateHighScore_bubbles, maybeUpdateHighScore_score]
  have hperm2 : List.Perm post
      (post.filter (fun b => decide (b ∈ topConnectedSet post)) ++
        post.filter (fun b => !decide (b ∈ topConnectedSet post))) :=
    (List.filter_append_perm (fun b => decide (b ∈ topConnectedSet post)) post).symm
  refine ⟨post, post.filter (fun b => !decide (b ∈ topConnectedSet post)), hperm1, ?_, ?_, ?_,
    ?_, ?_⟩
  · rw [hbub]
    exact hperm2
  · intro b hb
    rw [hbub] at hb
    have := (List.mem_filter.1 hb).2
    exact (topConnectedSet_iff_ceilingConnected post b).1 (by simpa using this)
  · intro b hb hcc
    have := (List.mem_filter.1 hb).2
    have hin := (topConnectedSet_iff_ceilingConnected post b).2 hcc
    simp [hin] at this
  · have l1 := hperm1.length_eq
    have l2 := hperm2.length_eq
    rw [List.length_append] at l1 l2
    rw [hbub]
    omega
  · have l2 := hperm2.length_eq
    rw [List.length_append] at l2
    rw [hscore]
    omega

theorem handleMatches_count_witness :
    matchGame.bubbles.Nodup ∧ redPlaced ∈ matchGame.bubbles ∧
    3 ≤ (floodFillColor matchGame.bubbles redPlaced).length ∧
    ∃ post fallen : List Bubble,
      List.Perm matchGame.bubbles (floodFillColor matchGame.bubbles redPlaced ++ post) ∧
      List.Perm post ((handleMatches matchGame redPlaced).bubbles ++ fallen) ∧
      (∀ b ∈ (handleMatches matchGame redPlaced).bubbles, CeilingConnected post b) ∧
      (∀ b ∈ fallen, ¬ CeilingConnected post b) ∧
      (handleMatches matchGame redPlaced).bubbles.length
        + (floodFillColor matchGame.bubbles redPlaced).length
        + fallen.length = matchGame.bubbles.length ∧
      (handleMatches matchGame redPlaced).score =
        matchGame.score + 10 * (floodFillColor matchGame.bubbles redPlaced).length
          + 5 * fallen.length :=
  ⟨by decide!, by decide!, by decide!,
    handleMatches_count matchGame redPlaced (by decide!) (by decide!) (by decide!)⟩

/-- C1 fails as stated: on `matchGame` (4 bubbles before the placement, component of
size 3) the board is left with 1 bubble, not `4 + 1 - 3 = 2`, and the score grows by 35,
not 30, because the bubble hanging from the popped triple falls as well. -/
theorem handleMatches_count_counterexample :
    redPlaced ∈ matchGame.bubbles ∧
    matchGame.bubbles.length = 4 + 1 ∧
    (floodFillColor matchGame.bubbles redPlaced).length = 3 ∧
    (handleMatches matchGame redPlaced).bubbles.length = 1 ∧
    (handleMatches matchGame redPlaced).bubbles.length ≠ 4 + 1 - 3 ∧
    (handleMatches matchGame redPlaced).score = matchGame.score + 35 ∧
    (handleMatches matchGame redPlaced).score ≠ matchGame.score + 10 * 3 := by
  decide!

/-! ## Snapping -/

theorem snapOverlap_eq_false_iff (bubbles : List Bubble) (collided : Bubble) (pos : Point) :
    snapOverlap bubbles collided pos = false ↔
      ∀ b ∈ bubbles, b ≠ collided →
        (BUBBLE_RADIUS * 2 - 2) * (BUBBLE_RADIUS * 2 - 2) ≤ distanceSq pos b.pos := by
  unfold snapOverlap
  rw [List.any_eq_false]
  constructor
  · intro h b hb hne
    have := h b hb
    simp only [if_neg hne, decide_eq_true_eq, not_lt] at this
    exact this
  · intro h b hb
    by_cases hne : b = collided
    · simp [hne]
    · simp only [if_neg hne, decide_eq_true_eq, not_lt]
      exact h b hb hne

theorem snapStep_of_not_valid (env : Env) (bubbles : List Bubble) (collided : Bubble)
    (m : Shot) (best : Option Best) (pos : Point) (h : ¬ SnapValid env bubbles collided pos) :
    snapStep env bubbles collided m best pos = best := by
  unfold snapStep
  simp only
  split_ifs with h1 h2 h3
  · rfl
  · rfl
  · rfl
  · exfalso
    apply h
    simp only [not_or, not_lt] at h1
    simp only [not_lt] at h2
    refine ⟨h1.1, h1.2, h2, ?_⟩
    rw [← snapOverlap_eq_false_iff]
    simpa using h3

theorem snapStep_of_valid (env : Env) (bubbles : List Bubble) (collided : Bubble)
    (m : Shot) (best : Option Best) (pos : Point) (h : SnapValid env bubbles collided pos) :
    snapStep env bubbles collided m best pos =
      match best with
      | none => some ⟨pos, shotDistSq m pos⟩
      | some b => if shotDistSq m pos < b.dist then some ⟨pos, shotDistSq m pos⟩ else some b := by
  obtain ⟨hx1, hx2, hy, hov⟩ := h
  have hov2 := (snapOverlap_eq_false_iff bubbles collided pos).2 hov
  unfold snapStep
  simp only [hov2, not_lt.2 hx1, not_lt.2 hx2, not_lt.2 hy, or_self, if_false,
    Bool.false_eq_true, shotDistSq]

/-- What the candidate loop leaves in `best`, from any starting value. -/
theorem snapFold_spec (env : Env) (bubbles : List Bubble) (collided : Bubble) (m : Shot) :
    ∀ (cs : List Point) (best0 : Option Best),
      match cs.foldl (snapStep env bubbles collided m) best0 with
      | none => best0 = none ∧ ∀ c ∈ cs, ¬ SnapValid env bubbles collided c
      | some b =>
        (best0 = some b ∧ ∀ c ∈ cs, SnapValid env bubbles collided c → b.dist ≤ shotDistSq m c) ∨
        (∃ l1 l2, cs = l1 ++ b.pos :: l2 ∧ SnapValid env bubbles collided b.pos ∧
          b.dist = shotDistSq m b.pos ∧ (∀ b0, best0 = some b0 → b.dist < b0.dist) ∧
          (∀ c ∈ l1, SnapValid env bubbles collided c → b.dist < shotDistSq m c) ∧
          (∀ c ∈ l2, SnapValid env bubbles collided c → b.dist ≤ shotDistSq m c))
  | [], best0 => by
    cases best0 with
    | none => simp
    | some b => simp
  | c :: cs, best0 => by
    rw [List.foldl_cons]
    have ih := snapFold_spec env bubbles collided m cs (snapStep env bubbles collided m best0 c)
    by_cases hv : SnapValid env bubbles collided c
    · rw [snapStep_of_valid env bubbles collided m best0 c hv] at ih ⊢
      cases best0 with
      | none =>
        simp only at ih ⊢
        cases hres : cs.foldl (snapStep env bubbles collided m) (some ⟨c, shotDistSq m c⟩) with
        | none => rw [hres] at ih; simp at ih
        | some b =>
          rw [hres] at ih
          simp only at ih ⊢
          right
          rcases ih with ⟨hb, hall⟩ | ⟨l1, l2, hcs, hval, hd, hlt, h1, h2⟩
          · have hb2 : b = ⟨c, shotDistSq m c⟩ := (Option.some.inj hb).symm
            subst hb2
            exact ⟨[], cs, rfl, hv, rfl, fun b0 h => by simp at h, fun c hc => by simp at hc, hall⟩
          · have hlt2 := hlt _ rfl
            refine ⟨c :: l1, l2, by simp [hcs], hval, hd, fun b0 h => by simp at h, ?_, h2⟩
            intro c2 hc2 hv2
            rcases List.mem_cons.1 hc2 with rfl | hc2
            · exact hlt2
            · exact h1 c2 hc2 hv2
      | some b0 =>
        simp only at ih ⊢
        by_cases hlt0 : shotDistSq m c < b0.dist
        · rw [if_pos hlt0] at ih ⊢
          cases hres : cs.foldl (snapStep env bubbles collided m) (some ⟨c, shotDistSq m c⟩) with
          | none => rw [hres] at ih; simp at ih
          | some b =>
            rw [hres] at ih
            simp only at ih ⊢
            right
            rcases ih with ⟨hb, hall⟩ | ⟨l1, l2, hcs, hval, hd, hlt, h1, h2⟩
            · have hb2 : b = ⟨c, shotDistSq m c⟩ := (Option.some.inj hb).symm
              subst hb2
              refine ⟨[], cs, rfl, hv, rfl, ?_, fun c hc => by simp at hc, hall⟩
              intro b1 hb1
              rw [← Option.some.inj hb1]
              exact hlt0
            · have hlt2 := hlt _ rfl
              refine ⟨c :: l1, l2, by simp [hcs], hval, hd, ?_, ?_, h2⟩
              · intro b1 hb1
                rw [← Option.some.inj hb1]
                exact lt_trans hlt2 hlt0
              · intro c2 hc2 hv2
                rcases List.mem_cons.1 hc2 with rfl | hc2
                · exact hlt2
                · exact h1 c2 hc2 hv2
        · rw [if_neg hlt0] at ih ⊢
          cases hres : cs.foldl (snapStep env bubbles collided m) (some b0) with
          | none => rw [hres] at ih; simp at ih
          | some b =>
            rw [hres] at ih
            simp only at ih ⊢
            rcases ih with ⟨hb, hall⟩ | ⟨l1, l2, hcs, hval, hd, hlt, h1, h2⟩
            · left
              refine ⟨hb, ?_⟩
              intro c2 hc2 hv2
              rcases List.mem_cons.1 hc2 with rfl | hc2
              · rw [← Option.some.inj hb]
                exact not_lt.1 hlt0
              · exact hall c2 hc2 hv2
            · right
              have hlt2 := hlt _ rfl
              refine ⟨c :: l1, l2, by simp [hcs], hval, hd, hlt, ?_, h2⟩
              intro c2 hc2 hv2
              rcases List.mem_cons.1 hc2 with rfl | hc2
              · exact lt_of_lt_of_le hlt2 (not_lt.1 hlt0)
              · exact h1 c2 hc2 hv2
    · rw [snapStep_of_not_valid env bubbles collided m best0 c hv] at ih ⊢
      cases hres : cs.foldl (snapStep env bubbles collided m) best0 with
      | none =>
        rw [hres] at ih
        simp only at ih ⊢
        refine ⟨ih.1, ?_⟩
        intro c2 hc2
        rcases List.mem_cons.1 hc2 with rfl | hc2
        · exact hv
        · exact ih.2 c2 hc2
      | some b =>
        rw [hres] at ih
        simp only at ih ⊢
        rcases ih with ⟨hb, hall⟩ | ⟨l1, l2, hcs, hval, hd, hlt, h1, h2⟩
        · left
          refine ⟨hb, ?_⟩
          intro c2 hc2 hv2
          rcases List.mem_cons.1 hc2 with rfl | hc2
          · exact absurd hv2 hv
          · exact hall c2 hc2 hv2
        · right
          refine ⟨c :: l1, l2, by simp [hcs], hval, hd, hlt, ?_, h2⟩
          intro c2 hc2 hv2
          rcases List.mem_cons.1 hc2 with rfl | hc2
          · exact absurd hv2 hv
          · exact h1 c2 hc2 hv2

theorem findSnapPosition_eq_none_iff (env : Env) (bubbles : List Bubble) (collided : Bubble)
    (m : Shot) :
    findSnapPosition env bubbles collided m = none ↔
      ∀ c ∈ hexCandidates env collided, ¬ SnapValid env bubbles collided c := by
  have h := snapFold_spec env bubbles collided m (hexCandidates env collided) none
  unfold findSnapPosition
  simp only [Option.map_eq_none']
  cases hres : (hexCandidates env collided).foldl (snapStep env bubbles collided m) none with
  | none =>
    rw [hres] at h
    simpa using h.2
  | some b =>
    rw [hres] at h
    simp only [false_and, false_or, reduceCtorEq] at h ⊢
    obtain ⟨l1, l2, hcs, hval, -⟩ := h
    refine ⟨fun hf => hf.elim, fun hall => ?_⟩
    exact hall b.pos (by rw [hcs]; simp) hval

theorem findSnapPosition_some (env : Env) (bubbles : List Bubble) (collided : Bubble)
    (m : Shot) (p : Point) (h : findSnapPosition env bubbles collided m = some p) :
    ∃ l1 l2, hexCandidates env collided = l1 ++ p :: l2 ∧ SnapValid env bubbles collided p ∧
      (∀ c ∈ l1, SnapValid env bubbles collided c → shotDistSq m p < shotDistSq m c) ∧
      (∀ c ∈ l2, SnapValid env bubbles collided c → shotDistSq m p ≤ shotDistSq m c) := by
  have hs := snapFold_spec env bubbles collided m (hexCandidates env collided) none
  unfold findSnapPosition at h
  simp only at h
  cases hres : (hexCandidates env collided).foldl (snapStep env bubbles collided m) none with
  | none => rw [hres] at h; simp at h
  | some b =>
    rw [hres] at h hs
    simp only [Option.map_some', Option.some.injEq] at h
    simp only [false_and, false_or, reduceCtorEq] at hs
    obtain ⟨l1, l2, hcs, hval, hd, -, h1, h2⟩ := hs
    subst h
    exact ⟨l1, l2, hcs, hval, fun c hc hv => hd ▸ h1 c hc hv, fun c hc hv => hd ▸ h2 c hc hv⟩

/-! ## Frame facts -/

theorem removeFloatingBubbles_frame (s : Game) :
    (removeFloatingBubbles s).gameState = s.gameState ∧
    (removeFloatingBubbles s).currentBubble = s.currentBubble ∧
    (removeFloatingBubbles s).nextBubbleColor = s.nextBubbleColor ∧
    (removeFloatingBubbles s).aimPoint = s.aimPoint ∧
    (removeFloatingBubbles s).aimDir = s.aimDir ∧
    (removeFloatingBubbles s).isAiming = s.isAiming ∧
    (removeFloatingBubbles s).shotCount = s.shotCount ∧
    (removeFloatingBubbles s).level = s.level ∧
    (removeFloatingBubbles s).previewPath = s.previewPath ∧
    (removeFloatingBubbles s).nextId = s.nextId ∧
    (removeFloatingBubbles s).randomCalls = s.randomCalls ∧
    (removeFloatingBubbles s).pendingLevelAdvance = s.pendingLevelAdvance := by
  simp only [removeFloatingBubbles, maybeUpdateHighScore]
  split_ifs <;> simp

theorem handleMatches_frame (s : Game) (p : Bubble) :
    (handleMatches s p).gameState = s.gameState ∧
    (handleMatches s p).currentBubble = s.currentBubble ∧
    (handleMatches s p).nextBubbleColor = s.nextBubbleColor ∧
    (handleMatches s p).aimPoint = s.aimPoint ∧
    (handleMatches s p).aimDir = s.aimDir ∧
    (handleMatches s p).isAiming = s.isAiming ∧
    (handleMatches s p).shotCount = s.shotCount ∧
    (handleMatches s p).level = s.level ∧
    (handleMatches s p).previewPath = s.previewPath ∧
    (handleMatches s p).nextId = s.nextId ∧
    (handleMatches s p).randomCalls = s.randomCalls ∧
    (handleMatches s p).pendingLevelAdvance = s.pendingLevelAdvance := by
  by_cases hk : 3 ≤ (floodFillColor s.bubbles p).length
  · rw [handleMatches_of_match s p hk]
    have h := removeFloatingBubbles_frame (maybeUpdateHighScore
        { s with
          bubbles := s.bubbles.filter (fun b => !decide (b ∈ floodFillColor s.bubbles p))
          score := s.score + (floodFillColor s.bubbles p).length * 10 })
    simp only [maybeUpdateHighScore] at h ⊢
    split_ifs at h ⊢ <;> simpa using h
  · simp [handleMatches, hk]

theorem randColorForLevel_frame (env : Env) (s : Game) :
    (randColorForLevel env s).2 = { s with randomCalls := s.randomCalls + 1 } := rfl

theorem spawnCurrentBubble_frame (env : Env) (s : Game) :
    (spawnCurrentBubble env s).gameState = s.gameState ∧
    (spawnCurrentBubble env s).bubbles = s.bubbles ∧
    (spawnCurrentBubble env s).score = s.score ∧
    (spawnCurrentBubble env s).level = s.level ∧
    (spawnCurrentBubble env s).shotCount = s.shotCount ∧
    ∃ c, (spawnCurrentBubble env s).currentBubble = some c ∧ c.moving = false := by
  unfold spawnCurrentBubble
  cases h : s.nextBubbleColor with
  | none => simp [randColorForLevel]
  | some c =>
    simp only
    split_ifs <;> simp [randColorForLevel]

theorem handleMatches_sublist (s : Game) (p : Bubble) :
    (handleMatches s p).bubbles.Sublist s.bubbles := by
  by_cases hk : 3 ≤ (floodFillColor s.bubbles p).length
  · rw [handleMatches_of_match s p hk, removeFloatingBubbles_bubbles,
      maybeUpdateHighScore_bubbles]
    exact (List.filter_sublist _).trans (List.filter_sublist _)
  · simp [handleMatches, hk]

theorem attachCurrentBubble_unfold (env : Env) (s : Game) (cw : Option Bubble) (cb : Shot)
    (hcb : s.currentBubble = some cb) :
    attachCurrentBubble env s cw =
      if (handleMatches (attachPre env s cb cw) (placedBubble env s cb cw)).bubbles.length = 0 then
        { maybeUpdateHighScore (handleMatches (attachPre env s cb cw) (placedBubble env s cb cw))
          with pendingLevelAdvance :=
            (maybeUpdateHighScore
              (handleMatches (attachPre env s cb cw)
                (placedBubble env s cb cw))).pendingLevelAdvance + 1 }
      else if checkLose env
          (handleMatches (attachPre env s cb cw) (placedBubble env s cb cw)).bubbles then
        { handleMatches (attachPre env s cb cw) (placedBubble env s cb cw)
          with gameState := GameState.GAMEOVER }
      else spawnCurrentBubble env
        (handleMatches (attachPre env s cb cw) (placedBubble env s cb cw)) := by
  simp only [attachCurrentBubble, hcb]

theorem maybeUpdateHighScore_frame (s : Game) :
    (maybeUpdateHighScore s).gameState = s.gameState ∧
    (maybeUpdateHighScore s).currentBubble = s.currentBubble ∧
    (maybeUpdateHighScore s).pendingLevelAdvance = s.pendingLevelAdvance := by
  unfold maybeUpdateHighScore
  split_ifs <;> simp

/-- The final value of `bubbles`, `gameState` and `currentBubble` after
`attachCurrentBubble`. -/
theorem attachCurrentBubble_outcome (env : Env) (s : Game) (cw : Option Bubble) (cb : Shot)
    (hcb : s.currentBubble = some cb) :
    (attachCurrentBubble env s cw).bubbles =
      (handleMatches (attachPre env s cb cw) (placedBubble env s cb cw)).bubbles ∧
    (attachCurrentBubble env s cw).gameState =
      (if (attachCurrentBubble env s cw).bubbles.length = 0 then s.gameState
       else if checkLose env (attachCurrentBubble env s cw).bubbles then GameState.GAMEOVER
       else s.gameState) ∧
    ∃ c, (attachCurrentBubble env s cw).currentBubble = some c ∧ c.moving = false := by
  have hf := handleMatches_frame (attachPre env s cb cw) (placedBubble env s cb cw)
  have hg : (handleMatches (attachPre env s cb cw) (placedBubble env s cb cw)).gameState =
      s.gameState := hf.1
  have hc : (handleMatches (attachPre env s cb cw) (placedBubble env s cb cw)).currentBubble =
      some { cb with moving := false } := hf.2.1
  rw [attachCurrentBubble_unfold env s cw cb hcb]
  generalize handleMatches (attachPre env s cb cw) (placedBubble env s cb cw) = s2 at hg hc ⊢
  have hm := maybeUpdateHighScore_frame s2
  have hmb := maybeUpdateHighScore_bubbles s2
  obtain ⟨hs1, hs2, -, -, -, hs3⟩ := spawnCurrentBubble_frame env s2
  by_cases h1 : s2.bubbles.length = 0
  · rw [if_pos h1]
    refine ⟨hmb, ?_, ?_⟩
    · show (maybeUpdateHighScore s2).gameState = _
      have : (maybeUpdateHighScore s2).bubbles.length = 0 := by rw [hmb]; exact h1
      show _ = if (maybeUpdateHighScore s2).bubbles.length = 0 then _ else _
      rw [if_pos this, hm.1, hg]
    · exact ⟨_, hm.2.1.trans hc, rfl⟩
  · rw [if_neg h1]
    by_cases h2 : checkLose env s2.bubbles = true
    · rw [if_pos h2]
      refine ⟨rfl, ?_, ⟨_, hc, rfl⟩⟩
      show GameState.GAMEOVER = if s2.bubbles.length = 0 then _ else _
      rw [if_neg h1, if_pos h2]
    · rw [if_neg h2]
      refine ⟨hs2, ?_, hs3⟩
      rw [hs2, if_neg h1, if_neg h2, hs1, hg]

/-! ## Snap properties -/

/-- C5: a position returned by `findSnapPosition` is at squared distance at least
`(2 * BUBBLE_RADIUS - 2)²`, that is at distance at least `2 * BUBBLE_RADIUS - 2`, from every
board bubble other than the anchor, has `x` in `[BUBBLE_RADIUS, WIDTH - BUBBLE_RADIUS]` and
`y ≥ BUBBLE_RADIUS`. -/
theorem findSnapPosition_non_overlap (env : Env) (bubbles : List Bubble) (collided : Bubble)
    (movingBubble : Shot) (p : Point)
    (h : findSnapPosition env bubbles collided movingBubble = some p) :
    (∀ b ∈ bubbles, b ≠ collided →
      (2 * BUBBLE_RADIUS - 2) ^ 2 ≤ distanceSq p b.pos) ∧
    BUBBLE_RADIUS ≤ p.x ∧ p.x ≤ (env.WIDTH : ℚ) - BUBBLE_RADIUS ∧ BUBBLE_RADIUS ≤ p.y := by
  obtain ⟨_, _, _, ⟨hx1, hx2, hy, hov⟩, _, _⟩ :=
    findSnapPosition_some env bubbles collided movingBubble p h
  refine ⟨fun b hb hne => ?_, hx1, hx2, hy⟩
  have := hov b hb hne
  calc (2 * BUBBLE_RADIUS - 2) ^ 2
      = (BUBBLE_RADIUS * 2 - 2) * (BUBBLE_RADIUS * 2 - 2) := by ring
    _ ≤ distanceSq p b.pos := this

theorem findSnapPosition_non_overlap_witness :
    findSnapPosition demoEnv looseGame.bubbles greenFar snapShot = some ⟨256, 656 / 15⟩ ∧
    ((∀ b ∈ looseGame.bubbles, b ≠ greenFar →
      (2 * BUBBLE_RADIUS - 2) ^ 2 ≤ distanceSq ⟨256, 656 / 15⟩ b.pos) ∧
    BUBBLE_RADIUS ≤ (256 : ℚ) ∧ (256 : ℚ) ≤ (demoEnv.WIDTH : ℚ) - BUBBLE_RADIUS ∧
      BUBBLE_RADIUS ≤ (656 / 15 : ℚ)) :=
  ⟨by decide!,
    findSnapPosition_non_overlap demoEnv looseGame.bubbles greenFar snapShot ⟨256, 656 / 15⟩
      (by decide!)⟩

/-- C6: `findSnapPosition` works on the six candidates at distance
`2 * BUBBLE_RADIUS` from the anchor at the angles `i * PI / 3`, `i = 0..5`; it returns `null`
exactly when no candidate passes the checks, and otherwise a valid candidate whose squared
distance to the shot is strictly smaller than that of every valid candidate before it in
the enumeration and at most that of every valid candidate after it. -/
theorem findSnapPosition_selection (env : Env) (bubbles : List Bubble) (collided : Bubble)
    (movingBubble : Shot) :
    hexCandidates env collided =
      (List.range 6).map (fun (i : Nat) =>
        (⟨collided.x + env.cos (env.PI / 3 * (i : ℚ)) * (BUBBLE_RADIUS * 2),
          collided.y + env.sin (env.PI / 3 * (i : ℚ)) * (BUBBLE_RADIUS * 2)⟩ : Point)) ∧
    (findSnapPosition env bubbles collided movingBubble = none ↔
      ∀ c ∈ hexCandidates env collided, ¬ SnapValid env bubbles collided c) ∧
    ∀ p, findSnapPosition env bubbles collided movingBubble = some p →
      ∃ l1 l2, hexCandidates env collided = l1 ++ p :: l2 ∧
        SnapValid env bubbles collided p ∧
        (∀ c ∈ l1, SnapValid env bubbles collided c →
          shotDistSq movingBubble p < shotDistSq movingBubble c) ∧
        (∀ c ∈ l2, SnapValid env bubbles collided c →
          shotDistSq movingBubble p ≤ shotDistSq movingBubble c) :=
  ⟨rfl, findSnapPosition_eq_none_iff env bubbles collided movingBubble,
    fun p h => findSnapPosition_some env bubbles collided movingBubble p h⟩

/-! ## Round control properties -/

theorem checkLose_iff (env : Env) (bubbles : List Bubble) :
    checkLose env bubbles = true ↔ ∃ b ∈ bubbles, b.y + b.radius ≥ SHOOTER_Y env - 5 := by
  simp [checkLose, List.any_eq_true]

/-- C7: in a Playing state with a loaded shot, `attachCurrentBubble` ends in GAMEOVER
exactly when, after the placement and the match handling, some settled bubble has
`y + radius ≥ SHOOTER_Y - 5`, and stays PLAYING otherwise, whatever the match outcome. -/
theorem attachCurrentBubble_lose (env : Env) (s : Game) (collidedWith : Option Bubble)
    (cb : Shot) (hplay : s.gameState = GameState.PLAYING) (hcb : s.currentBubble = some cb) :
    ((∃ b ∈ (attachCurrentBubble env s collidedWith).bubbles,
        b.y + b.radius ≥ SHOOTER_Y env - 5) →
      (attachCurrentBubble env s collidedWith).gameState = GameState.GAMEOVER) ∧
    ((¬ ∃ b ∈ (attachCurrentBubble env s collidedWith).bubbles,
        b.y + b.radius ≥ SHOOTER_Y env - 5) →
      (attachCurrentBubble env s collidedWith).gameState = GameState.PLAYING) := by
  obtain ⟨-, hg, -⟩ := attachCurrentBubble_outcome env s collidedWith cb hcb
  rw [hplay] at hg
  rw [← checkLose_iff]
  constructor
  · intro hl
    have hne : (attachCurrentBubble env s collidedWith).bubbles.length ≠ 0 := by
      intro h0
      rw [List.length_eq_zero.1 h0] at hl
      simp [checkLose] at hl
    rw [hg, if_neg hne, if_pos hl]
  · intro hl
    rw [hg]
    split_ifs <;> rfl

theorem attachCurrentBubble_lose_witness :
    lowGame.gameState = GameState.PLAYING ∧
    (∃ b ∈ (attachCurrentBubble demoEnv lowGame none).bubbles,
        b.y + b.radius ≥ SHOOTER_Y demoEnv - 5) ∧
    (attachCurrentBubble demoEnv lowGame none).gameState = GameState.GAMEOVER :=
  ⟨rfl, (checkLose_iff _ _).1 (by decide!),
    (attachCurrentBubble_lose demoEnv lowGame none _ rfl rfl).1
      ((checkLose_iff _ _).1 (by decide!))⟩

theorem update_moving (env : Env) (s : Game) (cb : Shot)
    (hplay : s.gameState = GameState.PLAYING) (hcb : s.currentBubble = some cb)
    (hmov : cb.moving = true) :
    update env s =
      if (bounceWalls env (advanceShot cb)).y - (bounceWalls env (advanceShot cb)).radius ≤ 0 then
        attachCurrentBubble env
          { s with
            currentBubble := some
              { bounceWalls env (advanceShot cb) with
                y := (bounceWalls env (advanceShot cb)).radius } } none
      else
        match s.bubbles.find? fun b =>
            decide (distanceSq (bounceWalls env (advanceShot cb)).pos b.pos ≤
              ((bounceWalls env (advanceShot cb)).radius * 2) ^ 2 * (9 / 10)) with
        | some b =>
          attachCurrentBubble env
            { s with currentBubble := some (bounceWalls env (advanceShot cb)) } (some b)
        | none => { s with currentBubble := some (bounceWalls env (advanceShot cb)) } := by
  simp only [update, hplay, hcb, hmov, ne_eq, not_true_eq_false, if_false, if_true]

/-- C8: when the advanced shot reaches the right wall (`x + radius ≥ WIDTH`, and not
`x - radius ≤ 0`), the wall step of `update` puts `x` at `WIDTH - radius`, negates `dx` and
leaves `dy` (and the advanced `y`) unchanged; a shot still in flight after the tick is
that reflected shot. -/
theorem update_reflects_right_wall (env : Env) (s : Game) (cb : Shot)
    (hplay : s.gameState = GameState.PLAYING) (hcb : s.currentBubble = some cb)
    (hmov : cb.moving = true)
    (hleft : ¬ (cb.x + cb.dx - cb.radius ≤ 0))
    (hright : cb.x + cb.dx + cb.radius ≥ (env.WIDTH : ℚ)) :
    (bounceWalls env (advanceShot cb)).x = (env.WIDTH : ℚ) - cb.radius ∧
    (bounceWalls env (advanceShot cb)).dx = -cb.dx ∧
    (bounceWalls env (advanceShot cb)).dy = cb.dy ∧
    (bounceWalls env (advanceShot cb)).y = cb.y + cb.dy ∧
    ∀ c, (update env s).currentBubble = some c → c.moving = true →
      c = bounceWalls env (advanceShot cb) := by
  have hb : bounceWalls env (advanceShot cb) =
      { advanceShot cb with x := (env.WIDTH : ℚ) - cb.radius, dx := cb.dx * -1 } := by
    simp only [bounceWalls, advanceShot, if_neg hleft, if_pos hright]
  refine ⟨by rw [hb], by rw [hb]; simp, by rw [hb]; rfl, by rw [hb]; rfl, ?_⟩
  intro c hc hm
  rw [update_moving env s cb hplay hcb hmov] at hc
  split_ifs at hc with h1
  · obtain ⟨-, -, c2, hc2, hm2⟩ := attachCurrentBubble_outcome env
      { s with
        currentBubble := some
          { bounceWalls env (advanceShot cb) with
            y := (bounceWalls env (advanceShot cb)).radius } } none _ rfl
    rw [hc2] at hc
    rw [← Option.some.inj hc, hm2] at hm
    exact absurd hm (by simp)
  · split at hc
    · obtain ⟨-, -, c2, hc2, hm2⟩ := attachCurrentBubble_outcome env
        { s with currentBubble := some (bounceWalls env (advanceShot cb)) } (some _) _ rfl
      rw [hc2] at hc
      rw [← Option.some.inj hc, hm2] at hm
      exact absurd hm (by simp)
    · exact (Option.some.inj hc).symm

theorem update_reflects_right_wall_witness :
    (bounceWalls demoEnv (advanceShot wallShot)).x = 464 ∧
    (bounceWalls demoEnv (advanceShot wallShot)).dx = -(24 / 5) ∧
    (bounceWalls demoEnv (advanceShot wallShot)).dy = -32 / 5 :=
  have h := update_reflects_right_wall demoEnv
    { demoGame with currentBubble := some wallShot } wallShot rfl rfl rfl
    (by decide!) (by decide!)
  ⟨h.1.trans (by decide!), h.2.1.trans (by decide!), h.2.2.1.trans (by decide!)⟩

/-- C10: `shoot` changes nothing (shot velocity and moving flag, shotCount, isAiming,
board, score and every other field) when the game is not PLAYING, or the current bubble is
already moving, or aiming has not been started, or no bubble is loaded. -/
theorem shoot_guard (s : Game)
    (h : s.gameState ≠ GameState.PLAYING ∨
      (∃ cb, s.currentBubble = some cb ∧ cb.moving = true) ∨
      s.isAiming = false ∨ s.currentBubble = none) :
    shoot s = s := by
  unfold shoot
  rcases h with h | ⟨cb, hcb, hm⟩ | h | h
  · simp [h]
  · simp [hcb, hm]
  · simp [h]
  · simp [h]

theorem shoot_guard_witness :
    shoot { demoGame with gameState := GameState.PAUSED, isAiming := true } =
      { demoGame with gameState := GameState.PAUSED, isAiming := true } ∧
    shoot demoGame = demoGame ∧
    shoot { demoGame with currentBubble := some wallShot, isAiming := true } =
      { demoGame with currentBubble := some wallShot, isAiming := true } :=
  ⟨shoot_guard _ (Or.inl (by decide)),
    shoot_guard demoGame (Or.inr (Or.inr (Or.inl rfl))),
    shoot_guard _ (Or.inr (Or.inl ⟨wallShot, rfl, rfl⟩))⟩

/-! ## The board invariant -/

theorem nonOverlap_sublist {l1 l2 : List Bubble} (h : l1.Sublist l2) (h2 : NonOverlap l2) :
    NonOverlap l1 :=
  List.Pairwise.sublist h h2

theorem nonOverlap_append_singleton (L : List Bubble) (b : Bubble) (hL : NonOverlap L)
    (hb : ∀ a ∈ L, (BUBBLE_RADIUS * 2 - 2) * (BUBBLE_RADIUS * 2 - 2) ≤ distanceSq a.pos b.pos) :
    NonOverlap (L ++ [b]) := by
  unfold NonOverlap at hL ⊢
  rw [List.pairwise_append]
  refine ⟨hL, List.pairwise_singleton _ _, ?_⟩
  intro a ha c hc
  rw [List.mem_singleton] at hc
  subst hc
  exact hb a ha

/-- A new lattice point is far enough from every lattice point placed before it. -/
theorem grid_separation (row k : Nat) (x : ℚ) (a : Bubble) (ra ka : Nat)
    (hx : x = BUBBLE_RADIUS + BUBBLE_RADIUS * ((row % 2 : Nat) : ℚ) + 2 * BUBBLE_RADIUS * (k : ℚ))
    (hax : a.x = BUBBLE_RADIUS + BUBBLE_RADIUS * ((ra % 2 : Nat) : ℚ)
      + 2 * BUBBLE_RADIUS * (ka : ℚ))
    (hay : a.y = BUBBLE_RADIUS + (ra : ℚ) * (BUBBLE_RADIUS * (7 / 4)))
    (hrow : ra < row ∨ (ra = row ∧ a.x + 2 * BUBBLE_RADIUS ≤ x)) :
    (BUBBLE_RADIUS * 2 - 2) * (BUBBLE_RADIUS * 2 - 2) ≤
      distanceSq a.pos ⟨x, BUBBLE_RADIUS + (row : ℚ) * (BUBBLE_RADIUS * (7 / 4))⟩ := by
  simp only [distanceSq, Bubble.pos, BUBBLE_RADIUS] at *
  rcases hrow with hlt | ⟨heq, hle⟩
  · by_cases h2 : ra + 2 ≤ row
    · have hc : (ra : ℚ) + 2 ≤ (row : ℚ) := by exact_mod_cast h2
      rw [hay]
      nlinarith [sq_nonneg (a.x - x)]
    · have h1 : row = ra + 1 := by omega
      subst h1
      rw [hay, hax, hx]
      push_cast
      rcases Nat.mod_two_eq_zero_or_one ra with hm | hm
      · have hm2 : (ra + 1) % 2 = 1 := by omega
        rw [hm, hm2]
        push_cast
        rcases Nat.lt_or_ge k ka with hk | hk
        · have hc : (k : ℚ) + 1 ≤ (ka : ℚ) := by exact_mod_cast hk
          nlinarith
        · have hc : (ka : ℚ) ≤ (k : ℚ) := by exact_mod_cast hk
          nlinarith
      · have hm2 : (ra + 1) % 2 = 0 := by omega
        rw [hm, hm2]
        push_cast
        rcases Nat.lt_or_ge ka k with hk | hk
        · have hc : (ka : ℚ) + 1 ≤ (k : ℚ) := by exact_mod_cast hk
          nlinarith
        · have hc : (k : ℚ) ≤ (ka : ℚ) := by exact_mod_cast hk
          nlinarith
  · subst heq
    rw [hay]
    nlinarith

theorem gridRowLoop_inv (env : Env) (row : Nat) :
    ∀ (fuel : Nat) (x : ℚ) (s : Game),
      (∃ k : Nat, x = BUBBLE_RADIUS + BUBBLE_RADIUS * ((row % 2 : Nat) : ℚ)
        + 2 * BUBBLE_RADIUS * (k : ℚ)) →
      NonOverlap s.bubbles → GridAligned row x s.bubbles →
      NonOverlap (gridRowLoop env row fuel x s).bubbles ∧
        ∃ x2, GridAligned row x2 (gridRowLoop env row fuel x s).bubbles
  | 0, x, s, _, hn, ha => ⟨hn, x, ha⟩
  | fuel + 1, x, s, ⟨k, hk⟩, hn, ha => by
    unfold gridRowLoop
    simp only
    split_ifs with hle
    · apply gridRowLoop_inv env row fuel
      · refine ⟨k + 1, ?_⟩
        rw [hk]
        push_cast
        ring
      · apply nonOverlap_append_singleton _ _ hn
        intro a hmem
        obtain ⟨ra, ka, hax, hay, hrow⟩ := ha a hmem
        exact grid_separation row k x a ra ka hk hax hay hrow
      · intro a hmem
        rcases List.mem_append.1 hmem with hmem | hmem
        · obtain ⟨ra, ka, hax, hay, hrow⟩ := ha a hmem
          refine ⟨ra, ka, hax, hay, ?_⟩
          rcases hrow with h | ⟨h1, h2⟩
          · exact Or.inl h
          · refine Or.inr ⟨h1, ?_⟩
            have : (0 : ℚ) ≤ 2 * BUBBLE_RADIUS := by norm_num [BUBBLE_RADIUS]
            linarith
        · rw [List.mem_singleton] at hmem
          subst hmem
          exact ⟨row, k, hk, rfl, Or.inr ⟨rfl, le_refl _⟩⟩
    · exact ⟨hn, x, ha⟩

theorem gridRow_inv (env : Env) (s : Game) (row : Nat)
    (hn : NonOverlap s.bubbles)
    (hrows : ∀ a ∈ s.bubbles, ∃ ra ka : Nat,
      a.x = BUBBLE_RADIUS + BUBBLE_RADIUS * ((ra % 2 : Nat) : ℚ) + 2 * BUBBLE_RADIUS * (ka : ℚ) ∧
      a.y = BUBBLE_RADIUS + (ra : ℚ) * (BUBBLE_RADIUS * (7 / 4)) ∧ ra < row) :
    NonOverlap (gridRow env s row).bubbles ∧
    ∀ a ∈ (gridRow env s row).bubbles, ∃ ra ka : Nat,
      a.x = BUBBLE_RADIUS + BUBBLE_RADIUS * ((ra % 2 : Nat) : ℚ) + 2 * BUBBLE_RADIUS * (ka : ℚ) ∧
      a.y = BUBBLE_RADIUS + (ra : ℚ) * (BUBBLE_RADIUS * (7 / 4)) ∧ ra < row + 1 := by
  have hx : ∃ k : Nat, BUBBLE_RADIUS + (if row % 2 = 1 then BUBBLE_RADIUS else 0) =
      BUBBLE_RADIUS + BUBBLE_RADIUS * ((row % 2 : Nat) : ℚ) + 2 * BUBBLE_RADIUS * (k : ℚ) := by
    refine ⟨0, ?_⟩
    rcases Nat.mod_two_eq_zero_or_one row with hm | hm <;> simp [hm]
  have hal : GridAligned row (BUBBLE_RADIUS + (if row % 2 = 1 then BUBBLE_RADIUS else 0))
      s.bubbles := by
    intro a hmem
    obtain ⟨ra, ka, h1, h2, h3⟩ := hrows a hmem
    exact ⟨ra, ka, h1, h2, Or.inl h3⟩
  obtain ⟨h1, x2, h2⟩ := gridRowLoop_inv env row env.WIDTH _ s hx hn hal
  refine ⟨h1, ?_⟩
  intro a hmem
  obtain ⟨ra, ka, hax, hay, hrow⟩ := h2 a hmem
  refine ⟨ra, ka, hax, hay, ?_⟩
  rcases hrow with h | ⟨h, -⟩ <;> omega

theorem gridRows_inv (env : Env) (s : Game) :
    ∀ n : Nat,
      NonOverlap ((List.range n).foldl (gridRow env) { s with bubbles := [] }).bubbles ∧
      ∀ a ∈ ((List.range n).foldl (gridRow env) { s with bubbles := [] }).bubbles,
        ∃ ra ka : Nat,
          a.x = BUBBLE_RADIUS + BUBBLE_RADIUS * ((ra % 2 : Nat) : ℚ)
            + 2 * BUBBLE_RADIUS * (ka : ℚ) ∧
          a.y = BUBBLE_RADIUS + (ra : ℚ) * (BUBBLE_RADIUS * (7 / 4)) ∧ ra < n
  | 0 => by
    simp [NonOverlap]
  | n + 1 => by
    rw [List.range_succ, List.foldl_append]
    obtain ⟨h1, h2⟩ := gridRows_inv env s n
    exact gridRow_inv env _ n h1 h2

theorem createInitialGrid_nonOverlap (env : Env) (s : Game) :
    NonOverlap (createInitialGrid env s).bubbles :=
  (gridRows_inv env s (4 + s.level)).1

/-- The fuel of the column loop is never the reason it stops: more fuel changes nothing. -/
theorem gridRowLoop_fuel (env : Env) (row : Nat) :
    ∀ (fuel : Nat) (x : ℚ) (s : Game),
      (env.WIDTH : ℚ) - BUBBLE_RADIUS < x + 2 * BUBBLE_RADIUS * (fuel : ℚ) →
      ∀ extra : Nat, gridRowLoop env row (fuel + extra) x s = gridRowLoop env row fuel x s
  | 0, x, s, h, extra => by
    cases extra with
    | zero => rfl
    | succ e =>
      have hx : ¬ x ≤ (env.WIDTH : ℚ) - BUBBLE_RADIUS := by
        simp only [Nat.cast_zero, mul_zero, add_zero] at h
        exact not_le.2 h
      simp only [Nat.zero_add, gridRowLoop, if_neg hx]
  | fuel + 1, x, s, h, extra => by
    have e : fuel + 1 + extra = (fuel + extra) + 1 := by omega
    rw [e]
    simp only [gridRowLoop]
    split_ifs with hle
    · apply gridRowLoop_fuel env row fuel
      push_cast at h
      linarith
    · rfl

theorem gridRow_fuel (env : Env) (s : Game) (row extra : Nat) :
    gridRowLoop env row (env.WIDTH + extra)
      (BUBBLE_RADIUS + (if row % 2 = 1 then BUBBLE_RADIUS else 0)) s = gridRow env s row := by
  unfold gridRow
  apply gridRowLoop_fuel
  have hw : (0 : ℚ) ≤ (env.WIDTH : ℚ) := Nat.cast_nonneg _
  split_ifs <;> norm_num [BUBBLE_RADIUS] <;> linarith

theorem placedBubble_pos_of_snap (env : Env) (s : Game) (cb : Shot) (anchor : Bubble)
    (p : Point) (h : findSnapPosition env s.bubbles anchor cb = some p) :
    (placedBubble env s cb (some anchor)).pos = p := by
  simp only [placedBubble, placedPoint, h, Bubble.pos]

theorem hexCandidate_far_from_anchor (env : Env) (anchor : Bubble) (p : Point)
    (hhex : ∀ i : Nat, i < 6 →
      ((15 : ℚ) / 16) ^ 2 ≤
        (env.cos (env.PI / 3 * (i : ℚ))) ^ 2 + (env.sin (env.PI / 3 * (i : ℚ))) ^ 2)
    (hp : p ∈ hexCandidates env anchor) :
    (BUBBLE_RADIUS * 2 - 2) * (BUBBLE_RADIUS * 2 - 2) ≤ distanceSq anchor.pos p := by
  unfold hexCandidates at hp
  rw [List.mem_map] at hp
  obtain ⟨i, hi, rfl⟩ := hp
  have h := hhex i (List.mem_range.1 hi)
  simp only [distanceSq, Bubble.pos, BUBBLE_RADIUS]
  nlinarith

theorem attach_snap_nonOverlap (env : Env)
    (hhex : ∀ i : Nat, i < 6 →
      ((15 : ℚ) / 16) ^ 2 ≤
        (env.cos (env.PI / 3 * (i : ℚ))) ^ 2 + (env.sin (env.PI / 3 * (i : ℚ))) ^ 2)
    (s : Game) (cb : Shot) (anchor : Bubble) (hcb : s.currentBubble = some cb)
    (hn : NonOverlap s.bubbles)
    (hsnap : findSnapPosition env s.bubbles anchor cb ≠ none) :
    NonOverlap (attachCurrentBubble env s (some anchor)).bubbles := by
  obtain ⟨p, hp⟩ := Option.ne_none_iff_exists'.1 hsnap
  obtain ⟨l1, l2, hcs, hval, -, -⟩ := findSnapPosition_some env s.bubbles anchor cb p hp
  rw [(attachCurrentBubble_outcome env s (some anchor) cb hcb).1]
  apply nonOverlap_sublist (handleMatches_sublist _ _)
  show NonOverlap (s.bubbles ++ [placedBubble env s cb (some anchor)])
  apply nonOverlap_append_singleton _ _ hn
  intro a ha
  rw [placedBubble_pos_of_snap env s cb anchor p hp]
  by_cases hane : a = anchor
  · subst hane
    exact hexCandidate_far_from_anchor env a p hhex (by rw [hcs]; simp)
  · rw [distanceSq_comm]
    exact hval.2.2.2 a ha hane

/-- C9, as the code has it: the grid built by `createInitialGrid` has no two bubbles
closer than `2 * BUBBLE_RADIUS - 2`; removals (`handleMatches`, `removeFloatingBubbles`)
keep that property; and a placement into a slot returned by `findSnapPosition` keeps it,
the six hex offsets having length at least `15/16`. Ceiling-direct and fallback placements
are not covered. -/
theorem nonOverlap_grid_and_snap (env : Env)
    (hhex : ∀ i : Nat, i < 6 →
      ((15 : ℚ) / 16) ^ 2 ≤
        (env.cos (env.PI / 3 * (i : ℚ))) ^ 2 + (env.sin (env.PI / 3 * (i : ℚ))) ^ 2) :
    (∀ s, NonOverlap (createInitialGrid env s).bubbles) ∧
    (∀ s p, NonOverlap s.bubbles →
      NonOverlap (handleMatches s p).bubbles ∧ NonOverlap (removeFloatingBubbles s).bubbles) ∧
    (∀ s cb anchor, s.currentBubble = some cb → NonOverlap s.bubbles →
      findSnapPosition env s.bubbles anchor cb ≠ none →
      NonOverlap (attachCurrentBubble env s (some anchor)).bubbles) := by
  refine ⟨createInitialGrid_nonOverlap env, ?_, ?_⟩
  · intro s p hn
    refine ⟨nonOverlap_sublist (handleMatches_sublist s p) hn, ?_⟩
    rw [removeFloatingBubbles_bubbles]
    exact nonOverlap_sublist (List.filter_sublist _) hn
  · intro s cb anchor hcb hn hsnap
    exact attach_snap_nonOverlap env hhex s cb anchor hcb hn hsnap

theorem nonOverlap_grid_and_snap_witness :
    (∀ i : Nat, i < 6 →
      ((15 : ℚ) / 16) ^ 2 ≤
        (demoEnv.cos (demoEnv.PI / 3 * (i : ℚ))) ^ 2
          + (demoEnv.sin (demoEnv.PI / 3 * (i : ℚ))) ^ 2) ∧
    NonOverlap (createInitialGrid demoEnv demoGame).bubbles ∧
    NonOverlap (attachCurrentBubble demoEnv
      { looseGame with currentBubble := some snapShot } (some greenFar)).bubbles :=
  have h := nonOverlap_grid_and_snap demoEnv (by decide!)
  ⟨by decide!, h.1 demoGame,
    h.2.2 { looseGame with currentBubble := some snapShot } snapShot greenFar rfl
      (by unfold NonOverlap; decide!) (by decide!)⟩

/-- C9 fails as stated. Ceiling-direct: on the 1200 wide canvas, with one bubble at
`(1054, 16)`, the shot fired along `(3/5, -4/5)` flies 88 ticks without touching anything
and on tick 89 is clamped to the ceiling at `(5136/5, 16)`, 26.8 from the settled bubble.
Fallback: the shot of `cornerGame` hits `cornerAnchor`, none of the six slots is valid, and
the bubble is placed at `(176/5, 208/5)`, closer than 30 to `cornerBlock`. Both boards
satisfied the invariant before the placement. -/
theorem nonOverlap_counterexample :
    (NonOverlap ceilingGame.bubbles ∧
      ((update wideEnv)^[88] (shoot ceilingGame)).bubbles = ceilingGame.bubbles ∧
      ¬ NonOverlap ((update wideEnv)^[89] (shoot ceilingGame)).bubbles) ∧
    (NonOverlap cornerGame.bubbles ∧
      findSnapPosition demoEnv cornerGame.bubbles cornerAnchor
        (bounceWalls demoEnv (advanceShot
          { x := 134 / 5, y := 252 / 5, radius := 16, color := "#ff595e", dx := -24 / 5,
            dy := -32 / 5, moving := true })) = none ∧
      ¬ NonOverlap (update demoEnv cornerGame).bubbles) := by
  unfold NonOverlap
  decide!

/-! ## Frame facts of the grid construction -/

theorem gridRowLoop_frame (env : Env) (row : Nat) :
    ∀ (fuel : Nat) (x : ℚ) (s : Game),
      (gridRowLoop env row fuel x s).gameState = s.gameState ∧
      (gridRowLoop env row fuel x s).score = s.score ∧
      (gridRowLoop env row fuel x s).level = s.level ∧
      (gridRowLoop env row fuel x s).shotCount = s.shotCount ∧
      (gridRowLoop env row fuel x s).highScore = s.highScore ∧
      (gridRowLoop env row fuel x s).pendingLevelAdvance = s.pendingLevelAdvance
  | 0, _, _ => ⟨rfl, rfl, rfl, rfl, rfl, rfl⟩
  | fuel + 1, x, s => by
    unfold gridRowLoop
    simp only
    split_ifs with hle
    · have h := gridRowLoop_frame env row fuel (x + 2 * BUBBLE_RADIUS)
        { (randColorForLevel env s).2 with
          bubbles := (randColorForLevel env s).2.bubbles ++
            [⟨(randColorForLevel env s).2.nextId, x,
              BUBBLE_RADIUS + (row : ℚ) * (BUBBLE_RADIUS * (7 / 4)), BUBBLE_RADIUS,
              (randColorForLevel env s).1⟩]
          nextId := (randColorForLevel env s).2.nextId + 1 }
      simpa [randColorForLevel] using h
    · exact ⟨rfl, rfl, rfl, rfl, rfl, rfl⟩

theorem gridRows_frame (env : Env) (s : Game) :
    ∀ n : Nat,
      ((List.range n).foldl (gridRow env) s).gameState = s.gameState ∧
      ((List.range n).foldl (gridRow env) s).score = s.score ∧
      ((List.range n).foldl (gridRow env) s).level = s.level ∧
      ((List.range n).foldl (gridRow env) s).shotCount = s.shotCount ∧
      ((List.range n).foldl (gridRow env) s).highScore = s.highScore ∧
      ((List.range n).foldl (gridRow env) s).pendingLevelAdvance = s.pendingLevelAdvance
  | 0 => ⟨rfl, rfl, rfl, rfl, rfl, rfl⟩
  | n + 1 => by
    rw [List.range_succ, List.foldl_append]
    obtain ⟨h1, h2, h3, h4, h5, h6⟩ := gridRows_frame env s n
    obtain ⟨g1, g2, g3, g4, g5, g6⟩ := gridRowLoop_frame env n env.WIDTH
      (BUBBLE_RADIUS + (if n % 2 = 1 then BUBBLE_RADIUS else 0))
      ((List.range n).foldl (gridRow env) s)
    exact ⟨g1.trans h1, g2.trans h2, g3.trans h3, g4.trans h4, g5.trans h5, g6.trans h6⟩

theorem createInitialGrid_frame (env : Env) (s : Game) :
    (createInitialGrid env s).gameState = s.gameState ∧
    (createInitialGrid env s).score = s.score ∧
    (createInitialGrid env s).level = s.level ∧
    (createInitialGrid env s).shotCount = s.shotCount ∧
    (createInitialGrid env s).highScore = s.highScore ∧
    (createInitialGrid env s).pendingLevelAdvance = s.pendingLevelAdvance :=
  gridRows_frame env { s with bubbles := [] } (4 + s.level)

/-- What `resetLevel` and `nextLevel` do after the counters are set: rebuild, draw, spawn. -/
theorem rebuild_frame (env : Env) (s : Game) :
    (spawnCurrentBubble env
      { (randColorForLevel env (createInitialGrid env s)).2 with
        nextBubbleColor := some (randColorForLevel env (createInitialGrid env s)).1 }).gameState
      = s.gameState ∧
    (spawnCurrentBubble env
      { (randColorForLevel env (createInitialGrid env s)).2 with
        nextBubbleColor := some (randColorForLevel env (createInitialGrid env s)).1 }).score
      = s.score ∧
    (spawnCurrentBubble env
      { (randColorForLevel env (createInitialGrid env s)).2 with
        nextBubbleColor := some (randColorForLevel env (createInitialGrid env s)).1 }).level
      = s.level ∧
    (spawnCurrentBubble env
      { (randColorForLevel env (createInitialGrid env s)).2 with
        nextBubbleColor := some (randColorForLevel env (createInitialGrid env s)).1 }).shotCount
      = s.shotCount ∧
    (spawnCurrentBubble env
      { (randColorForLevel env (createInitialGrid env s)).2 with
        nextBubbleColor := some (randColorForLevel env (createInitialGrid env s)).1 }).bubbles
      = (createInitialGrid env s).bubbles := by
  obtain ⟨h1, h2, h3, h4, h5, -⟩ := spawnCurrentBubble_frame env
      { (randColorForLevel env (createInitialGrid env s)).2 with
        nextBubbleColor := some (randColorForLevel env (createInitialGrid env s)).1 }
  obtain ⟨g1, g2, g3, g4, -, -⟩ := createInitialGrid_frame env s
  rw [h1, h2, h3, h4, h5]
  simp only [randColorForLevel]
  exact ⟨g1, g2, g3, g4, trivial⟩

theorem nextLevel_frame (env : Env) (s : Game) :
    (nextLevel env s).gameState = s.gameState ∧
    (nextLevel env s).score = s.score ∧
    (nextLevel env s).level = s.level + 1 ∧
    (nextLevel env s).shotCount = 0 ∧
    (nextLevel env s).bubbles =
      (createInitialGrid env { s with level := s.level + 1, shotCount := 0 }).bubbles :=
  rebuild_frame env { s with level := s.level + 1, shotCount := 0 }

theorem resetLevel_keep_frame (env : Env) (s : Game) :
    (resetLevel env s false).gameState = s.gameState ∧
    (resetLevel env s false).score = s.score ∧
    (resetLevel env s false).level = s.level ∧
    (resetLevel env s false).shotCount = 0 ∧
    (resetLevel env s false).bubbles = (createInitialGrid env { s with shotCount := 0 }).bubbles :=
  rebuild_frame env { s with shotCount := 0 }

theorem resetLevel_reset_frame (env : Env) (s : Game) :
    (resetLevel env s true).gameState = s.gameState ∧
    (resetLevel env s true).score = 0 ∧
    (resetLevel env s true).level = 1 ∧
    (resetLevel env s true).shotCount = 0 ∧
    (resetLevel env s true).bubbles =
      (createInitialGrid env { s with score := 0, level := 1, shotCount := 0 }).bubbles :=
  rebuild_frame env { s with score := 0, level := 1, shotCount := 0 }

/-! ## Score -/

theorem removeFloatingBubbles_score_le (s : Game) :
    s.score ≤ (removeFloatingBubbles s).score := by
  rw [removeFloatingBubbles_score]
  exact Nat.le_add_right _ _

theorem handleMatches_score_le (s : Game) (p : Bubble) :
    s.score ≤ (handleMatches s p).score := by
  by_cases hk : 3 ≤ (floodFillColor s.bubbles p).length
  · rw [handleMatches_of_match s p hk]
    refine le_trans ?_ (removeFloatingBubbles_score_le _)
    rw [maybeUpdateHighScore_score]
    exact Nat.le_add_right _ _
  · simp [handleMatches, hk]

theorem attachCurrentBubble_score_le (env : Env) (s : Game) (cw : Option Bubble) :
    s.score ≤ (attachCurrentBubble env s cw).score := by
  cases hcb : s.currentBubble with
  | none => simp [attachCurrentBubble, hcb]
  | some cb =>
    rw [attachCurrentBubble_unfold env s cw cb hcb]
    have h : s.score ≤
        (handleMatches (attachPre env s cb cw) (placedBubble env s cb cw)).score :=
      handleMatches_score_le (attachPre env s cb cw) (placedBubble env s cb cw)
    generalize handleMatches (attachPre env s cb cw) (placedBubble env s cb cw) = s2 at h ⊢
    split_ifs
    · show s.score ≤ (maybeUpdateHighScore s2).score
      rw [maybeUpdateHighScore_score]
      exact h
    · exact h
    · rw [(spawnCurrentBubble_frame env s2).2.2.1]
      exact h

theorem update_score_le (env : Env) (s : Game) : s.score ≤ (update env s).score := by
  unfold update
  split_ifs
  · exact le_refl _
  · cases hcb : s.currentBubble with
    | none => exact le_refl _
    | some cb0 =>
      simp only
      split_ifs
      · refine le_trans ?_ (attachCurrentBubble_score_le env _ none)
        exact le_refl _
      · split
        · refine le_trans ?_ (attachCurrentBubble_score_le env _ _)
          exact le_refl _
        · exact le_refl _
      · exact le_refl _

theorem shoot_score (s : Game) : (shoot s).score = s.score := by
  unfold shoot
  split_ifs
  · rfl
  · rfl
  · cases hcb : s.currentBubble with
    | none => rfl
    | some cb =>
      simp only
      split_ifs <;> rfl

/-- C15: the score is a natural number, and `handleMatches`, `removeFloatingBubbles`,
`attachCurrentBubble`, `update`, `shoot` and `nextLevel` never decrease it. -/
theorem score_monotone (env : Env) (s : Game) (p : Bubble) (cw : Option Bubble) :
    0 ≤ s.score ∧
    s.score ≤ (handleMatches s p).score ∧
    s.score ≤ (removeFloatingBubbles s).score ∧
    s.score ≤ (attachCurrentBubble env s cw).score ∧
    s.score ≤ (update env s).score ∧
    s.score ≤ (shoot s).score ∧
    s.score ≤ (nextLevel env s).score :=
  ⟨Nat.zero_le _, handleMatches_score_le s p, removeFloatingBubbles_score_le s,
    attachCurrentBubble_score_le env s cw, update_score_le env s,
    le_of_eq (shoot_score s).symm, le_of_eq (nextLevel_frame env s).2.1.symm⟩

/-! ## Pause -/

/-- C16: `pauseGame` acts only in the PLAYING state and `resumeGame` only in the PAUSED
state, each changing nothing but `gameState`; resuming after pausing a Playing state gives
the state back; `update` does nothing while PAUSED. -/
theorem pause_toggle (env : Env) (s : Game) :
    (s.gameState ≠ GameState.PLAYING → pauseGame s = s) ∧
    (s.gameState = GameState.PLAYING →
      pauseGame s = { s with gameState := GameState.PAUSED }) ∧
    (s.gameState ≠ GameState.PAUSED → resumeGame s = s) ∧
    (s.gameState = GameState.PAUSED →
      resumeGame s = { s with gameState := GameState.PLAYING }) ∧
    (s.gameState = GameState.PLAYING → resumeGame (pauseGame s) = s) ∧
    (s.gameState = GameState.PAUSED → update env s = s) := by
  refine ⟨?_, ?_, ?_, ?_, ?_, ?_⟩
  · intro h
    simp [pauseGame, h]
  · intro h
    simp [pauseGame, h]
  · intro h
    simp [resumeGame, h]
  · intro h
    simp [resumeGame, h]
  · intro h
    cases s
    simp only at h
    subst h
    simp [pauseGame, resumeGame]
  · intro h
    simp [update, h]

/-! ## Restart -/

theorem restartClick_not_menu (env : Env) (s : Game) (h : s.gameState ≠ GameState.MENU) :
    restartClick env s = resetLevel env { s with gameState := GameState.PLAYING } false := by
  simp [restartClick, h]

/-- C18, as the code has it: a restart taken while not in the Menu state puts the game
in the Playing state with `shotCount = 0` and a rebuilt grid, and keeps `score` and `level`;
the same holds for the restart button of the pause overlay. Only the restart taken in the
Menu state (a new game) sets `score = 0` and `level = 1`. -/
theorem restart_keeps_progression (env : Env) (s : Game) (h : s.gameState ≠ GameState.MENU) :
    ((restartClick env s).gameState = GameState.PLAYING ∧
      (restartClick env s).shotCount = 0 ∧
      (restartClick env s).score = s.score ∧
      (restartClick env s).level = s.level ∧
      (restartClick env s).bubbles =
        (createInitialGrid env { s with gameState := GameState.PLAYING, shotCount := 0 }).bubbles) ∧
    ((pauseRestartClick env s).gameState = GameState.PLAYING ∧
      (pauseRestartClick env s).shotCount = 0 ∧
      (pauseRestartClick env s).score = s.score ∧
      (pauseRestartClick env s).level = s.level ∧
      (pauseRestartClick env s).bubbles =
        (createInitialGrid env { s with gameState := GameState.PLAYING, shotCount := 0 }).bubbles) ∧
    ((restartClick env { s with gameState := GameState.MENU }).gameState = GameState.PLAYING ∧
      (restartClick env { s with gameState := GameState.MENU }).shotCount = 0 ∧
      (restartClick env { s with gameState := GameState.MENU }).score = 0 ∧
      (restartClick env { s with gameState := GameState.MENU }).level = 1) := by
  have hk := resetLevel_keep_frame env { s with gameState := GameState.PLAYING }
  refine ⟨?_, ?_, ?_⟩
  · rw [restartClick_not_menu env s h]
    exact ⟨hk.1, hk.2.2.2.1, hk.2.1, hk.2.2.1, hk.2.2.2.2⟩
  · exact ⟨hk.1, hk.2.2.2.1, hk.2.1, hk.2.2.1, hk.2.2.2.2⟩
  · have hr := resetLevel_reset_frame env { s with gameState := GameState.PLAYING }
    have e : restartClick env { s with gameState := GameState.MENU } =
        resetLevel env { s with gameState := GameState.PLAYING } true := by
      simp [restartClick, startNewGame]
    rw [e]
    exact ⟨hr.1, hr.2.2.2.1, hr.2.1, hr.2.2.1⟩

theorem restart_keeps_progression_witness :
    overGame.gameState ≠ GameState.MENU ∧
    (restartClick demoEnv overGame).gameState = GameState.PLAYING ∧
    (restartClick demoEnv overGame).shotCount = 0 ∧
    (restartClick demoEnv overGame).score = overGame.score ∧
    (restartClick demoEnv overGame).level = overGame.level :=
  have h := (restart_keeps_progression demoEnv overGame (by decide)).1
  ⟨by decide, h.1, h.2.1, h.2.2.1, h.2.2.2.1⟩

/-- C18 fails as stated: restarting the finished game `overGame` (level 3, score 50,
not in the Menu state) leaves `score = 50` and `level = 3`; only `shotCount` is reset. -/
theorem restart_counterexample :
    overGame.gameState ≠ GameState.MENU ∧
    (restartClick demoEnv overGame).score = 50 ∧
    (restartClick demoEnv overGame).score ≠ 0 ∧
    (restartClick demoEnv overGame).level = 3 ∧
    (restartClick demoEnv overGame).level ≠ 1 ∧
    (pauseRestartClick demoEnv overGame).score = 50 ∧
    (pauseRestartClick demoEnv overGame).level = 3 := by
  have hk := resetLevel_keep_frame demoEnv { overGame with gameState := GameState.PLAYING }
  have e := restartClick_not_menu demoEnv overGame (by decide)
  have hs : (restartClick demoEnv overGame).score = 50 := by rw [e]; exact hk.2.1
  have hl : (restartClick demoEnv overGame).level = 3 := by rw [e]; exact hk.2.2.1
  refine ⟨by decide, hs, by rw [hs]; decide, hl, by rw [hl]; decide, hk.2.1, hk.2.2.1⟩

/-! ## Trajectory preview -/

theorem trajectoryLoop_spec (env : Env) (bubbles : List Bubble) :
    ∀ (k : Nat) (pos dir : Point) (path : List Point),
      ∃ pts, trajectoryLoop env bubbles k pos dir path = path ++ pts ∧ pts.length ≤ k
  | 0, _, _, path => ⟨[], by simp [trajectoryLoop]⟩
  | k + 1, pos, dir, path => by
    unfold trajectoryLoop
    simp only
    generalize previewBounce env
      ⟨pos.x + dir.x * TRAJECTORY_STEP, pos.y + dir.y * TRAJECTORY_STEP⟩ dir = pd
    split_ifs with h1 h2
    · exact ⟨[⟨pd.1.x, BUBBLE_RADIUS⟩], rfl, by simp⟩
    · exact ⟨[pd.1], rfl, by simp⟩
    · obtain ⟨pts, he, hl⟩ := trajectoryLoop_spec env bubbles k pd.1 pd.2 (path ++ [pd.1])
      exact ⟨pd.1 :: pts, by rw [he]; simp, by simpa using hl⟩

theorem computeTrajectory_path (env : Env) (s : Game) (cb : Shot)
    (hplay : s.gameState = GameState.PLAYING) (hcb : s.currentBubble = some cb)
    (hmov : cb.moving = false) :
    (computeTrajectory env s).previewPath =
      trajectoryLoop env s.bubbles MAX_TRAJECTORY_STEPS ⟨cb.x, cb.y⟩ ⟨s.aimDir.x, s.aimDir.y⟩
        [⟨cb.x, cb.y⟩] := by
  simp [computeTrajectory, hplay, hcb, hmov]

/-- C13: `computeTrajectory` is a bounded loop, so it returns for every board and aim;
the preview path has at most `MAX_TRAJECTORY_STEPS + 1 = 1201` points; it is empty when
there is no current bubble, the current bubble is moving or the game is not Playing, and
otherwise it starts with the position of the current bubble (the cannon). -/
theorem computeTrajectory_bounded (env : Env) (s : Game) :
    (computeTrajectory env s).previewPath.length ≤ MAX_TRAJECTORY_STEPS + 1 ∧
    MAX_TRAJECTORY_STEPS + 1 = 1201 ∧
    (s.gameState ≠ GameState.PLAYING → (computeTrajectory env s).previewPath = []) ∧
    (∀ cb, s.currentBubble = some cb → cb.moving = true →
      (computeTrajectory env s).previewPath = []) ∧
    (s.currentBubble = none → (computeTrajectory env s).previewPath = []) ∧
    (∀ cb, s.gameState = GameState.PLAYING → s.currentBubble = some cb → cb.moving = false →
      (computeTrajectory env s).previewPath.head? = some ⟨cb.x, cb.y⟩) := by
  refine ⟨?_, rfl, ?_, ?_, ?_, ?_⟩
  · unfold computeTrajectory
    cases hcb : s.currentBubble with
    | none => simp
    | some cb =>
      simp only
      split_ifs
      · simp
      · simp
      · obtain ⟨pts, he, hl⟩ := trajectoryLoop_spec env s.bubbles MAX_TRAJECTORY_STEPS
          ⟨cb.x, cb.y⟩ ⟨s.aimDir.x, s.aimDir.y⟩ [⟨cb.x, cb.y⟩]
        simp only [he, List.length_append, List.length_singleton]
        omega
  · intro h
    unfold computeTrajectory
    cases hcb : s.currentBubble with
    | none => rfl
    | some cb =>
      simp only
      split_ifs <;> rfl
  · intro cb hcb hm
    simp [computeTrajectory, hcb, hm]
  · intro hcb
    simp [computeTrajectory, hcb]
  · intro cb hplay hcb hm
    rw [computeTrajectory_path env s cb hplay hcb hm]
    obtain ⟨pts, he, -⟩ := trajectoryLoop_spec env s.bubbles MAX_TRAJECTORY_STEPS
      ⟨cb.x, cb.y⟩ ⟨s.aimDir.x, s.aimDir.y⟩ [⟨cb.x, cb.y⟩]
    rw [he]
    rfl

/-- C14: `computeTrajectory` changes `previewPath` and nothing else: the board, the
current bubble, `aimDir`, `score`, `level`, `shotCount`, `gameState` and every other field
are the same before and after the call. -/
theorem computeTrajectory_pure (env : Env) (s : Game) :
    computeTrajectory env s = { s with previewPath := (computeTrajectory env s).previewPath } := by
  unfold computeTrajectory
  cases hcb : s.currentBubble with
  | none => rfl
  | some cb =>
    simp only
    split_ifs <;> rfl

/-! ## Deferred level advance -/

theorem attachCurrentBubble_pending (env : Env) (s : Game) (cw : Option Bubble) (cb : Shot)
    (hcb : s.currentBubble = some cb) :
    (attachCurrentBubble env s cw).pendingLevelAdvance =
      s.pendingLevelAdvance + (if (attachCurrentBubble env s cw).bubbles = [] then 1 else 0) := by
  have hb := (attachCurrentBubble_outcome env s cw cb hcb).1
  rw [hb]
  have hf := handleMatches_frame (attachPre env s cb cw) (placedBubble env s cb cw)
  have hp : (handleMatches (attachPre env s cb cw) (placedBubble env s cb cw)).pendingLevelAdvance
      = s.pendingLevelAdvance := hf.2.2.2.2.2.2.2.2.2.2.2
  rw [attachCurrentBubble_unfold env s cw cb hcb]
  generalize handleMatches (attachPre env s cb cw) (placedBubble env s cb cw) = s2 at hp ⊢
  by_cases h1 : s2.bubbles.length = 0
  · rw [if_pos h1, if_pos (List.length_eq_zero.1 h1)]
    show (maybeUpdateHighScore s2).pendingLevelAdvance + 1 = _
    rw [(maybeUpdateHighScore_frame s2).2.2, hp]
  · have h2 : s2.bubbles ≠ [] := fun h => h1 (by rw [h]; rfl)
    rw [if_neg h1, if_neg h2]
    split_ifs
    · exact hp
    · unfold spawnCurrentBubble
      cases hn : s2.nextBubbleColor with
      | none => simpa [randColorForLevel] using hp
      | some c =>
        simp only
        split_ifs <;> simpa [randColorForLevel] using hp

/-- C20: `attachCurrentBubble` schedules one level-advance callback exactly when it
leaves the board empty; the callback returns the state unchanged when `gameState` is not
PLAYING and is `nextLevel` when it is PLAYING; a timer firing outside the Playing state
touches no game field. -/
theorem levelAdvance_cancellable (env : Env) (s : Game) :
    (∀ cw cb, s.currentBubble = some cb →
      (attachCurrentBubble env s cw).pendingLevelAdvance =
        s.pendingLevelAdvance +
          (if (attachCurrentBubble env s cw).bubbles = [] then 1 else 0)) ∧
    (s.gameState ≠ GameState.PLAYING → levelAdvanceCallback env s = s) ∧
    (s.gameState = GameState.PLAYING → levelAdvanceCallback env s = nextLevel env s) ∧
    (s.gameState ≠ GameState.PLAYING →
      fireLevelAdvance env s = { s with pendingLevelAdvance := s.pendingLevelAdvance - 1 }) ∧
    (levelAdvanceCallback env (goToMainMenu s) = goToMainMenu s) := by
  refine ⟨fun cw cb hcb => attachCurrentBubble_pending env s cw cb hcb, ?_, ?_, ?_, ?_⟩
  · intro h
    simp [levelAdvanceCallback, h]
  · intro h
    simp [levelAdvanceCallback, h]
  · intro h
    unfold fireLevelAdvance
    split_ifs with h0
    · cases s
      simp only at h0
      subst h0
      rfl
    · simp [levelAdvanceCallback, h]
  · simp [levelAdvanceCallback, goToMainMenu]

/-! ## One tick of the shot -/

theorem spawnCurrentBubble_nextId (env : Env) (s : Game) :
    (spawnCurrentBubble env s).nextId = s.nextId := by
  unfold spawnCurrentBubble
  cases hn : s.nextBubbleColor with
  | none => simp [randColorForLevel]
  | some c =>
    simp only
    split_ifs <;> simp [randColorForLevel]

theorem attachCurrentBubble_nextId (env : Env) (s : Game) (cw : Option Bubble) (cb : Shot)
    (hcb : s.currentBubble = some cb) :
    (attachCurrentBubble env s cw).nextId = s.nextId + 1 := by
  have hf := handleMatches_frame (attachPre env s cb cw) (placedBubble env s cb cw)
  have hp : (handleMatches (attachPre env s cb cw) (placedBubble env s cb cw)).nextId
      = s.nextId + 1 := hf.2.2.2.2.2.2.2.2.2.1
  rw [attachCurrentBubble_unfold env s cw cb hcb]
  generalize handleMatches (attachPre env s cb cw) (placedBubble env s cb cw) = s2 at hp ⊢
  split_ifs
  · show (maybeUpdateHighScore s2).nextId = _
    unfold maybeUpdateHighScore
    split_ifs <;> exact hp
  · exact hp
  · rw [spawnCurrentBubble_nextId]
    exact hp

/-- C11: one `update` tick of a Playing state with a moving shot has exactly one of
three outcomes, told apart by guards that exclude each other. Ceiling: the advanced shot has
`y - radius ≤ 0`; it is clamped and attached with no anchor, whatever the board holds.
Bubble: no ceiling contact, and the shot is attached to the first board bubble whose squared
distance to it is at most `0.9 * (2 * radius)²`. Flying: neither, and only the shot changes.
An attaching tick is one call of `attachCurrentBubble` and places one bubble object; a
flying tick places none. -/
theorem update_one_outcome (env : Env) (s : Game) (cb : Shot)
    (hplay : s.gameState = GameState.PLAYING) (hcb : s.currentBubble = some cb)
    (hmov : cb.moving = true) :
    ((bounceWalls env (advanceShot cb)).y - (bounceWalls env (advanceShot cb)).radius ≤ 0 ∧
      update env s = attachCurrentBubble env
        { s with
          currentBubble := some
            { bounceWalls env (advanceShot cb) with
              y := (bounceWalls env (advanceShot cb)).radius } } none ∧
      (update env s).nextId = s.nextId + 1) ∨
    (¬ ((bounceWalls env (advanceShot cb)).y - (bounceWalls env (advanceShot cb)).radius ≤ 0) ∧
      (∃ b l1 l2, s.bubbles = l1 ++ b :: l2 ∧
        distanceSq (bounceWalls env (advanceShot cb)).pos b.pos ≤
          ((bounceWalls env (advanceShot cb)).radius * 2) ^ 2 * (9 / 10) ∧
        (∀ a ∈ l1, ¬ distanceSq (bounceWalls env (advanceShot cb)).pos a.pos ≤
          ((bounceWalls env (advanceShot cb)).radius * 2) ^ 2 * (9 / 10)) ∧
        update env s = attachCurrentBubble env
          { s with currentBubble := some (bounceWalls env (advanceShot cb)) } (some b)) ∧
      (update env s).nextId = s.nextId + 1) ∨
    (¬ ((bounceWalls env (advanceShot cb)).y - (bounceWalls env (advanceShot cb)).radius ≤ 0) ∧
      (∀ b ∈ s.bubbles, ¬ distanceSq (bounceWalls env (advanceShot cb)).pos b.pos ≤
        ((bounceWalls env (advanceShot cb)).radius * 2) ^ 2 * (9 / 10)) ∧
      update env s = { s with currentBubble := some (bounceWalls env (advanceShot cb)) } ∧
      (update env s).nextId = s.nextId) := by
  rw [update_moving env s cb hplay hcb hmov]
  by_cases hceil :
      (bounceWalls env (advanceShot cb)).y - (bounceWalls env (advanceShot cb)).radius ≤ 0
  · left
    rw [if_pos hceil]
    exact ⟨hceil, rfl, attachCurrentBubble_nextId env _ none _ rfl⟩
  · right
    rw [if_neg hceil]
    cases hfind : s.bubbles.find? fun b =>
        decide (distanceSq (bounceWalls env (advanceShot cb)).pos b.pos ≤
          ((bounceWalls env (advanceShot cb)).radius * 2) ^ 2 * (9 / 10)) with
    | none =>
      right
      rw [List.find?_eq_none] at hfind
      refine ⟨hceil, ?_, rfl, rfl⟩
      intro b hb
      simpa using hfind b hb
    | some b =>
      left
      rw [List.find?_eq_some] at hfind
      obtain ⟨hb, l1, l2, hl, hfirst⟩ := hfind
      refine ⟨hceil, ⟨b, l1, l2, hl, by simpa using hb, ?_, rfl⟩,
        attachCurrentBubble_nextId env _ (some b) _ rfl⟩
      intro a ha
      simpa using hfirst a ha

theorem update_one_outcome_witness :
    cornerGame.gameState = GameState.PLAYING ∧
    ((update demoEnv cornerGame).nextId = cornerGame.nextId + 1 ∨
      (update demoEnv cornerGame).nextId = cornerGame.nextId) :=
  ⟨rfl,
    (update_one_outcome demoEnv cornerGame
      { x := 134 / 5, y := 252 / 5, radius := 16, color := "#ff595e", dx := -24 / 5,
        dy := -32 / 5, moving := true } rfl rfl rfl).elim
      (fun h => Or.inl h.2.2)
      (fun h => h.elim (fun h2 => Or.inl h2.2.2) (fun h2 => Or.inr h2.2.2.2))⟩

/-! ## Fallback placement -/

/-- C19: when `findSnapPosition` returns `null`, and `Math.atan2`, `Math.cos`,
`Math.sin` are exact at the velocity of the shot (the angle `atan2(dy, dx)` has a cosine and
a sine of unit length pointing along `(dx, dy)`), the bubble pushed by `attachCurrentBubble`
is at `anchor - 2 * radius * u`, `u` the unit vector of the velocity, at squared distance
`(2 * radius)²` from the centre of the anchor. -/
theorem fallback_placement (env : Env) (s : Game) (cb : Shot) (anchor : Bubble)
    (ux uy len : ℚ)
    (hnull : findSnapPosition env s.bubbles anchor cb = none)
    (hlen : 0 < len) (hdx : cb.dx = len * ux) (hdy : cb.dy = len * uy)
    (hunit : ux ^ 2 + uy ^ 2 = 1)
    (htrig1 : env.cos (env.atan2 cb.dy cb.dx) ^ 2 + env.sin (env.atan2 cb.dy cb.dx) ^ 2 = 1)
    (htrig2 : env.cos (env.atan2 cb.dy cb.dx) * cb.dy = env.sin (env.atan2 cb.dy cb.dx) * cb.dx)
    (htrig3 : 0 < env.cos (env.atan2 cb.dy cb.dx) * cb.dx
      + env.sin (env.atan2 cb.dy cb.dx) * cb.dy) :
    (placedBubble env s cb (some anchor)).x = anchor.x - 2 * cb.radius * ux ∧
    (placedBubble env s cb (some anchor)).y = anchor.y - 2 * cb.radius * uy ∧
    distanceSq (placedBubble env s cb (some anchor)).pos anchor.pos = (2 * cb.radius) ^ 2 ∧
    (attachPre env s cb (some anchor)).bubbles =
      s.bubbles ++ [placedBubble env s cb (some anchor)] := by
  have hx : (placedBubble env s cb (some anchor)).x =
      anchor.x - env.cos (env.atan2 cb.dy cb.dx) * (cb.radius * 2) := by
    simp only [placedBubble, placedPoint, hnull]
  have hy : (placedBubble env s cb (some anchor)).y =
      anchor.y - env.sin (env.atan2 cb.dy cb.dx) * (cb.radius * 2) := by
    simp only [placedBubble, placedPoint, hnull]
  have hpos : (placedBubble env s cb (some anchor)).pos =
      ⟨(placedBubble env s cb (some anchor)).x, (placedBubble env s cb (some anchor)).y⟩ := rfl
  rw [hpos, hx, hy]
  generalize env.cos (env.atan2 cb.dy cb.dx) = c at htrig1 htrig2 htrig3
  generalize env.sin (env.atan2 cb.dy cb.dx) = sn at htrig1 htrig2 htrig3
  rw [hdx, hdy] at htrig2 htrig3
  have hpar : c * uy - sn * ux = 0 := by
    have h : len * (c * uy - sn * ux) = 0 := by linarith
    rcases mul_eq_zero.1 h with h0 | h0
    · exact absurd h0 (ne_of_gt hlen)
    · exact h0
  have hpos2 : 0 < c * ux + sn * uy := by
    have h : 0 < len * (c * ux + sn * uy) := by linarith
    exact (mul_pos_iff_of_pos_left hlen).1 h
  have hsq : (c * ux + sn * uy) ^ 2 = 1 := by
    have h : (c * ux + sn * uy) ^ 2 + (c * uy - sn * ux) ^ 2 =
        (c ^ 2 + sn ^ 2) * (ux ^ 2 + uy ^ 2) := by ring
    rw [hpar, htrig1, hunit] at h
    linarith
  have hone : c * ux + sn * uy = 1 := by
    have h : (c * ux + sn * uy - 1) * (c * ux + sn * uy + 1) = 0 := by linarith
    rcases mul_eq_zero.1 h with h0 | h0
    · linarith
    · linarith
  have hzero : (c - ux) ^ 2 + (sn - uy) ^ 2 = 0 := by
    have h : (c - ux) ^ 2 + (sn - uy) ^ 2 =
        (c ^ 2 + sn ^ 2) + (ux ^ 2 + uy ^ 2) - 2 * (c * ux + sn * uy) := by ring
    rw [h, htrig1, hunit, hone]
    norm_num
  have hc : c = ux := by
    have h1 : (c - ux) ^ 2 = 0 := by
      have := sq_nonneg (c - ux)
      have := sq_nonneg (sn - uy)
      linarith
    have := pow_eq_zero_iff (two_ne_zero) |>.1 h1
    linarith
  have hs : sn = uy := by
    have h1 : (sn - uy) ^ 2 = 0 := by
      have := sq_nonneg (c - ux)
      have := sq_nonneg (sn - uy)
      linarith
    have := pow_eq_zero_iff (two_ne_zero) |>.1 h1
    linarith
  subst hc hs
  refine ⟨by ring, by ring, ?_, rfl⟩
  simp only [distanceSq, Bubble.pos]
  have h : (anchor.x - c * (cb.radius * 2) - anchor.x) * (anchor.x - c * (cb.radius * 2) - anchor.x)
      + (anchor.y - sn * (cb.radius * 2) - anchor.y) * (anchor.y - sn * (cb.radius * 2) - anchor.y)
      = (c ^ 2 + sn ^ 2) * (2 * cb.radius) ^ 2 := by ring
  rw [h, hunit, one_mul]


/-! ## The rows of a fresh grid -/

theorem gridRowLoop_mem_mono (env : Env) (row : Nat) :
    ∀ (fuel : Nat) (x : ℚ) (s : Game), ∀ b ∈ s.bubbles, b ∈ (gridRowLoop env row fuel x s).bubbles
  | 0, _, _ => fun _ hb => hb
  | fuel + 1, x, s => by
    intro b hb
    unfold gridRowLoop
    simp only
    split_ifs with hle
    · apply gridRowLoop_mem_mono env row fuel
      exact List.mem_append_left _ hb
    · exact hb

theorem gridRowLoop_le_width (env : Env) (row : Nat) :
    ∀ (fuel : Nat) (x : ℚ) (s : Game),
      (∀ b ∈ s.bubbles, b.x ≤ (env.WIDTH : ℚ) - BUBBLE_RADIUS) →
      ∀ b ∈ (gridRowLoop env row fuel x s).bubbles, b.x ≤ (env.WIDTH : ℚ) - BUBBLE_RADIUS
  | 0, _, _ => fun h => h
  | fuel + 1, x, s => by
    intro h
    unfold gridRowLoop
    simp only
    split_ifs with hle
    · apply gridRowLoop_le_width env row fuel
      intro b hb
      rcases List.mem_append.1 hb with hb | hb
      · exact h b hb
      · rw [List.mem_singleton] at hb
        subst hb
        exact hle
    · exact h

theorem gridRowLoop_first (env : Env) (row : Nat) :
    ∀ (fuel : Nat) (x : ℚ) (s : Game), 0 < fuel → x ≤ (env.WIDTH : ℚ) - BUBBLE_RADIUS →
      ∃ b ∈ (gridRowLoop env row fuel x s).bubbles,
        b.y = BUBBLE_RADIUS + (row : ℚ) * (BUBBLE_RADIUS * (7 / 4))
  | 0, _, _, h, _ => absurd h (Nat.lt_irrefl 0)
  | fuel + 1, x, s, _, hle => by
    unfold gridRowLoop
    simp only
    rw [if_pos hle]
    exact ⟨_, gridRowLoop_mem_mono env row fuel _ _ _ (List.mem_append_right _
      (List.mem_singleton_self _)), rfl⟩

theorem gridRow_first (env : Env) (s : Game) (row : Nat)
    (hw : 3 * BUBBLE_RADIUS ≤ (env.WIDTH : ℚ)) :
    ∃ b ∈ (gridRow env s row).bubbles,
      b.y = BUBBLE_RADIUS + (row : ℚ) * (BUBBLE_RADIUS * (7 / 4)) := by
  have hw2 : (48 : ℚ) ≤ (env.WIDTH : ℚ) := by
    unfold BUBBLE_RADIUS at hw
    linarith
  have hpos : 0 < env.WIDTH := by
    rcases Nat.eq_zero_or_pos env.WIDTH with h0 | h0
    · rw [h0] at hw2
      norm_num at hw2
    · exact h0
  have hle : BUBBLE_RADIUS + (if row % 2 = 1 then BUBBLE_RADIUS else 0) ≤
      (env.WIDTH : ℚ) - BUBBLE_RADIUS := by
    unfold BUBBLE_RADIUS
    split_ifs <;> linarith
  exact gridRowLoop_first env row env.WIDTH _ s hpos hle

theorem gridRows_le_width (env : Env) (s : Game) :
    ∀ n : Nat, ∀ b ∈ ((List.range n).foldl (gridRow env) { s with bubbles := [] }).bubbles,
      b.x ≤ (env.WIDTH : ℚ) - BUBBLE_RADIUS
  | 0 => by simp
  | n + 1 => by
    rw [List.range_succ, List.foldl_append]
    exact gridRowLoop_le_width env n env.WIDTH _ _ (gridRows_le_width env s n)

theorem gridRows_rows (env : Env) (s : Game) (hw : 3 * BUBBLE_RADIUS ≤ (env.WIDTH : ℚ)) :
    ∀ n : Nat, ∀ row, row < n →
      ∃ b ∈ ((List.range n).foldl (gridRow env) { s with bubbles := [] }).bubbles,
        b.y = BUBBLE_RADIUS + (row : ℚ) * (BUBBLE_RADIUS * (7 / 4))
  | 0 => fun _ h => absurd h (Nat.not_lt_zero _)
  | n + 1 => by
    intro row hrow
    rw [List.range_succ, List.foldl_append]
    rcases Nat.lt_succ_iff_lt_or_eq.1 hrow with h | h
    · obtain ⟨b, hb, hy⟩ := gridRows_rows env s hw n row h
      exact ⟨b, gridRowLoop_mem_mono env n env.WIDTH _ _ b hb, hy⟩
    · subst h
      exact gridRow_first env _ row hw

/-- The board built by `createInitialGrid`: its rows, offsets and bounds. -/
theorem createInitialGrid_rows (env : Env) (s : Game)
    (hw : 3 * BUBBLE_RADIUS ≤ (env.WIDTH : ℚ)) :
    (∀ y, (∃ b ∈ (createInitialGrid env s).bubbles, b.y = y) ↔
      ∃ row : Nat, row < 4 + s.level ∧
        y = BUBBLE_RADIUS + (row : ℚ) * (7 / 4) * BUBBLE_RADIUS) ∧
    (∀ b ∈ (createInitialGrid env s).bubbles, ∃ row k : Nat, row < 4 + s.level ∧
      b.y = BUBBLE_RADIUS + (row : ℚ) * (7 / 4) * BUBBLE_RADIUS ∧
      b.x = BUBBLE_RADIUS + (if row % 2 = 1 then BUBBLE_RADIUS else 0)
        + 2 * BUBBLE_RADIUS * (k : ℚ) ∧
      BUBBLE_RADIUS ≤ b.x ∧ b.x ≤ (env.WIDTH : ℚ) - BUBBLE_RADIUS) := by
  have hform := (gridRows_inv env s (4 + s.level)).2
  have hle := gridRows_le_width env s (4 + s.level)
  have hrows := gridRows_rows env s hw (4 + s.level)
  have key : ∀ b ∈ (createInitialGrid env s).bubbles, ∃ row k : Nat, row < 4 + s.level ∧
      b.y = BUBBLE_RADIUS + (row : ℚ) * (7 / 4) * BUBBLE_RADIUS ∧
      b.x = BUBBLE_RADIUS + (if row % 2 = 1 then BUBBLE_RADIUS else 0)
        + 2 * BUBBLE_RADIUS * (k : ℚ) ∧
      BUBBLE_RADIUS ≤ b.x ∧ b.x ≤ (env.WIDTH : ℚ) - BUBBLE_RADIUS := by
    intro b hb
    obtain ⟨ra, ka, hx, hy, hra⟩ := hform b hb
    have hoff : BUBBLE_RADIUS * ((ra % 2 : Nat) : ℚ) =
        (if ra % 2 = 1 then BUBBLE_RADIUS else 0) := by
      rcases Nat.mod_two_eq_zero_or_one ra with hm | hm <;> simp [hm]
    refine ⟨ra, ka, hra, by rw [hy]; ring, by rw [hx, hoff], ?_, hle b hb⟩
    rw [hx]
    have h1 : (0 : ℚ) ≤ ((ra % 2 : Nat) : ℚ) := Nat.cast_nonneg _
    have h2 : (0 : ℚ) ≤ (ka : ℚ) := Nat.cast_nonneg _
    simp only [BUBBLE_RADIUS]
    nlinarith
  refine ⟨fun y => ⟨?_, ?_⟩, key⟩
  · rintro ⟨b, hb, rfl⟩
    obtain ⟨row, k, hrow, hy, -⟩ := key b hb
    exact ⟨row, hrow, hy⟩
  · rintro ⟨row, hrow, rfl⟩
    obtain ⟨b, hb, hy⟩ := hrows row hrow
    exact ⟨b, hb, by rw [hy]; ring⟩

/-- C17: `nextLevel` adds exactly 1 to `level`, sets `shotCount` to 0, keeps `score`,
and, the canvas being at least `3 * BUBBLE_RADIUS` wide, rebuilds the grid with the rows
`0 .. 4 + level - 1` of the new level: the `y` coordinates on the board are exactly
`BUBBLE_RADIUS + row * 1.75 * BUBBLE_RADIUS`, the odd rows are shifted by `BUBBLE_RADIUS`,
and every `x` lies in `[BUBBLE_RADIUS, WIDTH - BUBBLE_RADIUS]`. -/
theorem nextLevel_grid (env : Env) (s : Game) (hw : 3 * BUBBLE_RADIUS ≤ (env.WIDTH : ℚ)) :
    (nextLevel env s).level = s.level + 1 ∧
    (nextLevel env s).shotCount = 0 ∧
    (nextLevel env s).score = s.score ∧
    (∀ y, (∃ b ∈ (nextLevel env s).bubbles, b.y = y) ↔
      ∃ row : Nat, row < 4 + (nextLevel env s).level ∧
        y = BUBBLE_RADIUS + (row : ℚ) * (7 / 4) * BUBBLE_RADIUS) ∧
    (∀ b ∈ (nextLevel env s).bubbles, ∃ row k : Nat, row < 4 + (nextLevel env s).level ∧
      b.y = BUBBLE_RADIUS + (row : ℚ) * (7 / 4) * BUBBLE_RADIUS ∧
      b.x = BUBBLE_RADIUS + (if row % 2 = 1 then BUBBLE_RADIUS else 0)
        + 2 * BUBBLE_RADIUS * (k : ℚ) ∧
      BUBBLE_RADIUS ≤ b.x ∧ b.x ≤ (env.WIDTH : ℚ) - BUBBLE_RADIUS) := by
  obtain ⟨-, hscore, hlevel, hshots, hb⟩ := nextLevel_frame env s
  obtain ⟨h1, h2⟩ := createInitialGrid_rows env
    { s with level := s.level + 1, shotCount := 0 } hw
  rw [hlevel, hb]
  exact ⟨rfl, hshots, hscore, h1, h2⟩

theorem nextLevel_grid_witness :
    3 * BUBBLE_RADIUS ≤ (demoEnv.WIDTH : ℚ) ∧
    (nextLevel demoEnv demoGame).level = 2 ∧
    (nextLevel demoEnv demoGame).shotCount = 0 ∧
    (nextLevel demoEnv demoGame).score = 0 :=
  have h := nextLevel_grid demoEnv demoGame (by decide!)
  ⟨by decide!, h.1, h.2.1, h.2.2.1⟩

/-! ## The preview against the flight -/

theorem bounce_matches_preview (env : Env) (c : Shot) (pos dir : Point)
    (hr : c.radius = BUBBLE_RADIUS) (hx : c.x = pos.x) (hy : c.y = pos.y)
    (hdx : c.dx = dir.x * TRAJECTORY_STEP) (hdy : c.dy = dir.y * TRAJECTORY_STEP) :
    (bounceWalls env (advanceShot c)).x =
      (previewBounce env
        ⟨pos.x + dir.x * TRAJECTORY_STEP, pos.y + dir.y * TRAJECTORY_STEP⟩ dir).1.x ∧
    (bounceWalls env (advanceShot c)).y =
      (previewBounce env
        ⟨pos.x + dir.x * TRAJECTORY_STEP, pos.y + dir.y * TRAJECTORY_STEP⟩ dir).1.y ∧
    (bounceWalls env (advanceShot c)).dx =
      (previewBounce env
        ⟨pos.x + dir.x * TRAJECTORY_STEP, pos.y + dir.y * TRAJECTORY_STEP⟩ dir).2.x
        * TRAJECTORY_STEP ∧
    (bounceWalls env (advanceShot c)).dy =
      (previewBounce env
        ⟨pos.x + dir.x * TRAJECTORY_STEP, pos.y + dir.y * TRAJECTORY_STEP⟩ dir).2.y
        * TRAJECTORY_STEP ∧
    (bounceWalls env (advanceShot c)).radius = BUBBLE_RADIUS ∧
    (bounceWalls env (advanceShot c)).moving = c.moving := by
  unfold bounceWalls previewBounce advanceShot
  simp only [hr, hx, hy, hdx, hdy]
  by_cases h1 : pos.x + dir.x * TRAJECTORY_STEP ≤ BUBBLE_RADIUS
  · have h1' : pos.x + dir.x * TRAJECTORY_STEP - BUBBLE_RADIUS ≤ 0 := by linarith
    rw [if_pos h1, if_pos h1']
    exact ⟨rfl, rfl, by simp only; ring, rfl, rfl, rfl⟩
  · have h1' : ¬ pos.x + dir.x * TRAJECTORY_STEP - BUBBLE_RADIUS ≤ 0 := by
      intro h
      exact h1 (by linarith)
    rw [if_neg h1, if_neg h1']
    by_cases h2 : pos.x + dir.x * TRAJECTORY_STEP ≥ (env.WIDTH : ℚ) - BUBBLE_RADIUS
    · have h2' : pos.x + dir.x * TRAJECTORY_STEP + BUBBLE_RADIUS ≥ (env.WIDTH : ℚ) := by
        linarith
      rw [if_pos h2, if_pos h2']
      exact ⟨rfl, rfl, by simp only; ring, rfl, rfl, rfl⟩
    · have h2' : ¬ pos.x + dir.x * TRAJECTORY_STEP + BUBBLE_RADIUS ≥ (env.WIDTH : ℚ) := by
        intro h
        exact h2 (by linarith)
      rw [if_neg h2, if_neg h2']
      exact ⟨rfl, rfl, rfl, rfl, rfl, rfl⟩

theorem hit_iff_find (B : List Bubble) (c : Shot) (p : Point)
    (hr : c.radius = BUBBLE_RADIUS) (hx : c.x = p.x) (hy : c.y = p.y) :
    (B.find? fun b => decide (distanceSq c.pos b.pos ≤ (c.radius * 2) ^ 2 * (9 / 10))) =
      B.find? fun b =>
        decide ((p.x - b.x) ^ 2 + (p.y - b.y) ^ 2 ≤ (BUBBLE_RADIUS * 2) ^ 2 * (9 / 10)) := by
  congr 1
  funext b
  simp only [distanceSq, Shot.pos, Bubble.pos, hr, hx, hy, sq]

theorem any_eq_find_isSome (B : List Bubble) (q : Bubble → Bool) :
    B.any q = (B.find? q).isSome := by
  induction B with
  | nil => rfl
  | cons b bs ih =>
    simp only [List.any_cons, List.find?_cons]
    cases hq : q b with
    | true => simp
    | false => simpa using ih

/-- One tick of a shot in flight, read off the body of the preview loop. -/
theorem flight_step (env : Env) (t : Game) (pos dir : Point) (h : InFlight t pos dir) :
    ((previewBounce env
        ⟨pos.x + dir.x * TRAJECTORY_STEP, pos.y + dir.y * TRAJECTORY_STEP⟩ dir).1.y
        ≤ BUBBLE_RADIUS →
      AttachesAt env t
        ⟨(previewBounce env
          ⟨pos.x + dir.x * TRAJECTORY_STEP, pos.y + dir.y * TRAJECTORY_STEP⟩ dir).1.x,
          BUBBLE_RADIUS⟩) ∧
    (¬ (previewBounce env
        ⟨pos.x + dir.x * TRAJECTORY_STEP, pos.y + dir.y * TRAJECTORY_STEP⟩ dir).1.y
        ≤ BUBBLE_RADIUS →
      (t.bubbles.any fun b =>
        decide (((previewBounce env
            ⟨pos.x + dir.x * TRAJECTORY_STEP, pos.y + dir.y * TRAJECTORY_STEP⟩ dir).1.x - b.x) ^ 2
          + ((previewBounce env
            ⟨pos.x + dir.x * TRAJECTORY_STEP, pos.y + dir.y * TRAJECTORY_STEP⟩ dir).1.y - b.y) ^ 2
          ≤ (BUBBLE_RADIUS * 2) ^ 2 * (9 / 10))) = true →
      AttachesAt env t
        (previewBounce env
          ⟨pos.x + dir.x * TRAJECTORY_STEP, pos.y + dir.y * TRAJECTORY_STEP⟩ dir).1) ∧
    (¬ (previewBounce env
        ⟨pos.x + dir.x * TRAJECTORY_STEP, pos.y + dir.y * TRAJECTORY_STEP⟩ dir).1.y
        ≤ BUBBLE_RADIUS →
      ¬ (t.bubbles.any fun b =>
        decide (((previewBounce env
            ⟨pos.x + dir.x * TRAJECTORY_STEP, pos.y + dir.y * TRAJECTORY_STEP⟩ dir).1.x - b.x) ^ 2
          + ((previewBounce env
            ⟨pos.x + dir.x * TRAJECTORY_STEP, pos.y + dir.y * TRAJECTORY_STEP⟩ dir).1.y - b.y) ^ 2
          ≤ (BUBBLE_RADIUS * 2) ^ 2 * (9 / 10))) = true →
      InFlight (update env t)
        (previewBounce env
          ⟨pos.x + dir.x * TRAJECTORY_STEP, pos.y + dir.y * TRAJECTORY_STEP⟩ dir).1
        (previewBounce env
          ⟨pos.x + dir.x * TRAJECTORY_STEP, pos.y + dir.y * TRAJECTORY_STEP⟩ dir).2 ∧
      (update env t).bubbles = t.bubbles) := by
  obtain ⟨hplay, c, hc, hmov, hr, hx, hy, hdx, hdy⟩ := h
  obtain ⟨bx, by', bdx, bdy, br, bm⟩ := bounce_matches_preview env c pos dir hr hx hy hdx hdy
  rw [hmov] at bm
  generalize previewBounce env
    ⟨pos.x + dir.x * TRAJECTORY_STEP, pos.y + dir.y * TRAJECTORY_STEP⟩ dir = pd at bx by' bdx bdy ⊢
  have hupd := update_moving env t c hplay hc hmov
  have hceil : (bounceWalls env (advanceShot c)).y - (bounceWalls env (advanceShot c)).radius ≤ 0
      ↔ pd.1.y ≤ BUBBLE_RADIUS := by
    rw [by', br]
    constructor <;> intro h <;> linarith
  have hfind := hit_iff_find t.bubbles (bounceWalls env (advanceShot c)) pd.1 br bx by'
  refine ⟨?_, ?_, ?_⟩
  · intro h1
    rw [if_pos (hceil.2 h1)] at hupd
    exact ⟨{ bounceWalls env (advanceShot c) with
      y := (bounceWalls env (advanceShot c)).radius }, none, bx, br, hupd⟩
  · intro h1 h2
    rw [if_neg (fun h => h1 (hceil.1 h)), hfind] at hupd
    rw [any_eq_find_isSome] at h2
    obtain ⟨b, hb⟩ := Option.isSome_iff_exists.1 h2
    rw [hb] at hupd
    exact ⟨bounceWalls env (advanceShot c), some b, bx, by', hupd⟩
  · intro h1 h2
    rw [if_neg (fun h => h1 (hceil.1 h)), hfind] at hupd
    rw [any_eq_find_isSome] at h2
    have hnone : (t.bubbles.find? fun b =>
        decide ((pd.1.x - b.x) ^ 2 + (pd.1.y - b.y) ^ 2 ≤ (BUBBLE_RADIUS * 2) ^ 2 * (9 / 10)))
        = none := by
      cases hf : (t.bubbles.find? fun b =>
        decide ((pd.1.x - b.x) ^ 2 + (pd.1.y - b.y) ^ 2 ≤ (BUBBLE_RADIUS * 2) ^ 2 * (9 / 10))) with
      | none => rfl
      | some b => rw [hf] at h2; simp at h2
    rw [hnone] at hupd
    rw [hupd]
    exact ⟨⟨hplay, _, rfl, bm, br, bx, by', bdx, bdy⟩, rfl⟩

/-- The preview loop run next to the real flight: every point but the last is where the
shot is after the corresponding tick; the last point is where the shot is when the tick
attaches it, or, if the loop ran out of iterations, where it flies. -/
theorem trajectory_simulates (env : Env) (B : List Bubble) :
    ∀ (k : Nat) (pos dir : Point) (path : List Point) (t : Game),
      InFlight t pos dir → t.bubbles = B →
      ∃ pts, trajectoryLoop env B k pos dir path = path ++ pts ∧ pts.length ≤ k ∧
        (0 < k → pts ≠ []) ∧
        (∀ j p, j + 1 < pts.length → pts[j]? = some p →
          ∃ d, InFlight ((update env)^[j + 1] t) p d) ∧
        (∀ m p, pts.length = m + 1 → pts[m]? = some p →
          AttachesAt env ((update env)^[m] t) p ∨
            (m + 1 = k ∧ ∃ d, InFlight ((update env)^[m + 1] t) p d))
  | 0, _, _, path, _, _, _ =>
    ⟨[], by simp [trajectoryLoop], le_refl _, fun h => absurd h (Nat.lt_irrefl 0),
      fun j p hj => absurd hj (Nat.not_lt_zero _), fun m p hm => by simp at hm⟩
  | k + 1, pos, dir, path, t, hfl, hB => by
    obtain ⟨s1, s2, s3⟩ := flight_step env t pos dir hfl
    unfold trajectoryLoop
    simp only
    rw [hB] at s2 s3
    generalize previewBounce env
      ⟨pos.x + dir.x * TRAJECTORY_STEP, pos.y + dir.y * TRAJECTORY_STEP⟩ dir = pd at s1 s2 s3 ⊢
    split_ifs with h1 h2
    · refine ⟨[⟨pd.1.x, BUBBLE_RADIUS⟩], rfl, by simp, fun _ => by simp, ?_, ?_⟩
      · intro j p hj
        simp at hj
      · intro m p hm hp
        simp only [List.length_singleton] at hm
        have hm0 : m = 0 := by omega
        subst hm0
        simp only [List.getElem?_cons_zero, Option.some.injEq] at hp
        subst hp
        exact Or.inl (s1 h1)
    · refine ⟨[pd.1], rfl, by simp, fun _ => by simp, ?_, ?_⟩
      · intro j p hj
        simp at hj
      · intro m p hm hp
        simp only [List.length_singleton] at hm
        have hm0 : m = 0 := by omega
        subst hm0
        simp only [List.getElem?_cons_zero, Option.some.injEq] at hp
        subst hp
        exact Or.inl (s2 h1 h2)
    · obtain ⟨hfl2, hB2⟩ := s3 h1 h2
      obtain ⟨pts, he, hl, hne, hA, hL⟩ := trajectory_simulates env B k pd.1 pd.2
        (path ++ [pd.1]) (update env t) hfl2 hB2
      refine ⟨pd.1 :: pts, by rw [he]; simp, by simpa using hl, fun _ => by simp, ?_, ?_⟩
      · intro j p hj hp
        cases j with
        | zero =>
          simp only [List.getElem?_cons_zero, Option.some.injEq] at hp
          subst hp
          exact ⟨pd.2, hfl2⟩
        | succ j2 =>
          simp only [List.getElem?_cons_succ] at hp
          simp only [List.length_cons] at hj
          obtain ⟨d, hd⟩ := hA j2 p (by omega) hp
          exact ⟨d, by rw [Function.iterate_succ_apply]; exact hd⟩
      · intro m p hm hp
        simp only [List.length_cons] at hm
        cases m with
        | zero =>
          simp only [List.getElem?_cons_zero, Option.some.injEq] at hp
          subst hp
          have hnil : pts = [] := List.length_eq_zero.1 (by omega)
          have hk : k = 0 := by
            rcases Nat.eq_zero_or_pos k with h0 | h0
            · exact h0
            · exact absurd hnil (hne h0)
          right
          exact ⟨by omega, pd.2, hfl2⟩
        | succ m2 =>
          simp only [List.getElem?_cons_succ] at hp
          rcases hL m2 p (by omega) hp with hat | ⟨hk, d, hd⟩
          · left
            rw [Function.iterate_succ_apply]
            exact hat
          · right
            exact ⟨by omega, d, by rw [Function.iterate_succ_apply]; exact hd⟩

theorem shoot_inFlight (s : Game) (cb : Shot)
    (hplay : s.gameState = GameState.PLAYING) (haim : s.isAiming = true)
    (hcb : s.currentBubble = some cb) (hmov : cb.moving = false)
    (hrad : cb.radius = BUBBLE_RADIUS) :
    InFlight (shoot s) ⟨cb.x, cb.y⟩ ⟨s.aimDir.x, s.aimDir.y⟩ ∧ (shoot s).bubbles = s.bubbles := by
  have e : shoot s =
      { s with
        isAiming := false
        currentBubble := some
          { cb with
            dx := s.aimDir.x * BUBBLE_SPEED
            dy := s.aimDir.y * BUBBLE_SPEED
            moving := true }
        shotCount := s.shotCount + 1 } := by
    simp [shoot, hplay, haim, hcb, hmov]
  rw [e]
  exact ⟨⟨hplay, _, rfl, rfl, hrad, rfl, rfl, rfl, rfl⟩, rfl⟩

/-- C12, as the code has it: with the shot at rest in the cannon (radius `BUBBLE_RADIUS`),
the game Playing and the player aiming, the preview path `[p0, ..., pn]` has at least two
points; firing and ticking `update`, the shot is in flight at `pi` after tick `i` for every
`i < n`; tick `n` calls `attachCurrentBubble` (ceiling or bubble collision) with the shot at
`pn`, unless `n = MAX_TRAJECTORY_STEPS` and the shot still flies at `pn`. Where the bubble
settles is decided by `attachCurrentBubble` and is not claimed to be `pn`. -/
theorem preview_mirrors_flight (env : Env) (s : Game) (cb : Shot)
    (hplay : s.gameState = GameState.PLAYING) (haim : s.isAiming = true)
    (hcb : s.currentBubble = some cb) (hmov : cb.moving = false)
    (hrad : cb.radius = BUBBLE_RADIUS) :
    2 ≤ (computeTrajectory env s).previewPath.length ∧
    (∀ i p, i + 1 < (computeTrajectory env s).previewPath.length →
      (computeTrajectory env s).previewPath[i]? = some p →
      ∃ c, ((update env)^[i] (shoot s)).currentBubble = some c ∧ c.moving = true ∧
        c.x = p.x ∧ c.y = p.y) ∧
    (∀ m p, (computeTrajectory env s).previewPath.length = m + 2 →
      (computeTrajectory env s).previewPath[m + 1]? = some p →
      AttachesAt env ((update env)^[m] (shoot s)) p ∨
        (m + 1 = MAX_TRAJECTORY_STEPS ∧
          ∃ c, ((update env)^[m + 1] (shoot s)).currentBubble = some c ∧ c.moving = true ∧
            c.x = p.x ∧ c.y = p.y)) := by
  obtain ⟨hfl, hB⟩ := shoot_inFlight s cb hplay haim hcb hmov hrad
  obtain ⟨pts, he, -, hne, hA, hL⟩ := trajectory_simulates env s.bubbles MAX_TRAJECTORY_STEPS
    ⟨cb.x, cb.y⟩ ⟨s.aimDir.x, s.aimDir.y⟩ [⟨cb.x, cb.y⟩] (shoot s) hfl hB
  rw [computeTrajectory_path env s cb hplay hcb hmov, he]
  have hpos : 0 < pts.length :=
    List.length_pos.2 (hne (by decide))
  refine ⟨by simp only [List.length_append, List.length_singleton]; omega, ?_, ?_⟩
  · intro i p hi hp
    cases i with
    | zero =>
      simp only [List.singleton_append, List.getElem?_cons_zero, Option.some.injEq] at hp
      subst hp
      obtain ⟨-, c, hc, hm, -, hx, hy, -, -⟩ := hfl
      exact ⟨c, hc, hm, hx, hy⟩
    | succ j =>
      simp only [List.singleton_append, List.getElem?_cons_succ, List.length_cons] at hp hi
      obtain ⟨d, -, c, hc, hm, -, hx, hy, -, -⟩ := hA j p (by omega) hp
      exact ⟨c, hc, hm, hx, hy⟩
  · intro m p hm hp
    simp only [List.singleton_append, List.getElem?_cons_succ, List.length_cons] at hp hm
    rcases hL m p (by omega) hp with hat | ⟨hk, d, -, c, hc, hmv, -, hx, hy, -, -⟩
    · exact Or.inl hat
    · exact Or.inr ⟨hk, c, hc, hmv, hx, hy⟩

theorem preview_mirrors_flight_witness :
    aimGame.gameState = GameState.PLAYING ∧ aimGame.isAiming = true ∧
    2 ≤ (computeTrajectory lowEnv aimGame).previewPath.length ∧
    (∃ c, ((update lowEnv)^[6] (shoot aimGame)).currentBubble = some c ∧ c.moving = true ∧
      c.x = (⟨240, 52⟩ : Point).x ∧ c.y = (⟨240, 52⟩ : Point).y) :=
  have h := preview_mirrors_flight lowEnv aimGame
    { x := 240, y := 100, radius := 16, color := "#ff595e", dx := 0, dy := 0, moving := false }
    rfl rfl rfl rfl rfl
  ⟨rfl, rfl, h.1, h.2.1 6 ⟨240, 52⟩ (by decide!) (by decide!)⟩

/-- C12 fails as stated at the last point: on `aimGame` the preview path has the 8
points `p0 .. p7`, with `p7 = (240, 44)` and `7 < MAX_TRAJECTORY_STEPS`; after tick 7 the
shot has been attached, the settled bubble is in the snap slot `(256, 656/15)` and the
current bubble is the new one in the cannon at `(240, 100)`: nothing is at `p7`. -/
theorem preview_counterexample :
    (computeTrajectory lowEnv aimGame).previewPath.length = 7 + 1 ∧
    7 < MAX_TRAJECTORY_STEPS ∧
    (computeTrajectory lowEnv aimGame).previewPath[7]? = some ⟨240, 44⟩ ∧
    ((update lowEnv)^[7] (shoot aimGame)).currentBubble.map Shot.pos = some ⟨240, 100⟩ ∧
    ((update lowEnv)^[7] (shoot aimGame)).bubbles.map Bubble.pos =
      [⟨240, 16⟩, ⟨256, 656 / 15⟩] := by
  decide!

theorem fallback_placement_witness :
    findSnapPosition demoEnv cornerGame.bubbles cornerAnchor cornerShot = none ∧
    (placedBubble demoEnv cornerGame cornerShot (some cornerAnchor)).x
      = cornerAnchor.x - 2 * cornerShot.radius * (-3 / 5) ∧
    (placedBubble demoEnv cornerGame cornerShot (some cornerAnchor)).y
      = cornerAnchor.y - 2 * cornerShot.radius * (-4 / 5) ∧
    distanceSq (placedBubble demoEnv cornerGame cornerShot (some cornerAnchor)).pos
      cornerAnchor.pos = (2 * cornerShot.radius) ^ 2 :=
  have h := fallback_placement demoEnv cornerGame cornerShot cornerAnchor (-3 / 5) (-4 / 5) 8
    (by decide!) (by decide!) (by decide!) (by decide!) (by decide!) (by decide!) (by decide!)
    (by decide!)
  ⟨by decide!, h.1, h.2.1, h.2.2.1⟩

/-! ## Turn resolution -/

theorem handleMatches_resolved (s : Game) (placed : Bubble)
    (hk : 3 ≤ (floodFillColor s.bubbles placed).length) :
    (handleMatches s placed).bubbles =
      (s.bubbles.filter (fun b => !decide (b ∈ floodFillColor s.bubbles placed))).filter
        (fun b => decide (b ∈ topConnectedSet
          (s.bubbles.filter (fun b => !decide (b ∈ floodFillColor s.bubbles placed))))) ∧
    (handleMatches s placed).score =
      s.score + (floodFillColor s.bubbles placed).length * 10 +
        ((s.bubbles.filter (fun b => !decide (b ∈ floodFillColor s.bubbles placed))).length -
          ((s.bubbles.filter (fun b => !decide (b ∈ floodFillColor s.bubbles placed))).filter
            (fun b => decide (b ∈ topConnectedSet
              (s.bubbles.filter
                (fun b => !decide (b ∈ floodFillColor s.bubbles placed)))))).length) * 5 := by
  rw [handleMatches_of_match s placed hk, removeFloatingBubbles_bubbles,
    removeFloatingBubbles_score, maybeUpdateHighScore_bubbles, maybeUpdateHighScore_score]
  exact ⟨rfl, rfl⟩

/-- C21: with a component of size `k ≥ 3`, `handleMatches` first removes the whole
component, which gives the post-match board `post`, and then removes from `post` the
bubbles that are not ceiling-connected in `post` (the list `fallen`, `f` of them); the
result is a sublist of `post` and of the original board, so survivors keep their order,
positions and colours, and the score grows by exactly `10 * k + 5 * f`. -/
theorem handleMatches_resolution (s : Game) (placed : Bubble)
    (hk : 3 ≤ (floodFillColor s.bubbles placed).length) :
    ∃ post fallen : List Bubble,
      post.Sublist s.bubbles ∧
      (∀ b, b ∈ post ↔ b ∈ s.bubbles ∧ b ∉ floodFillColor s.bubbles placed) ∧
      (handleMatches s placed).bubbles.Sublist post ∧
      (handleMatches s placed).bubbles.Sublist s.bubbles ∧
      List.Perm post ((handleMatches s placed).bubbles ++ fallen) ∧
      (∀ b ∈ (handleMatches s placed).bubbles, CeilingConnected post b) ∧
      (∀ b ∈ fallen, ¬ CeilingConnected post b) ∧
      (handleMatches s placed).score =
        s.score + 10 * (floodFillColor s.bubbles placed).length + 5 * fallen.length := by
  obtain ⟨hb, hs⟩ := handleMatches_resolved s placed hk
  generalize hpost :
    s.bubbles.filter (fun b => !decide (b ∈ floodFillColor s.bubbles placed)) = post at hb hs
  have hperm : List.Perm post
      (post.filter (fun b => decide (b ∈ topConnectedSet post)) ++
        post.filter (fun b => !decide (b ∈ topConnectedSet post))) :=
    (List.filter_append_perm (fun b => decide (b ∈ topConnectedSet post)) post).symm
  have hsub : post.Sublist s.bubbles := by
    rw [← hpost]
    exact List.filter_sublist _
  refine ⟨post, post.filter (fun b => !decide (b ∈ topConnectedSet post)), hsub, ?_, ?_, ?_,
    ?_, ?_, ?_, ?_⟩
  · intro b
    rw [← hpost]
    simp [List.mem_filter]
  · rw [hb]
    exact List.filter_sublist _
  · rw [hb]
    exact (List.filter_sublist _).trans hsub
  · rw [hb]
    exact hperm
  · intro b hmem
    rw [hb] at hmem
    have := (List.mem_filter.1 hmem).2
    exact (topConnectedSet_iff_ceilingConnected post b).1 (by simpa using this)
  · intro b hmem hcc
    have := (List.mem_filter.1 hmem).2
    have hin := (topConnectedSet_iff_ceilingConnected post b).2 hcc
    simp [hin] at this
  · have l2 := hperm.length_eq
    rw [List.length_append] at l2
    rw [hs]
    omega

theorem handleMatches_resolution_witness :
    3 ≤ (floodFillColor matchGame.bubbles redPlaced).length ∧
    (handleMatches matchGame redPlaced).bubbles = [greenFar] ∧
    (handleMatches matchGame redPlaced).score = matchGame.score + 10 * 3 + 5 * 1 ∧
    ∃ post fallen : List Bubble,
      post.Sublist matchGame.bubbles ∧
      (∀ b, b ∈ post ↔ b ∈ matchGame.bubbles ∧ b ∉ floodFillColor matchGame.bubbles redPlaced) ∧
      (handleMatches matchGame redPlaced).bubbles.Sublist post ∧
      (handleMatches matchGame redPlaced).bubbles.Sublist matchGame.bubbles ∧
      List.Perm post ((handleMatches matchGame redPlaced).bubbles ++ fallen) ∧
      (∀ b ∈ (handleMatches matchGame redPlaced).bubbles, CeilingConnected post b) ∧
      (∀ b ∈ fallen, ¬ CeilingConnected post b) ∧
      (handleMatches matchGame redPlaced).score =
        matchGame.score + 10 * (floodFillColor matchGame.bubbles redPlaced).length
          + 5 * fallen.length :=
  ⟨by decide!, by decide!, by decide!,
    handleMatches_resolution matchGame redPlaced (by decide!)⟩

/-! ## Aim direction -/

/-- C22: when `Math.sqrt` is exact at the squared length of the clamped offset (its
value is non-negative and squares to the argument), `updateAimDirection(pos)` leaves a unit
vector pointing upwards in `aimDir`: `x² + y² = 1` and `y < 0`; the normalising length is at
least 40, so the `|| 1` guard is not taken. -/
theorem updateAimDirection_unit (env : Env) (s : Game) (pos : Point)
    (hnonneg : 0 ≤ env.sqrt ((aimOffset env pos).x * (aimOffset env pos).x
      + (aimOffset env pos).y * (aimOffset env pos).y))
    (hsq : env.sqrt ((aimOffset env pos).x * (aimOffset env pos).x
        + (aimOffset env pos).y * (aimOffset env pos).y) ^ 2 =
      (aimOffset env pos).x * (aimOffset env pos).x
        + (aimOffset env pos).y * (aimOffset env pos).y) :
    (updateAimDirection env s pos).aimDir.x ^ 2 + (updateAimDirection env s pos).aimDir.y ^ 2 = 1 ∧
    (updateAimDirection env s pos).aimDir.y < 0 ∧
    (aimOffset env pos).y ≤ -40 ∧
    40 ≤ env.sqrt ((aimOffset env pos).x * (aimOffset env pos).x
      + (aimOffset env pos).y * (aimOffset env pos).y) ∧
    (updateAimDirection env s pos).aimDir =
      ⟨(aimOffset env pos).x / env.sqrt ((aimOffset env pos).x * (aimOffset env pos).x
          + (aimOffset env pos).y * (aimOffset env pos).y),
        (aimOffset env pos).y / env.sqrt ((aimOffset env pos).x * (aimOffset env pos).x
          + (aimOffset env pos).y * (aimOffset env pos).y)⟩ ∧
    (updateAimDirection env s pos).aimPoint = pos := by
  have hy : (aimOffset env pos).y ≤ -40 := by
    unfold aimOffset
    simp only
    split_ifs with h
    · exact le_refl _
    · exact not_lt.1 h
  have hfun : (updateAimDirection env s pos).aimDir =
      ⟨(aimOffset env pos).x /
          (if env.sqrt ((aimOffset env pos).x * (aimOffset env pos).x
            + (aimOffset env pos).y * (aimOffset env pos).y) = 0 then 1
           else env.sqrt ((aimOffset env pos).x * (aimOffset env pos).x
            + (aimOffset env pos).y * (aimOffset env pos).y)),
        (aimOffset env pos).y /
          (if env.sqrt ((aimOffset env pos).x * (aimOffset env pos).x
            + (aimOffset env pos).y * (aimOffset env pos).y) = 0 then 1
           else env.sqrt ((aimOffset env pos).x * (aimOffset env pos).x
            + (aimOffset env pos).y * (aimOffset env pos).y))⟩ := rfl
  have hpoint : (updateAimDirection env s pos).aimPoint = pos := rfl
  rw [hfun]
  generalize (aimOffset env pos).x = dx at hnonneg hsq ⊢
  generalize (aimOffset env pos).y = dy at hnonneg hsq hy ⊢
  generalize env.sqrt (dx * dx + dy * dy) = r at hnonneg hsq ⊢
  have hr40 : 40 ≤ r := by
    by_contra hlt
    have hlt2 : r < 40 := not_le.1 hlt
    nlinarith
  have hrpos : 0 < r := by linarith
  have hr0 : r ≠ 0 := ne_of_gt hrpos
  rw [if_neg hr0]
  refine ⟨?_, div_neg_of_neg_of_pos (by linarith) hrpos, hy, hr40, rfl, hpoint⟩
  show (dx / r) ^ 2 + (dy / r) ^ 2 = 1
  rw [div_pow, div_pow, ← add_div, hsq]
  have e : dx ^ 2 + dy ^ 2 = dx * dx + dy * dy := by ring
  rw [e]
  exact div_self (by nlinarith)

theorem updateAimDirection_unit_witness :
    (updateAimDirection aimEnv demoGame aimPos).aimDir = ⟨3 / 5, -4 / 5⟩ ∧
    (updateAimDirection aimEnv demoGame aimPos).aimDir.x ^ 2
      + (updateAimDirection aimEnv demoGame aimPos).aimDir.y ^ 2 = 1 ∧
    (updateAimDirection aimEnv demoGame aimPos).aimDir.y < 0 :=
  have h := updateAimDirection_unit aimEnv demoGame aimPos (by decide!) (by decide!)
  ⟨by decide!, h.1, h.2.1⟩

/-! ## Every shot lands -/

theorem update_not_moving (env : Env) (t : Game) (c : Shot)
    (hc : t.currentBubble = some c) (hm : c.moving = false) : update env t = t := by
  unfold update
  split_ifs
  · rfl
  · simp [hc, hm]

theorem rounded_update_exact (env : Env) (s : Game) : Rounded.update id env s = update env s :=
  rfl

theorem spacingLoop_pos : ∀ (fuel : Nat) (a q : ℚ), 0 < q → 0 < spacingLoop fuel a q
  | 0, _, _, hq => hq
  | fuel + 1, a, q, hq => by
    unfold spacingLoop
    split_ifs
    · exact spacingLoop_pos fuel a (q / 2) (by positivity)
    · exact spacingLoop_pos fuel a (q * 2) (by positivity)
    · exact hq

theorem roundEven_error (x : ℚ) : |((roundEven x : ℤ) : ℚ) - x| ≤ 1 / 2 := by
  have h1 := Int.floor_le x
  have h2 := Int.lt_floor_add_one x
  unfold roundEven
  rw [abs_le]
  split_ifs with ha hb hc
  · constructor <;> linarith
  · push_cast
    constructor <;> linarith
  · have : x - (⌊x⌋ : ℚ) = 1 / 2 := le_antisymm (not_lt.1 hb) (not_lt.1 ha)
    constructor <;> linarith
  · have : x - (⌊x⌋ : ℚ) = 1 / 2 := le_antisymm (not_lt.1 hb) (not_lt.1 ha)
    push_cast
    constructor <;> linarith

/-- The relative error of `roundDouble` is at most `2 ^ (-53)`. -/
theorem roundDouble_error (v : ℚ) : |roundDouble v - v| ≤ 1 / 2 ^ 53 * |v| := by
  have hnn : (0 : ℚ) ≤ 1 / 2 ^ 53 * |v| := by positivity
  unfold roundDouble
  simp only
  by_cases h0 : v = 0
  · rw [if_pos h0, h0]
    simp
  · rw [if_neg h0]
    by_cases hq : spacingLoop 1100 |v| 1 * 2 ^ 52 ≤ |v| ∧ |v| < spacingLoop 1100 |v| 1 * 2 ^ 53
    · rw [if_pos hq]
      have hpos : 0 < spacingLoop 1100 |v| 1 := spacingLoop_pos 1100 |v| 1 one_pos
      generalize spacingLoop 1100 |v| 1 = q at hq hpos
      have he := roundEven_error (v / q)
      have hrw : ((roundEven (v / q) : ℤ) : ℚ) * q - v =
          (((roundEven (v / q) : ℤ) : ℚ) - v / q) * q := by
        field_simp
      rw [hrw, abs_mul, abs_of_pos hpos]
      have h3 : |((roundEven (v / q) : ℤ) : ℚ) - v / q| * q ≤ 1 / 2 * q :=
        mul_le_mul_of_nonneg_right he hpos.le
      have h4 : (1 : ℚ) / 2 * q ≤ 1 / 2 ^ 53 * |v| := by
        have := hq.1
        norm_num at this ⊢
        linarith
      linarith
    · rw [if_neg hq, sub_self, abs_zero]
      exact hnn

theorem rounding_bounds (fl : ℚ → ℚ) (u : ℚ) (hfl : ∀ v, |fl v - v| ≤ u * |v|) (v : ℚ) :
    v - u * |v| ≤ fl v ∧ fl v ≤ v + u * |v| := by
  have h := abs_le.1 (hfl v)
  constructor <;> linarith [h.1, h.2]

/-- Rounding with a relative error below 1 keeps the sign. -/
theorem rounding_nonpos_iff (fl : ℚ → ℚ) (u : ℚ) (hu1 : u < 1)
    (hfl : ∀ v, |fl v - v| ≤ u * |v|) (v : ℚ) : fl v ≤ 0 ↔ v ≤ 0 := by
  obtain ⟨h1, h2⟩ := rounding_bounds fl u hfl v
  constructor
  · intro h
    by_contra hv
    have hv2 : 0 < v := not_le.1 hv
    rw [abs_of_pos hv2] at h1
    nlinarith
  · intro hv
    rw [abs_of_nonpos hv] at h2
    nlinarith

theorem rounded_update_not_moving (fl : ℚ → ℚ) (env : Env) (t : Game) (c : Shot)
    (hc : t.currentBubble = some c) (hm : c.moving = false) : Rounded.update fl env t = t := by
  unfold Rounded.update
  split_ifs
  · rfl
  · simp [hc, hm]

theorem rounded_update_moving (fl : ℚ → ℚ) (env : Env) (s : Game) (cb : Shot)
    (hplay : s.gameState = GameState.PLAYING) (hcb : s.currentBubble = some cb)
    (hmov : cb.moving = true) :
    Rounded.update fl env s =
      if fl ((Rounded.bounceWalls fl env (Rounded.advanceShot fl cb)).y
          - (Rounded.bounceWalls fl env (Rounded.advanceShot fl cb)).radius) ≤ 0 then
        attachCurrentBubble env
          { s with
            currentBubble := some
              { Rounded.bounceWalls fl env (Rounded.advanceShot fl cb) with
                y := (Rounded.bounceWalls fl env (Rounded.advanceShot fl cb)).radius } } none
      else
        match s.bubbles.find? fun b =>
            decide (Rounded.distanceSq fl
                (Rounded.bounceWalls fl env (Rounded.advanceShot fl cb)).pos b.pos ≤
              fl (fl (fl ((Rounded.bounceWalls fl env (Rounded.advanceShot fl cb)).radius * 2) ^ 2)
                * fl (9 / 10))) with
        | some b =>
          attachCurrentBubble env
            { s with currentBubble := some (Rounded.bounceWalls fl env (Rounded.advanceShot fl cb)) }
            (some b)
        | none =>
          { s with currentBubble := some (Rounded.bounceWalls fl env (Rounded.advanceShot fl cb)) } := by
  unfold Rounded.update
  rw [if_neg (not_not.2 hplay)]
  simp only [hcb, hmov, if_true]

theorem rounded_bounce_fields (fl : ℚ → ℚ) (env : Env) (c : Shot) :
    (Rounded.bounceWalls fl env (Rounded.advanceShot fl c)).y = fl (c.y + c.dy) ∧
    (Rounded.bounceWalls fl env (Rounded.advanceShot fl c)).dy = c.dy ∧
    (Rounded.bounceWalls fl env (Rounded.advanceShot fl c)).radius = c.radius ∧
    (Rounded.bounceWalls fl env (Rounded.advanceShot fl c)).moving = c.moving := by
  unfold Rounded.bounceWalls Rounded.advanceShot
  simp only
  split_ifs <;> exact ⟨rfl, rfl, rfl, rfl⟩

/-- One tick of a shot in flight at or above the cannon line: it lands, or it
flies on with the same `dy`, its `y` moved by `dy` up to the rounding error `u * SHOOTER_Y`,
and still below the ceiling line. -/
theorem rounded_flight_step (fl : ℚ → ℚ) (u : ℚ) (env : Env) (t : Game) (c : Shot)
    (hu0 : 0 ≤ u) (hu1 : u < 1) (hfl : ∀ v, |fl v - v| ≤ u * |v|)
    (hplay : t.gameState = GameState.PLAYING) (hc : t.currentBubble = some c)
    (hmov : c.moving = true) (hrad : c.radius = BUBBLE_RADIUS) (hdy : c.dy < 0)
    (hy : c.y ≤ SHOOTER_Y env) :
    (∃ c2, (Rounded.update fl env t).currentBubble = some c2 ∧ c2.moving = false) ∨
    ((Rounded.update fl env t).gameState = GameState.PLAYING ∧
      ∃ c2, (Rounded.update fl env t).currentBubble = some c2 ∧ c2.moving = true ∧
        c2.radius = BUBBLE_RADIUS ∧ c2.dy = c.dy ∧
        c.y + c.dy - u * SHOOTER_Y env ≤ c2.y ∧ c2.y ≤ c.y + c.dy + u * SHOOTER_Y env ∧
        BUBBLE_RADIUS < c2.y) := by
  obtain ⟨fy, fdy, fr, fm⟩ := rounded_bounce_fields fl env c
  rw [rounded_update_moving fl env t c hplay hc hmov]
  split_ifs with hceil
  · left
    obtain ⟨-, -, c2, hc2, hm2⟩ := attachCurrentBubble_outcome env
      { t with
        currentBubble := some
          { Rounded.bounceWalls fl env (Rounded.advanceShot fl c) with
            y := (Rounded.bounceWalls fl env (Rounded.advanceShot fl c)).radius } } none _ rfl
    exact ⟨c2, hc2, hm2⟩
  · split
    · left
      obtain ⟨-, -, c2, hc2, hm2⟩ := attachCurrentBubble_outcome env
        { t with
          currentBubble := some (Rounded.bounceWalls fl env (Rounded.advanceShot fl c)) }
        (some _) _ rfl
      exact ⟨c2, hc2, hm2⟩
    · right
      rw [rounding_nonpos_iff fl u hu1 hfl, fy, fr, hrad] at hceil
      have habove : BUBBLE_RADIUS < fl (c.y + c.dy) := by linarith [not_le.1 hceil]
      have hR : (0 : ℚ) < BUBBLE_RADIUS := by norm_num [BUBBLE_RADIUS]
      have hvpos : 0 < c.y + c.dy := by
        by_contra hv
        have hv2 := (rounding_nonpos_iff fl u hu1 hfl (c.y + c.dy)).2 (not_lt.1 hv)
        linarith
      obtain ⟨b1, b2⟩ := rounding_bounds fl u hfl (c.y + c.dy)
      rw [abs_of_pos hvpos] at b1 b2
      have hle : u * (c.y + c.dy) ≤ u * SHOOTER_Y env :=
        mul_le_mul_of_nonneg_left (by linarith) hu0
      refine ⟨hplay, Rounded.bounceWalls fl env (Rounded.advanceShot fl c), rfl, fm.trans hmov,
        fr.trans hrad, fdy, ?_, ?_, ?_⟩
      · rw [fy]
        linarith
      · rw [fy]
        linarith
      · rw [fy]
        exact habove

/-- After `n` ticks the shot has landed, or it flies with the same `dy`, within
`n * u * SHOOTER_Y` of `n` exact steps, and (for `n ≥ 1`) below the ceiling line. -/
theorem rounded_flight_inv (fl : ℚ → ℚ) (u : ℚ) (env : Env) (s : Game) (cb : Shot)
    (hu0 : 0 ≤ u) (hu1 : u < 1) (hfl : ∀ v, |fl v - v| ≤ u * |v|)
    (hplay : s.gameState = GameState.PLAYING) (hcb : s.currentBubble = some cb)
    (hmov : cb.moving = true) (hrad : cb.radius = BUBBLE_RADIUS)
    (hdy : cb.dy < 0) (hgap : u * SHOOTER_Y env < -cb.dy) (hy : cb.y ≤ SHOOTER_Y env) :
    ∀ n : Nat,
      (∃ c, ((Rounded.update fl env)^[n] s).currentBubble = some c ∧ c.moving = false) ∨
      (((Rounded.update fl env)^[n] s).gameState = GameState.PLAYING ∧
        ∃ c, ((Rounded.update fl env)^[n] s).currentBubble = some c ∧ c.moving = true ∧
          c.radius = BUBBLE_RADIUS ∧ c.dy = cb.dy ∧
          cb.y + (n : ℚ) * (cb.dy - u * SHOOTER_Y env) ≤ c.y ∧
          c.y ≤ cb.y + (n : ℚ) * (cb.dy + u * SHOOTER_Y env) ∧
          c.y ≤ SHOOTER_Y env ∧
          (n = 0 ∨ BUBBLE_RADIUS < c.y))
  | 0 => Or.inr ⟨hplay, cb, hcb, hmov, hrad, rfl, by simp, by simp, hy, Or.inl rfl⟩
  | n + 1 => by
    rw [Function.iterate_succ_apply']
    rcases rounded_flight_inv fl u env s cb hu0 hu1 hfl hplay hcb hmov hrad hdy hgap hy n with
      ⟨c, hc, hm⟩ | ⟨hp, c, hc, hm, hr, hcdy, hlo, hhi, hcY, -⟩
    · left
      rw [rounded_update_not_moving fl env _ c hc hm]
      exact ⟨c, hc, hm⟩
    · rcases rounded_flight_step fl u env _ c hu0 hu1 hfl hp hc hm hr (hcdy ▸ hdy) hcY with
        hland | ⟨hp2, c2, hc2, hm2, hr2, hdy2, hlo2, hhi2, hab⟩
      · exact Or.inl hland
      · right
        rw [hcdy] at hlo2 hhi2
        refine ⟨hp2, c2, hc2, hm2, hr2, hdy2.trans hcdy, ?_, ?_, by linarith, Or.inr hab⟩
        · push_cast
          linarith
        · push_cast
          linarith

/-- C23, as the code has it: for a shot in flight in a Playing state, at or above the
cannon line, with `dy < 0`, when every operation is rounded with a relative error of at
most `u < 1` (doubles: `u = 2 ^ (-53)`; exact arithmetic: `u = 0`) and
`u * SHOOTER_Y < -dy`: a shot still in flight after `n` ticks has the `dy` it started with
and is within `n * u * SHOOTER_Y` of `n` exact steps higher; `y` strictly decreases on every
tick of the flight; and the shot is attached (`moving = false`) after any number `n ≥ 1` of
ticks with `n ≥ ceil((SHOOTER_Y - BUBBLE_RADIUS) / (-dy - u * SHOOTER_Y))`, whatever the
board and the wall bounces. -/
theorem shot_lands (fl : ℚ → ℚ) (u : ℚ) (env : Env) (s : Game) (cb : Shot)
    (hu0 : 0 ≤ u) (hu1 : u < 1) (hfl : ∀ v, |fl v - v| ≤ u * |v|)
    (hplay : s.gameState = GameState.PLAYING) (hcb : s.currentBubble = some cb)
    (hmov : cb.moving = true) (hrad : cb.radius = BUBBLE_RADIUS)
    (hdy : cb.dy < 0) (hgap : u * SHOOTER_Y env < -cb.dy) (hy : cb.y ≤ SHOOTER_Y env) :
    (∀ n c, ((Rounded.update fl env)^[n] s).currentBubble = some c → c.moving = true →
      c.dy = cb.dy ∧
      cb.y + (n : ℚ) * (cb.dy - u * SHOOTER_Y env) ≤ c.y ∧
      c.y ≤ cb.y + (n : ℚ) * (cb.dy + u * SHOOTER_Y env)) ∧
    (∀ n c c2, ((Rounded.update fl env)^[n] s).currentBubble = some c →
      ((Rounded.update fl env)^[n + 1] s).currentBubble = some c2 → c2.moving = true →
      c2.dy = c.dy ∧ c2.y < c.y) ∧
    (∀ n, 1 ≤ n → landingBound env u cb.dy ≤ n →
      ∃ c, ((Rounded.update fl env)^[n] s).currentBubble = some c ∧ c.moving = false) ∧
    (BUBBLE_RADIUS < SHOOTER_Y env → ∀ n, landingBound env u cb.dy ≤ n →
      ∃ c, ((Rounded.update fl env)^[n] s).currentBubble = some c ∧ c.moving = false) := by
  have inv := rounded_flight_inv fl u env s cb hu0 hu1 hfl hplay hcb hmov hrad hdy hgap hy
  have hpos0 : 0 < -cb.dy - u * SHOOTER_Y env := by linarith
  have hfly : ∀ n c, ((Rounded.update fl env)^[n] s).currentBubble = some c → c.moving = true →
      c.dy = cb.dy ∧
      cb.y + (n : ℚ) * (cb.dy - u * SHOOTER_Y env) ≤ c.y ∧
      c.y ≤ cb.y + (n : ℚ) * (cb.dy + u * SHOOTER_Y env) := by
    intro n c hc hm
    rcases inv n with ⟨c1, hc1, hm1⟩ | ⟨-, c1, hc1, -, -, h1, h2, h3, -⟩
    · rw [hc] at hc1
      rw [Option.some.inj hc1, hm1] at hm
      exact absurd hm (by simp)
    · rw [hc] at hc1
      rw [Option.some.inj hc1]
      exact ⟨h1, h2, h3⟩
  have hland : ∀ n, 1 ≤ n → landingBound env u cb.dy ≤ n →
      ∃ c, ((Rounded.update fl env)^[n] s).currentBubble = some c ∧ c.moving = false := by
    intro n hn hN
    rcases inv n with hland | ⟨-, c, hc, -, -, -, -, h2, -, h3⟩
    · exact hland
    · exfalso
      have hpos : BUBBLE_RADIUS < c.y := by
        rcases h3 with h0 | h
        · omega
        · exact h
      have hlt : (n : ℚ) < (SHOOTER_Y env - BUBBLE_RADIUS) / (-cb.dy - u * SHOOTER_Y env) := by
        rw [lt_div_iff₀ hpos0]
        have hn0 : (0 : ℚ) ≤ (n : ℚ) := Nat.cast_nonneg n
        nlinarith
      have hceil : (SHOOTER_Y env - BUBBLE_RADIUS) / (-cb.dy - u * SHOOTER_Y env) ≤
          ((landingBound env u cb.dy : Nat) : ℚ) := Nat.le_ceil _
      have hcast : ((landingBound env u cb.dy : Nat) : ℚ) ≤ (n : ℚ) := by exact_mod_cast hN
      linarith
  refine ⟨hfly, ?_, hland, ?_⟩
  · intro n c c2 hc hc2 hm2
    rcases inv n with ⟨c1, hc1, hm1⟩ | ⟨hp, c1, hc1, hm1, hr1, hdy1, -, -, hY1, -⟩
    · exfalso
      have hsame : (Rounded.update fl env)^[n + 1] s = (Rounded.update fl env)^[n] s := by
        rw [Function.iterate_succ_apply']
        exact rounded_update_not_moving fl env _ c1 hc1 hm1
      rw [hsame, hc1] at hc2
      rw [← Option.some.inj hc2, hm1] at hm2
      exact absurd hm2 (by simp)
    · rw [hc] at hc1
      rw [Option.some.inj hc1]
      rw [Function.iterate_succ_apply'] at hc2
      rcases rounded_flight_step fl u env _ c1 hu0 hu1 hfl hp (hc.trans hc1) hm1 hr1
          (hdy1 ▸ hdy) hY1 with ⟨c3, hc3, hm3⟩ | ⟨-, c3, hc3, -, -, hdy3, -, hhi3, -⟩
      · rw [hc2] at hc3
        rw [Option.some.inj hc3, hm3] at hm2
        exact absurd hm2 (by simp)
      · rw [hc2] at hc3
        rw [Option.some.inj hc3]
        refine ⟨hdy3, ?_⟩
        rw [hdy1] at hhi3
        linarith
  · intro hgeo n hN
    refine hland n ?_ hN
    have hpos : 0 < (SHOOTER_Y env - BUBBLE_RADIUS) / (-cb.dy - u * SHOOTER_Y env) :=
      div_pos (by linarith) hpos0
    have : 0 < landingBound env u cb.dy := Nat.ceil_pos.2 hpos
    omega

theorem shot_lands_witness :
    (shoot stepGame).gameState = GameState.PLAYING ∧
    (shoot stepGame).currentBubble.map Shot.dy = some (-3602879701896397 / 562949953421312) ∧
    landingBound stepEnv (1 / 2 ^ 53) (-3602879701896397 / 562949953421312) = 6 ∧
    ∃ c, ((Rounded.update roundDouble stepEnv)^[6] (shoot stepGame)).currentBubble = some c ∧
      c.moving = false :=
  have h := shot_lands roundDouble (1 / 2 ^ 53) stepEnv (shoot stepGame)
    { x := 240, y := 48, radius := 16, color := "#ff595e",
      dx := roundDouble (30 / 50) * BUBBLE_SPEED,
      dy := roundDouble (-40 / 50) * BUBBLE_SPEED, moving := true }
    (by norm_num) (by norm_num) roundDouble_error rfl rfl rfl rfl
    (by decide!) (by decide!) (by decide!)
  ⟨rfl, by decide!, by decide!, h.2.2.1 6 (by decide) (by decide!)⟩

/-- C23 fails as stated. On a canvas whose cannon line is at the ceiling line
(`HEIGHT = 76`, `SHOOTER_Y = BUBBLE_RADIUS = 16`) the bound
`ceil((SHOOTER_Y - BUBBLE_RADIUS) / (-dy))` is 0 for the shot fired straight up
(`dy = -8`), but after 0 ticks the shot is in flight; it is attached by tick 1. On the
480 x 108 canvas with the aim `(0.6, -0.8)`, `dy` is the double `-6.4`, the bound is
`ceil(32 / 6.4) = 5`, but the sums `y += dy` in doubles leave `y = 16 + 2 ^ (-47)` after
5 ticks: the shot is still in flight and is attached by tick 6. -/
theorem shot_lands_counterexample :
    (shoot shortGame).gameState = GameState.PLAYING ∧
    (shoot shortGame).currentBubble.map Shot.dy = some (-8) ∧
    landingTicks shortEnv (-8) = 0 ∧
    ((update shortEnv)^[0] (shoot shortGame)).currentBubble.map Shot.moving = some true ∧
    ((update shortEnv)^[1] (shoot shortGame)).currentBubble.map Shot.moving = some false ∧
    (shoot stepGame).gameState = GameState.PLAYING ∧
    (shoot stepGame).currentBubble.map Shot.dy = some (-3602879701896397 / 562949953421312) ∧
    landingTicks stepEnv (-3602879701896397 / 562949953421312) = 5 ∧
    ((Rounded.update roundDouble stepEnv)^[5] (shoot stepGame)).currentBubble.map Shot.moving =
      some true ∧
    ((Rounded.update roundDouble stepEnv)^[5] (shoot stepGame)).currentBubble.map Shot.y =
      some (16 + 1 / 2 ^ 47) ∧
    ((Rounded.update roundDouble stepEnv)^[6] (shoot stepGame)).currentBubble.map Shot.moving =
      some false := by
  decide!

/-! ## A fresh grid has no floaters -/

theorem gridRowLoop_cover (env : Env) (row : Nat) :
    ∀ (fuel : Nat) (x : ℚ) (s : Game),
      (env.WIDTH : ℚ) - BUBBLE_RADIUS < x + 2 * BUBBLE_RADIUS * (fuel : ℚ) →
      ∀ j : Nat, x + 2 * BUBBLE_RADIUS * (j : ℚ) ≤ (env.WIDTH : ℚ) - BUBBLE_RADIUS →
        ∃ b ∈ (gridRowLoop env row fuel x s).bubbles,
          b.x = x + 2 * BUBBLE_RADIUS * (j : ℚ) ∧
          b.y = BUBBLE_RADIUS + (row : ℚ) * (BUBBLE_RADIUS * (7 / 4))
  | 0, x, s, hf, j, hj => by
    exfalso
    have h0 : (0 : ℚ) ≤ (j : ℚ) := Nat.cast_nonneg _
    simp only [Nat.cast_zero, mul_zero, add_zero] at hf
    have : (0 : ℚ) ≤ 2 * BUBBLE_RADIUS * (j : ℚ) := by
      unfold BUBBLE_RADIUS
      nlinarith
    linarith
  | fuel + 1, x, s, hf, j, hj => by
    have h0 : (0 : ℚ) ≤ (j : ℚ) := Nat.cast_nonneg _
    have hle : x ≤ (env.WIDTH : ℚ) - BUBBLE_RADIUS := by
      have : (0 : ℚ) ≤ 2 * BUBBLE_RADIUS * (j : ℚ) := by
        unfold BUBBLE_RADIUS
        nlinarith
      linarith
    unfold gridRowLoop
    simp only
    rw [if_pos hle]
    cases j with
    | zero =>
      refine ⟨_, gridRowLoop_mem_mono env row fuel _ _ _ (List.mem_append_right _
        (List.mem_singleton_self _)), ?_, rfl⟩
      simp
    | succ j2 =>
      obtain ⟨b, hb, hx, hy⟩ := gridRowLoop_cover env row fuel (x + 2 * BUBBLE_RADIUS)
        { (randColorForLevel env s).2 with
          bubbles := (randColorForLevel env s).2.bubbles ++
            [⟨(randColorForLevel env s).2.nextId, x,
              BUBBLE_RADIUS + (row : ℚ) * (BUBBLE_RADIUS * (7 / 4)), BUBBLE_RADIUS,
              (randColorForLevel env s).1⟩]
          nextId := (randColorForLevel env s).2.nextId + 1 }
        (by push_cast at hf; linarith) j2 (by push_cast at hj; linarith)
      refine ⟨b, hb, ?_, hy⟩
      rw [hx]
      push_cast
      ring

theorem gridRow_cover (env : Env) (s : Game) (row : Nat) (j : Nat)
    (hj : BUBBLE_RADIUS + BUBBLE_RADIUS * ((row % 2 : Nat) : ℚ) + 2 * BUBBLE_RADIUS * (j : ℚ)
      ≤ (env.WIDTH : ℚ) - BUBBLE_RADIUS) :
    ∃ b ∈ (gridRow env s row).bubbles,
      b.x = BUBBLE_RADIUS + BUBBLE_RADIUS * ((row % 2 : Nat) : ℚ) + 2 * BUBBLE_RADIUS * (j : ℚ) ∧
      b.y = BUBBLE_RADIUS + (row : ℚ) * (BUBBLE_RADIUS * (7 / 4)) := by
  have hoff : (if row % 2 = 1 then BUBBLE_RADIUS else 0) =
      BUBBLE_RADIUS * ((row % 2 : Nat) : ℚ) := by
    rcases Nat.mod_two_eq_zero_or_one row with hm | hm <;> simp [hm]
  have hw : (0 : ℚ) ≤ (env.WIDTH : ℚ) := Nat.cast_nonneg _
  have hm0 : (0 : ℚ) ≤ ((row % 2 : Nat) : ℚ) := Nat.cast_nonneg _
  unfold gridRow
  simp only
  rw [hoff]
  refine gridRowLoop_cover env row env.WIDTH _ s ?_ j hj
  unfold BUBBLE_RADIUS
  nlinarith

theorem gridRows_cover (env : Env) (s : Game) :
    ∀ n : Nat, ∀ row, row < n → ∀ j : Nat,
      BUBBLE_RADIUS + BUBBLE_RADIUS * ((row % 2 : Nat) : ℚ) + 2 * BUBBLE_RADIUS * (j : ℚ)
        ≤ (env.WIDTH : ℚ) - BUBBLE_RADIUS →
      ∃ b ∈ ((List.range n).foldl (gridRow env) { s with bubbles := [] }).bubbles,
        b.x = BUBBLE_RADIUS + BUBBLE_RADIUS * ((row % 2 : Nat) : ℚ)
          + 2 * BUBBLE_RADIUS * (j : ℚ) ∧
        b.y = BUBBLE_RADIUS + (row : ℚ) * (BUBBLE_RADIUS * (7 / 4))
  | 0 => fun _ h => absurd h (Nat.not_lt_zero _)
  | n + 1 => by
    intro row hrow j hj
    rw [List.range_succ, List.foldl_append]
    rcases Nat.lt_succ_iff_lt_or_eq.1 hrow with h | h
    · obtain ⟨b, hb, hx, hy⟩ := gridRows_cover env s n row h j hj
      exact ⟨b, gridRowLoop_mem_mono env n env.WIDTH _ _ b hb, hx, hy⟩
    · subst h
      exact gridRow_cover env _ row j hj

theorem grid_step_touching (G : List Bubble) (b u : Bubble) (hb : b ∈ G) (hu : u ∈ G)
    (hy : b.y = u.y + BUBBLE_RADIUS * (7 / 4))
    (hx : b.x = u.x + BUBBLE_RADIUS ∨ b.x = u.x - BUBBLE_RADIUS) : Touching G b u := by
  refine ⟨hb, hu, ?_⟩
  simp only [distanceSq, Bubble.pos, NEIGHBOR_DIST_SQ, NEIGHBOR_DISTANCE, BUBBLE_RADIUS] at *
  rcases hx with h | h <;> rw [hy, h] <;> norm_num

/-- Every lattice bubble of the grid hangs from the row above it, down from row 0. -/
theorem grid_connected (env : Env) (s : Game) (hw : 3 * BUBBLE_RADIUS ≤ (env.WIDTH : ℚ))
    (n : Nat) :
    ∀ ra : Nat, ra < n →
      ∀ b ∈ ((List.range n).foldl (gridRow env) { s with bubbles := [] }).bubbles,
        (∃ ka : Nat,
          b.x = BUBBLE_RADIUS + BUBBLE_RADIUS * ((ra % 2 : Nat) : ℚ)
            + 2 * BUBBLE_RADIUS * (ka : ℚ) ∧
          b.y = BUBBLE_RADIUS + (ra : ℚ) * (BUBBLE_RADIUS * (7 / 4))) →
        CeilingConnected ((List.range n).foldl (gridRow env) { s with bubbles := [] }).bubbles b
  | 0, _, b, hb, ⟨ka, hx, hy⟩ => by
    refine ⟨b, hb, ?_, Relation.ReflTransGen.refl⟩
    rw [hy]
    norm_num [BUBBLE_RADIUS]
  | ra + 1, hra, b, hb, ⟨ka, hx, hy⟩ => by
    have hble := gridRows_le_width env s n b hb
    have hka : (0 : ℚ) ≤ (ka : ℚ) := Nat.cast_nonneg _
    have key : ∃ u ∈ ((List.range n).foldl (gridRow env) { s with bubbles := [] }).bubbles,
        (∃ ku : Nat,
          u.x = BUBBLE_RADIUS + BUBBLE_RADIUS * ((ra % 2 : Nat) : ℚ)
            + 2 * BUBBLE_RADIUS * (ku : ℚ) ∧
          u.y = BUBBLE_RADIUS + (ra : ℚ) * (BUBBLE_RADIUS * (7 / 4))) ∧
        (b.x = u.x + BUBBLE_RADIUS ∨ b.x = u.x - BUBBLE_RADIUS) := by
      rcases Nat.mod_two_eq_zero_or_one ra with hm | hm
      · have hm2 : (ra + 1) % 2 = 1 := by omega
        rw [hm2] at hx
        obtain ⟨u, hu, hux, huy⟩ := gridRows_cover env s n ra (by omega) ka (by
          rw [hm]
          rw [hx] at hble
          unfold BUBBLE_RADIUS at hble ⊢
          push_cast at hble ⊢
          linarith)
        refine ⟨u, hu, ⟨ka, hux, huy⟩, Or.inl ?_⟩
        rw [hx, hux, hm]
        push_cast
        ring
      · have hm2 : (ra + 1) % 2 = 0 := by omega
        rw [hm2] at hx
        cases ka with
        | zero =>
          obtain ⟨u, hu, hux, huy⟩ := gridRows_cover env s n ra (by omega) 0 (by
            rw [hm]
            unfold BUBBLE_RADIUS at hw ⊢
            push_cast
            linarith)
          refine ⟨u, hu, ⟨0, hux, huy⟩, Or.inr ?_⟩
          rw [hx, hux, hm]
          push_cast
          ring
        | succ k2 =>
          obtain ⟨u, hu, hux, huy⟩ := gridRows_cover env s n ra (by omega) k2 (by
            rw [hm]
            rw [hx] at hble
            unfold BUBBLE_RADIUS at hble ⊢
            push_cast at hble ⊢
            linarith)
          refine ⟨u, hu, ⟨k2, hux, huy⟩, Or.inl ?_⟩
          rw [hx, hux, hm]
          push_cast
          ring
    obtain ⟨u, hu, hform, hside⟩ := key
    obtain ⟨c, hc, hcy, hchain⟩ := grid_connected env s hw n ra (by omega) u hu hform
    have hyu : b.y = u.y + BUBBLE_RADIUS * (7 / 4) := by
      obtain ⟨ku, -, huy⟩ := hform
      rw [hy, huy]
      push_cast
      ring
    exact ⟨c, hc, hcy, Relation.ReflTransGen.head (grid_step_touching _ b u hb hu hyu hside) hchain⟩

theorem createInitialGrid_connected (env : Env) (s : Game)
    (hw : 3 * BUBBLE_RADIUS ≤ (env.WIDTH : ℚ)) :
    ∀ b ∈ (createInitialGrid env s).bubbles,
      CeilingConnected (createInitialGrid env s).bubbles b := by
  intro b hb
  obtain ⟨ra, ka, hx, hy, hra⟩ := (gridRows_inv env s (4 + s.level)).2 b hb
  exact grid_connected env s hw (4 + s.level) ra hra b hb ⟨ka, hx, hy⟩

theorem removeFloatingBubbles_of_connected (s : Game)
    (h : ∀ b ∈ s.bubbles, CeilingConnected s.bubbles b) : removeFloatingBubbles s = s := by
  have hf : s.bubbles.filter (fun b => decide (b ∈ topConnectedSet s.bubbles)) = s.bubbles := by
    rw [List.filter_eq_self]
    intro b hb
    simpa using (topConnectedSet_iff_ceilingConnected s.bubbles b).2 (h b hb)
  unfold removeFloatingBubbles
  simp only [hf, Nat.sub_self, gt_iff_lt, lt_self_iff_false, if_false]

/-- C24: on a canvas at least `3 * BUBBLE_RADIUS` wide, for every level, every bubble
of the grid built by `createInitialGrid` has a chain of grid bubbles, consecutive ones within
`NEIGHBOR_DIST_SQ`, to a bubble with `y ≤ 1.5 * BUBBLE_RADIUS` (a row-0 bubble); so
`removeFloatingBubbles` returns a fresh grid unchanged: nothing is removed and the score
stays. -/
theorem fresh_grid_no_floaters (env : Env) (s : Game)
    (hw : 3 * BUBBLE_RADIUS ≤ (env.WIDTH : ℚ)) :
    (∀ b ∈ (createInitialGrid env s).bubbles,
      CeilingConnected (createInitialGrid env s).bubbles b) ∧
    removeFloatingBubbles (createInitialGrid env s) = createInitialGrid env s ∧
    (removeFloatingBubbles (createInitialGrid env s)).bubbles = (createInitialGrid env s).bubbles ∧
    (removeFloatingBubbles (createInitialGrid env s)).score = s.score := by
  have hc := createInitialGrid_connected env s hw
  have he := removeFloatingBubbles_of_connected (createInitialGrid env s) hc
  refine ⟨hc, he, by rw [he], ?_⟩
  rw [he]
  exact (createInitialGrid_frame env s).2.1

theorem fresh_grid_no_floaters_witness :
    3 * BUBBLE_RADIUS ≤ (demoEnv.WIDTH : ℚ) ∧
    removeFloatingBubbles (createInitialGrid demoEnv demoGame) =
      createInitialGrid demoEnv demoGame :=
  ⟨by decide!, (fresh_grid_no_floaters demoEnv demoGame (by decide!)).2.1⟩

end BubbleShooter
